import Mathlib

/-!
# NR scheduler resource grid (`srsenb/src/stack/mac/nr/sched_nr_rb_grid.cc`)

A shallow embedding of the slot grid, its reset, and the two allocation
procedures `slot_bwp_sched::alloc_pdsch` and `slot_bwp_sched::alloc_pusch`.

Conventions of the embedding:

* `rbgmask_t` (a `bounded_bitset`) is a bit-vector `BitVec W`, `W` being the
  cell's number of resource-block groups; `(a & b).any()` is `a &&& b ≠ 0`
  and `a |= b` is `a ||| b`.
* `bounded_vector`s are lists; their capacities are parameters.
* A `tti_point` is a natural number and `bwp_grid[tti]` is the slot at ring
  position `tti % N`, `N` being the number of slots of the ring.
* A pointer to a HARQ process is an `Option` holding the state of the
  process pointed to; the process itself is an external collaborator and is
  only known through its interface (`sched_deps`).
* A failed `srsran_assert`, `back()` of an empty vector and an index out of
  range end the call without a result: `Except.error`.
-/

namespace srsenb
namespace sched_nr_impl

/-- The five outcomes of an allocation attempt that the source returns. -/
inductive alloc_result
  | success
  | sch_collision
  | no_cch_space
  | no_rnti_opportunity
  | no_grant_space
  deriving DecidableEq, Repr

/-- The two control-channel grant types the allocator asks for. -/
inductive pdcch_grant_type_t
  | dl_data
  | ul_data
  deriving DecidableEq, Repr

/-- Ways in which a call ends without returning. -/
inductive fault
  /-- a `srsran_assert` on the result of a HARQ call failed -/
  | harq_assert
  /-- the method `back()` was taken of an empty vector -/
  | back_of_empty
  /-- the index `coresets[coreset_id]` with no such element -/
  | no_coreset
  deriving DecidableEq, Repr

/-- One call on a HARQ process, with the arguments passed. -/
inductive harq_call (W : Nat)
  | new_tx (tti_tx tti_ack : Nat) (rbgmask : BitVec W) (mcs tbs : Int) (max_retx : Nat)
  | new_retx (tti_tx tti_ack : Nat) (rbgmask : BitVec W)
  deriving DecidableEq, Repr

/-- The connection configuration: the field the allocator reads. -/
structure ue_cfg_t where
  maxharq_tx : Nat
  deriving DecidableEq, Repr

/-- The allocation request `slot_ue`: one connection in one slot-processing
pass. `h_dl` and `h_ul` are the (nullable) pointers to its HARQ processes. -/
structure slot_ue (H : Type) where
  rnti : Nat
  cfg : ue_cfg_t
  pdcch_tti : Nat
  pdsch_tti : Nat
  pusch_tti : Nat
  uci_tti : Nat
  h_dl : Option H
  h_ul : Option H
  deriving DecidableEq, Repr

/-- A downlink control assignment; `dci` is what `fill_dci_ue_cfg` fills. -/
structure pdcch_dl_t (Dci : Type) where
  dci : Dci
  deriving DecidableEq, Repr

/-- An uplink control assignment. -/
structure pdcch_ul_t (Dci : Type) where
  dci : Dci
  deriving DecidableEq, Repr

/-- A downlink data grant: `sch.grant.rnti` and the PRB layout that
`bitmap_to_prb_array` writes into `sch.grant`. -/
structure pdsch_t where
  rnti : Nat
  prb_idx : List Bool
  deriving DecidableEq, Repr

/-- An uplink data grant: `dci.ctx.rnti` and `bitmap`. -/
structure pusch_grant (W : Nat) where
  rnti : Nat
  bitmap : BitVec W
  deriving DecidableEq, Repr

/-- An uplink feedback grant; the allocator only ever clears their list. -/
structure pucch_t where
  rnti : Nat
  deriving DecidableEq, Repr

/-- A control-channel region. The first four fields are the constructor
arguments of line 33; its fifth argument, the reference to the slot's
`pdcch_dl_list`, is passed explicitly to the operations below.
`consumed` is the consumed element budget, and `ul_list` the region's own
sequence of uplink assignments: the region is given no reference to the
slot's `pdcch_ul_list`. -/
structure coreset_region (Dci : Type) where
  bwp_id : Nat
  slot_idx : Nat
  nof_symbols : Nat
  nof_freq_res : Nat
  consumed : Nat
  ul_list : List (pdcch_ul_t Dci)
  deriving DecidableEq, Repr

/-- The slot grid `bwp_slot_grid`. -/
structure bwp_slot_grid (W : Nat) (Dci : Type) where
  dl_rbgs : BitVec W
  ul_rbgs : BitVec W
  coresets : List (coreset_region Dci)
  pdsch_grants : List pdsch_t
  pdcch_dl_list : List (pdcch_dl_t Dci)
  pdcch_ul_list : List (pdcch_ul_t Dci)
  pusch_grants : List (pusch_grant W)
  pucch_grants : List pucch_t
  deriving DecidableEq, Repr

/-- One bandwidth part of the cell configuration. -/
structure bwp_cfg_t where
  rb_width : Nat
  deriving DecidableEq, Repr

/-- The cell configuration: the fields the grid reads. -/
structure cell_cfg_t where
  nof_rbg : Nat
  bwps : List bwp_cfg_t
  deriving DecidableEq, Repr

/-- The cell parameters `sched_cell_params`. -/
structure sched_cell_params where
  cell_cfg : cell_cfg_t
  deriving DecidableEq, Repr

/-- The bandwidth-part grid `bwp_res_grid`: a ring of `N` slot grids. -/
structure bwp_res_grid (W N : Nat) (Dci : Type) where
  bwp_id : Nat
  cell_cfg : sched_cell_params
  slots : Fin N → bwp_slot_grid W Dci

/-- What the allocator uses and this source file does not define: the
HARQ-process interface, the two fill helpers, the capacities of the bounded
vectors and the element accounting of a control-channel region. -/
structure sched_deps (W : Nat) (H Dci : Type) where
  /-- The query `harq_proc::empty()` -/
  empty : H → Bool
  /-- The call `harq_proc::new_tx(tti_tx, tti_ack, rbgmask, mcs, tbs, max_retx)`:
  its result and the state of the process after the call -/
  new_tx : H → Nat → Nat → BitVec W → Int → Int → Nat → Bool × H
  /-- The call `harq_proc::new_retx(tti_tx, tti_ack, rbgmask, &mcs, &tbs)`: its
  result, the two values written to `mcs` and `tbs`, and the state after -/
  new_retx : H → Nat → Nat → BitVec W → Bool × Int × Int × H
  /-- The helper `fill_dci_ue_cfg(ue, dci)` -/
  fill_dci_ue_cfg : slot_ue H → Dci → Dci
  /-- the PRB layout `bitmap_to_prb_array(mask, nof_prbs, grant)` writes -/
  bitmap_to_prb_array : BitVec W → Nat → List Bool
  /-- The value of `bwp_res_grid::nof_prbs()`, from the cell parameters and the part id -/
  nof_prbs : sched_cell_params → Nat → Nat
  /-- a value-initialised DCI, as `emplace_back()` creates it -/
  dci_init : Dci
  /-- capacity of `pdsch_list_t` -/
  pdsch_cap : Nat
  /-- capacity of `pusch_list` -/
  pusch_cap : Nat
  /-- capacity of a control-assignment list -/
  pdcch_cap : Nat
  /-- element budget of a region of that many symbols and frequency resources -/
  cce_budget : Nat → Nat → Nat
  /-- elements one assignment of that aggregation index takes -/
  cce_cost : Nat → Nat

/-- What a call that returns leaves behind: the result, the grid, the
request (with the HARQ processes it points to) and the HARQ calls made. -/
structure alloc_post (W N : Nat) (H Dci : Type) where
  result : alloc_result
  bwp_grid : bwp_res_grid W N Dci
  ue : slot_ue H
  harq_calls : List (harq_call W)

section model

variable {W N : Nat} {H Dci : Type}

/-- Modelled from the spec: the index computation of
`bwp_res_grid::operator[]`, which the header declares and this source file
only uses: indexing by slot number is modulo the number `N` of slots of the
ring (spec §3). -/
def slot_index [NeZero N] (tti : Nat) : Fin N :=
  ⟨tti % N, Nat.mod_lt tti (Nat.pos_of_ne_zero (NeZero.ne N))⟩

/-- The slot grid `bwp_grid[tti]`. -/
def bwp_res_grid.slot [NeZero N] (g : bwp_res_grid W N Dci) (tti : Nat) : bwp_slot_grid W Dci :=
  g.slots (slot_index tti)

/-- Assignment through the reference `bwp_grid[tti]`. -/
def bwp_res_grid.set_slot [NeZero N] (g : bwp_res_grid W N Dci) (tti : Nat)
    (s : bwp_slot_grid W Dci) : bwp_res_grid W N Dci :=
  { g with slots := Function.update g.slots (slot_index tti) s }

/-- The test `bounded_vector::full()` for a vector of capacity `cap`: `size == cap`
(a bounded vector never holds more than its capacity). -/
def full {α : Type} (cap : Nat) (l : List α) : Bool :=
  decide (cap ≤ l.length)

/-- The test `(a & b).any()`. -/
def overlaps (a b : BitVec W) : Bool :=
  decide (a &&& b ≠ 0#W)

/-- Modelled from the spec: `coreset_region::alloc_dci`, whose source is not
part of this file (spec §3 and §4.2). The reservation fails, changing
nothing, when the region's element budget cannot take the requested
aggregation level or the assignment list is at capacity; on success it
advances the consumed budget and appends one blank assignment record to the
list of its type: for `dl_data` the slot's `pdcch_dl_list` the region was
constructed with, for `ul_data` the region's own uplink sequence. The result
is `none` for `false`, and the region and the bound list after the call for
`true`. -/
def coreset_region.alloc_dci (E : sched_deps W H Dci) (c : coreset_region Dci)
    (pdcch_dl_list : List (pdcch_dl_t Dci)) (alloc_type : pdcch_grant_type_t)
    (aggr_idx coreset_id : Nat) (user : slot_ue H) :
    Option (coreset_region Dci × List (pdcch_dl_t Dci)) :=
  if E.cce_budget c.nof_symbols c.nof_freq_res < c.consumed + E.cce_cost aggr_idx then none
  else
    match alloc_type with
    | .dl_data =>
      if full E.pdcch_cap pdcch_dl_list then none
      else some ({ c with consumed := c.consumed + E.cce_cost aggr_idx },
                 pdcch_dl_list ++ [⟨E.dci_init⟩])
    | .ul_data =>
      if full E.pdcch_cap c.ul_list then none
      else some ({ c with consumed := c.consumed + E.cce_cost aggr_idx,
                          ul_list := c.ul_list ++ [⟨E.dci_init⟩] },
                 pdcch_dl_list)

/-- Modelled from the spec: `coreset_region::reset`, whose source is not part
of this file: the consumed budget and the region's assignments are cleared. -/
def coreset_region.reset (c : coreset_region Dci) : coreset_region Dci :=
  { c with consumed := 0, ul_list := [] }

/-- Modelled from the spec: the `coreset_region` constructor, as called on
line 33: a region with nothing consumed and no assignment. -/
def coreset_region.ctor (bwp_id slot_idx nof_td_symbols nof_freq_resources : Nat) :
    coreset_region Dci :=
  { bwp_id := bwp_id, slot_idx := slot_idx, nof_symbols := nof_td_symbols,
    nof_freq_res := nof_freq_resources, consumed := 0, ul_list := [] }

/-- The constructor `bwp_slot_grid::bwp_slot_grid` (lines 30-34); `none` when
`bwps[bwp_id_]` does not exist. -/
def bwp_slot_grid.ctor (cell_params : sched_cell_params) (bwp_id_ slot_idx_ : Nat) :
    Option (bwp_slot_grid cell_params.cell_cfg.nof_rbg Dci) :=
  match cell_params.cell_cfg.bwps.get? bwp_id_ with
  | none => none
  | some bwp =>
    some { dl_rbgs := BitVec.ofNat cell_params.cell_cfg.nof_rbg 0
           ul_rbgs := BitVec.ofNat cell_params.cell_cfg.nof_rbg 0
           coresets := [coreset_region.ctor bwp_id_ slot_idx_ 1 (bwp.rb_width / 6)]
           pdsch_grants := []
           pdcch_dl_list := []
           pdcch_ul_list := []
           pusch_grants := []
           pucch_grants := [] }

/-- The method `bwp_slot_grid::reset` (lines 36-47). -/
def bwp_slot_grid.reset (s : bwp_slot_grid W Dci) : bwp_slot_grid W Dci :=
  { s with
    coresets := s.coresets.map coreset_region.reset
    dl_rbgs := 0#W
    ul_rbgs := 0#W
    pdsch_grants := []
    pdcch_dl_list := []
    pusch_grants := []
    pucch_grants := [] }

/-- The constructor `bwp_res_grid::bwp_res_grid` (lines 49-54), the ring
having `N` = `SCHED_NR_NOF_SUBFRAMES` slots, the slot at position `sl` being
built for slot index `sl`; `none` when `bwps[bwp_id_]` does not exist (the
slot constructor then fails for every slot index alike). -/
def bwp_res_grid.ctor (N : Nat) (cell_cfg_ : sched_cell_params) (bwp_id_ : Nat) :
    Option (bwp_res_grid cell_cfg_.cell_cfg.nof_rbg N Dci) :=
  match bwp_slot_grid.ctor cell_cfg_ bwp_id_ 0 with
  | none => none
  | some (s0 : bwp_slot_grid cell_cfg_.cell_cfg.nof_rbg Dci) =>
    some { bwp_id := bwp_id_
           cell_cfg := cell_cfg_
           slots := fun sl => ((bwp_slot_grid.ctor cell_cfg_ bwp_id_ sl.val).getD s0) }

/-- The constructor `cell_res_grid::cell_res_grid` (lines 56-61): the list
`bwps` of the cell grid. -/
def cell_res_grid.ctor (N : Nat) (cell_cfg_ : sched_cell_params) :
    List (Option (bwp_res_grid cell_cfg_.cell_cfg.nof_rbg N Dci)) :=
  (List.range cell_cfg_.cell_cfg.bwps.length).map (fun bwp_id => bwp_res_grid.ctor N cell_cfg_ bwp_id)

/-- The HARQ call of `alloc_pdsch` (lines 92-100). -/
def pdsch_harq_call (E : sched_deps W H Dci) (ue : slot_ue H) (h_dl : H) (dl_mask : BitVec W) :
    harq_call W :=
  if E.empty h_dl then .new_tx ue.pdsch_tti ue.uci_tti dl_mask 20 100 4
  else .new_retx ue.pdsch_tti ue.uci_tti dl_mask

/-- The HARQ call of `alloc_pusch` (lines 137-145). -/
def pusch_harq_call (E : sched_deps W H Dci) (ue : slot_ue H) (h_ul : H) (ul_mask : BitVec W) :
    harq_call W :=
  if E.empty h_ul then .new_tx ue.pusch_tti ue.pusch_tti ul_mask 20 100 ue.cfg.maxharq_tx
  else .new_retx ue.pusch_tti ue.pusch_tti ul_mask

/-- Making a call on a process: the boolean returned and the state after. -/
def harq_call.run (E : sched_deps W H Dci) (h : H) : harq_call W → Bool × H
  | .new_tx tti_tx tti_ack rbgmask mcs tbs max_retx =>
    E.new_tx h tti_tx tti_ack rbgmask mcs tbs max_retx
  | .new_retx tti_tx tti_ack rbgmask =>
    let r := E.new_retx h tti_tx tti_ack rbgmask
    (r.1, r.2.2.2)

/-- The method `slot_bwp_sched::alloc_pdsch` (lines 69-112). -/
def alloc_pdsch [NeZero N] (E : sched_deps W H Dci) (bwp_grid : bwp_res_grid W N Dci)
    (ue : slot_ue H) (dl_mask : BitVec W) : Except fault (alloc_post W N H Dci) :=
  match ue.h_dl with
  | none => .ok ⟨.no_rnti_opportunity, bwp_grid, ue, []⟩
  | some h_dl =>
    if full E.pdsch_cap (bwp_grid.slot ue.pdsch_tti).pdsch_grants then
      .ok ⟨.no_grant_space, bwp_grid, ue, []⟩
    else if overlaps (bwp_grid.slot ue.pdsch_tti).dl_rbgs dl_mask then
      .ok ⟨.sch_collision, bwp_grid, ue, []⟩
    else
      match (bwp_grid.slot ue.pdcch_tti).coresets with
      | [] => .error .no_coreset
      | coreset :: others =>
        match coreset.alloc_dci E (bwp_grid.slot ue.pdcch_tti).pdcch_dl_list .dl_data 3 0 ue with
        | none => .ok ⟨.no_cch_space, bwp_grid, ue, []⟩
        | some (coreset1, pdcch_dl_list1) =>
          let grid1 := bwp_grid.set_slot ue.pdcch_tti
            { bwp_grid.slot ue.pdcch_tti with
              coresets := coreset1 :: others, pdcch_dl_list := pdcch_dl_list1 }
          let call := pdsch_harq_call E ue h_dl dl_mask
          let ret := call.run E h_dl
          if ret.1 = false then .error .harq_assert
          else
            let ue1 : slot_ue H := { ue with h_dl := some ret.2 }
            match (grid1.slot ue.pdcch_tti).pdcch_dl_list.getLast? with
            | none => .error .back_of_empty
            | some pdcch =>
              let grid2 := grid1.set_slot ue.pdcch_tti
                { grid1.slot ue.pdcch_tti with
                  pdcch_dl_list := (grid1.slot ue.pdcch_tti).pdcch_dl_list.dropLast ++
                    [{ pdcch with dci := E.fill_dci_ue_cfg ue1 pdcch.dci }] }
              let grant : pdsch_t :=
                { rnti := ue.rnti
                  prb_idx := E.bitmap_to_prb_array dl_mask
                    (E.nof_prbs bwp_grid.cell_cfg bwp_grid.bwp_id) }
              let grid3 := grid2.set_slot ue.pdsch_tti
                { grid2.slot ue.pdsch_tti with
                  pdsch_grants := (grid2.slot ue.pdsch_tti).pdsch_grants ++ [grant]
                  dl_rbgs := (grid2.slot ue.pdsch_tti).dl_rbgs ||| dl_mask }
              .ok ⟨.success, grid3, ue1, [call]⟩

/-- The method `slot_bwp_sched::alloc_pusch` (lines 114-157). -/
def alloc_pusch [NeZero N] (E : sched_deps W H Dci) (bwp_grid : bwp_res_grid W N Dci)
    (ue : slot_ue H) (ul_mask : BitVec W) : Except fault (alloc_post W N H Dci) :=
  match ue.h_ul with
  | none => .ok ⟨.no_rnti_opportunity, bwp_grid, ue, []⟩
  | some h_ul =>
    if full E.pusch_cap (bwp_grid.slot ue.pusch_tti).pusch_grants then
      .ok ⟨.no_grant_space, bwp_grid, ue, []⟩
    else if overlaps (bwp_grid.slot ue.pusch_tti).ul_rbgs ul_mask then
      .ok ⟨.sch_collision, bwp_grid, ue, []⟩
    else
      match (bwp_grid.slot ue.pdcch_tti).coresets with
      | [] => .error .no_coreset
      | coreset :: others =>
        match coreset.alloc_dci E (bwp_grid.slot ue.pdcch_tti).pdcch_dl_list .ul_data 3 0 ue with
        | none => .ok ⟨.no_cch_space, bwp_grid, ue, []⟩
        | some (coreset1, pdcch_dl_list1) =>
          let grid1 := bwp_grid.set_slot ue.pdcch_tti
            { bwp_grid.slot ue.pdcch_tti with
              coresets := coreset1 :: others, pdcch_dl_list := pdcch_dl_list1 }
          let call := pusch_harq_call E ue h_ul ul_mask
          let ret := call.run E h_ul
          if ret.1 = false then .error .harq_assert
          else
            let ue1 : slot_ue H := { ue with h_ul := some ret.2 }
            match (grid1.slot ue.pdcch_tti).pdcch_ul_list.getLast? with
            | none => .error .back_of_empty
            | some pdcch =>
              let grid2 := grid1.set_slot ue.pdcch_tti
                { grid1.slot ue.pdcch_tti with
                  pdcch_ul_list := (grid1.slot ue.pdcch_tti).pdcch_ul_list.dropLast ++
                    [{ pdcch with dci := E.fill_dci_ue_cfg ue1 pdcch.dci }] }
              let grant : pusch_grant W := { rnti := ue.rnti, bitmap := ul_mask }
              let grid3 := grid2.set_slot ue.pusch_tti
                { grid2.slot ue.pusch_tti with
                  pusch_grants := (grid2.slot ue.pusch_tti).pusch_grants ++ [grant]
                  ul_rbgs := (grid2.slot ue.pusch_tti).ul_rbgs ||| ul_mask }
              .ok ⟨.success, grid3, ue1, [call]⟩

end model

section examples

/-- An example HARQ process for the concrete checks below: its state is the
mask stored by the transmission in flight, `none` when the process is empty.
A new transmission is accepted by an empty process only; a retransmission is
accepted by a non-empty process, and only with the stored mask. -/
def demo_deps (W : Nat) : sched_deps W (Option (BitVec W)) Nat where
  empty := fun h => h.isNone
  new_tx := fun h _ _ rbgmask _ _ _ => (h.isNone, if h.isNone then some rbgmask else h)
  new_retx := fun h _ _ rbgmask => (decide (h = some rbgmask), 20, 100, h)
  fill_dci_ue_cfg := fun ue _ => ue.rnti
  bitmap_to_prb_array := fun mask _ => (List.range W).map mask.getLsbD
  nof_prbs := fun cp _ => cp.cell_cfg.nof_rbg
  dci_init := 0
  pdsch_cap := 2
  pusch_cap := 2
  pdcch_cap := 8
  cce_budget := fun nof_symbols nof_freq_res => nof_symbols * nof_freq_res
  cce_cost := fun aggr_idx => 2 ^ aggr_idx

/-- A cell of 4 resource-block groups with one bandwidth part 96 blocks wide. -/
def demo_cell : sched_cell_params :=
  { cell_cfg := { nof_rbg := 4, bwps := [{ rb_width := 96 }] } }

/-- A slot grid as the constructor builds it for part 0 of `demo_cell`. -/
def demo_slot (slot_idx : Nat) : bwp_slot_grid 4 Nat :=
  { dl_rbgs := 0#4, ul_rbgs := 0#4
    coresets := [coreset_region.ctor 0 slot_idx 1 (96 / 6)]
    pdsch_grants := [], pdcch_dl_list := [], pdcch_ul_list := []
    pusch_grants := [], pucch_grants := [] }

/-- A ring of 10 slot grids as the constructors build it for `demo_cell`. -/
def demo_grid : bwp_res_grid 4 10 Nat :=
  { bwp_id := 0, cell_cfg := demo_cell, slots := fun sl => demo_slot sl.val }

/-- A connection with empty HARQ processes, scheduled in slot 0 for control
and downlink data, with feedback in slot 4 and uplink data in slot 4. -/
def demo_ue (rnti : Nat) : slot_ue (Option (BitVec 4)) :=
  { rnti := rnti, cfg := { maxharq_tx := 4 }, pdcch_tti := 0, pdsch_tti := 0,
    pusch_tti := 4, uci_tti := 4, h_dl := some none, h_ul := some none }

end examples

section descriptions

variable {W N : Nat} {H Dci : Type}

/-- The request after the HARQ call of `alloc_pdsch` on the process `h`. -/
def pdsch_ue_after (E : sched_deps W H Dci) (ue : slot_ue H) (h : H) (mask : BitVec W) :
    slot_ue H :=
  { ue with h_dl := some ((pdsch_harq_call E ue h mask).run E h).2 }

/-- The request after the HARQ call of `alloc_pusch` on the process `h`. -/
def pusch_ue_after (E : sched_deps W H Dci) (ue : slot_ue H) (h : H) (mask : BitVec W) :
    slot_ue H :=
  { ue with h_ul := some ((pusch_harq_call E ue h mask).run E h).2 }

/-- The grid a successful `alloc_pdsch` leaves, written out: the control slot
with the budget of region `c` advanced and one assignment, filled for the
connection, appended; then the data slot with the grant appended and the mask
merged. -/
def pdsch_committed [NeZero N] (E : sched_deps W H Dci) (g : bwp_res_grid W N Dci)
    (ue : slot_ue H) (h : H) (mask : BitVec W) (c : coreset_region Dci)
    (cs : List (coreset_region Dci)) : bwp_res_grid W N Dci :=
  let g1 := g.set_slot ue.pdcch_tti
    { g.slot ue.pdcch_tti with
      coresets := { c with consumed := c.consumed + E.cce_cost 3 } :: cs
      pdcch_dl_list := (g.slot ue.pdcch_tti).pdcch_dl_list ++
        [⟨E.fill_dci_ue_cfg (pdsch_ue_after E ue h mask) E.dci_init⟩] }
  g1.set_slot ue.pdsch_tti
    { g1.slot ue.pdsch_tti with
      pdsch_grants := (g1.slot ue.pdsch_tti).pdsch_grants ++
        [{ rnti := ue.rnti
           prb_idx := E.bitmap_to_prb_array mask (E.nof_prbs g.cell_cfg g.bwp_id) }]
      dl_rbgs := (g1.slot ue.pdsch_tti).dl_rbgs ||| mask }

/-- The grid a successful `alloc_pusch` leaves, written out, `pdcch` being
the last element of the control slot's `pdcch_ul_list` when it is taken. -/
def pusch_committed [NeZero N] (E : sched_deps W H Dci) (g : bwp_res_grid W N Dci)
    (ue : slot_ue H) (h : H) (mask : BitVec W) (c : coreset_region Dci)
    (cs : List (coreset_region Dci)) (pdcch : pdcch_ul_t Dci) : bwp_res_grid W N Dci :=
  let g1 := g.set_slot ue.pdcch_tti
    { g.slot ue.pdcch_tti with
      coresets := { c with consumed := c.consumed + E.cce_cost 3
                           ul_list := c.ul_list ++ [⟨E.dci_init⟩] } :: cs
      pdcch_ul_list := (g.slot ue.pdcch_tti).pdcch_ul_list.dropLast ++
        [⟨E.fill_dci_ue_cfg (pusch_ue_after E ue h mask) pdcch.dci⟩] }
  g1.set_slot ue.pusch_tti
    { g1.slot ue.pusch_tti with
      pusch_grants := (g1.slot ue.pusch_tti).pusch_grants ++ [{ rnti := ue.rnti, bitmap := mask }]
      ul_rbgs := (g1.slot ue.pusch_tti).ul_rbgs ||| mask }

/-- The request of `demo_ue` with a downlink HARQ process that is not empty
and stores the mask `0011`. -/
def demo_ue_retx (rnti : Nat) : slot_ue (Option (BitVec 4)) :=
  { demo_ue rnti with h_dl := some (some 3#4) }

/-- The ring `demo_grid` after the connection 17 has been given the downlink
mask `1100` in slot 0. -/
def demo_grid_busy : bwp_res_grid 4 10 Nat :=
  pdsch_committed (demo_deps 4) demo_grid (demo_ue 17) none 12#4 (coreset_region.ctor 0 0 1 16) []

/-- The downlink occupancy of slot `s` is the bitwise OR of the masks of its
committed downlink grants: there is one mask per grant of the list, in order,
each grant carrying the PRB layout derived from its mask, and a bit of the
occupancy is set exactly when some of these masks has it set. -/
def dl_occupancy_matches [NeZero N] (E : sched_deps W H Dci) (g : bwp_res_grid W N Dci)
    (s : bwp_slot_grid W Dci) : Prop :=
  ∃ masks : List (BitVec W),
    s.pdsch_grants.map (fun gr => gr.prb_idx) =
        masks.map (fun m => E.bitmap_to_prb_array m (E.nof_prbs g.cell_cfg g.bwp_id)) ∧
      ∀ i : Nat, s.dl_rbgs.getLsbD i = true ↔ ∃ m ∈ masks, m.getLsbD i = true

/-- The uplink occupancy of slot `s` is the bitwise OR of the stored bitmaps
of its committed uplink grants. -/
def ul_occupancy_matches (s : bwp_slot_grid W Dci) : Prop :=
  ∀ i : Nat, s.ul_rbgs.getLsbD i = true ↔ ∃ gr ∈ s.pusch_grants, gr.bitmap.getLsbD i = true

/-- The grids reachable from a ring of reset slot grids (a freshly
constructed slot grid is one, see `ctor_is_reset`) by calls of `alloc_pdsch`,
`alloc_pusch` and `reset` that return. -/
inductive grid_reachable [NeZero N] (E : sched_deps W H Dci) : bwp_res_grid W N Dci → Prop
  | init (g : bwp_res_grid W N Dci) (h : ∀ i, ∃ s0 : bwp_slot_grid W Dci, g.slots i = s0.reset) :
      grid_reachable E g
  | pdsch (g : bwp_res_grid W N Dci) (ue : slot_ue H) (mask : BitVec W)
      (p : alloc_post W N H Dci) (hg : grid_reachable E g)
      (hp : alloc_pdsch E g ue mask = .ok p) : grid_reachable E p.bwp_grid
  | pusch (g : bwp_res_grid W N Dci) (ue : slot_ue H) (mask : BitVec W)
      (p : alloc_post W N H Dci) (hg : grid_reachable E g)
      (hp : alloc_pusch E g ue mask = .ok p) : grid_reachable E p.bwp_grid
  | reset (g : bwp_res_grid W N Dci) (tti : Nat) (hg : grid_reachable E g) :
      grid_reachable E (g.set_slot tti (g.slot tti).reset)

/-- Downlink requests made one after the other, each on the grid the
previous one left: the grid after the last, when every one returned
`success`. -/
def all_granted_pdsch [NeZero N] (E : sched_deps W H Dci) (g : bwp_res_grid W N Dci) :
    List (slot_ue H × BitVec W) → Option (bwp_res_grid W N Dci)
  | [] => some g
  | req :: rest =>
    match alloc_pdsch E g req.1 req.2 with
    | .ok p => if p.result = .success then all_granted_pdsch E p.bwp_grid rest else none
    | .error _ => none

/-- Uplink requests made one after the other: the grid after the last, when
every one returned `success`. -/
def all_granted_pusch [NeZero N] (E : sched_deps W H Dci) (g : bwp_res_grid W N Dci) :
    List (slot_ue H × BitVec W) → Option (bwp_res_grid W N Dci)
  | [] => some g
  | req :: rest =>
    match alloc_pusch E g req.1 req.2 with
    | .ok p => if p.result = .success then all_granted_pusch E p.bwp_grid rest else none
    | .error _ => none

/-- The ring `demo_grid_busy` after the connection 18 has been given the
downlink mask `0011` in slot 0 as well: its downlink grant list is at its
capacity of 2. -/
def demo_grid_full : bwp_res_grid 4 10 Nat :=
  pdsch_committed (demo_deps 4) demo_grid_busy (demo_ue 18) none 3#4 ⟨0, 0, 1, 16, 8, []⟩ []

/-- The example collaborators with a downlink grant list of capacity 3. -/
def demo_deps3 : sched_deps 4 (Option (BitVec 4)) Nat :=
  { demo_deps 4 with pdsch_cap := 3 }

/-- A slot grid in which one uplink control assignment is recorded and the
downlink groups `1100` are taken by one grant. -/
def demo_slot_used : bwp_slot_grid 4 Nat :=
  { dl_rbgs := 12#4, ul_rbgs := 12#4
    coresets := [⟨0, 0, 1, 16, 8, [⟨0⟩]⟩]
    pdsch_grants := [⟨17, [false, false, true, true]⟩], pdcch_dl_list := [⟨17⟩]
    pdcch_ul_list := [⟨17⟩]
    pusch_grants := [⟨17, 12#4⟩], pucch_grants := [⟨17⟩] }

/-- The grid after `reset()` of the data slot and of the control slot of a
request. -/
def reset_for [NeZero N] (g : bwp_res_grid W N Dci) (data_tti pdcch_tti : Nat) :
    bwp_res_grid W N Dci :=
  let g1 := g.set_slot data_tti (g.slot data_tti).reset
  g1.set_slot pdcch_tti (g1.slot pdcch_tti).reset

/-- The example collaborators with a HARQ process that accepts a
retransmission with any mask when it is not empty, and keeps the mask its
original transmission stored. -/
def demo_deps_any_retx : sched_deps 4 (Option (BitVec 4)) Nat :=
  { demo_deps 4 with new_retx := fun h _ _ _ => (h.isSome, 20, 100, h) }

/-- The ring `demo_grid` after the connection 17, whose downlink HARQ process
stores the mask `0011`, has been given a retransmission with the proposed
mask `1100` in slot 0. -/
def demo_grid_retx : bwp_res_grid 4 10 Nat :=
  pdsch_committed demo_deps_any_retx demo_grid (demo_ue_retx 17) (some 3#4) 12#4
    (coreset_region.ctor 0 0 1 16) []

/-- The request of `demo_ue` for a connection configured with a maximum of 7
HARQ transmissions. -/
def demo_ue_cfg7 (rnti : Nat) : slot_ue (Option (BitVec 4)) :=
  { demo_ue rnti with cfg := { maxharq_tx := 7 } }

/-- The grids reachable from a ring of reset slot grids by calls of
`alloc_pdsch` and `alloc_pusch` that return, together with the record of the
successful allocations made on the way, in order and for each direction: the
ring position of the data slot and the mask committed. -/
inductive alloc_history [NeZero N] (E : sched_deps W H Dci) :
    bwp_res_grid W N Dci → List (Fin N × BitVec W) → List (Fin N × BitVec W) → Prop
  | init (g : bwp_res_grid W N Dci) (h : ∀ i, ∃ s0 : bwp_slot_grid W Dci, g.slots i = s0.reset) :
      alloc_history E g [] []
  | pdsch (g : bwp_res_grid W N Dci) (dl ul : List (Fin N × BitVec W)) (ue : slot_ue H)
      (mask : BitVec W) (p : alloc_post W N H Dci) (hg : alloc_history E g dl ul)
      (hp : alloc_pdsch E g ue mask = .ok p) :
      alloc_history E p.bwp_grid
        (if p.result = .success then dl ++ [(slot_index ue.pdsch_tti, mask)] else dl) ul
  | pusch (g : bwp_res_grid W N Dci) (dl ul : List (Fin N × BitVec W)) (ue : slot_ue H)
      (mask : BitVec W) (p : alloc_post W N H Dci) (hg : alloc_history E g dl ul)
      (hp : alloc_pusch E g ue mask = .ok p) :
      alloc_history E p.bwp_grid dl
        (if p.result = .success then ul ++ [(slot_index ue.pusch_tti, mask)] else ul)

/-- Two recorded allocations do not collide: when they are for the same data
slot their masks share no set bit. -/
def no_collision (a b : Fin N × BitVec W) : Prop :=
  a.1 = b.1 → a.2 &&& b.2 = 0#W

/-- What `alloc_pusch` does after an accepted HARQ call that left the process
in state `h2` (lines 147-156): it takes the last element of the control
slot's `pdcch_ul_list`, and ends there when the list is empty; otherwise it
fills that element, commits the grant and the mask and returns `success`,
`calls` being the HARQ calls made. -/
def pusch_finish [NeZero N] (E : sched_deps W H Dci) (g : bwp_res_grid W N Dci)
    (ue : slot_ue H) (h : H) (mask : BitVec W) (c : coreset_region Dci)
    (cs : List (coreset_region Dci)) (h2 : H) (calls : List (harq_call W)) :
    Except fault (alloc_post W N H Dci) :=
  match (g.slot ue.pdcch_tti).pdcch_ul_list.getLast? with
  | none => .error .back_of_empty
  | some pdcch =>
    .ok ⟨.success, pusch_committed E g ue h mask c cs pdcch, { ue with h_ul := some h2 }, calls⟩

/-- The four checks of `alloc_pdsch` pass: the HARQ reference is present and
points to `h`, the grant list of the data slot is not full, the mask overlaps
no occupied group, and the reservation on region `c`, the first of the
control slot's regions `c :: cs`, succeeds. -/
def pdsch_checks_pass [NeZero N] (E : sched_deps W H Dci) (g : bwp_res_grid W N Dci)
    (ue : slot_ue H) (mask : BitVec W) (h : H) (c : coreset_region Dci)
    (cs : List (coreset_region Dci)) : Prop :=
  ue.h_dl = some h ∧
    full E.pdsch_cap (g.slot ue.pdsch_tti).pdsch_grants = false ∧
    overlaps (g.slot ue.pdsch_tti).dl_rbgs mask = false ∧
    (g.slot ue.pdcch_tti).coresets = c :: cs ∧
    (c.alloc_dci E (g.slot ue.pdcch_tti).pdcch_dl_list .dl_data 3 0 ue).isSome = true

/-- The four checks of `alloc_pusch` pass. -/
def pusch_checks_pass [NeZero N] (E : sched_deps W H Dci) (g : bwp_res_grid W N Dci)
    (ue : slot_ue H) (mask : BitVec W) (h : H) (c : coreset_region Dci)
    (cs : List (coreset_region Dci)) : Prop :=
  ue.h_ul = some h ∧
    full E.pusch_cap (g.slot ue.pusch_tti).pusch_grants = false ∧
    overlaps (g.slot ue.pusch_tti).ul_rbgs mask = false ∧
    (g.slot ue.pdcch_tti).coresets = c :: cs ∧
    (c.alloc_dci E (g.slot ue.pdcch_tti).pdcch_dl_list .ul_data 3 0 ue).isSome = true

/-- The example collaborators with a HARQ process that refuses every new
transmission. -/
def demo_deps_refusing : sched_deps 4 (Option (BitVec 4)) Nat :=
  { demo_deps 4 with new_tx := fun h _ _ _ _ _ _ => (false, h) }

/-- The example collaborators with a HARQ process that accepts a new
transmission only when it is empty and the retry ceiling passed is 4. -/
def demo_deps_ceiling4 : sched_deps 4 (Option (BitVec 4)) Nat :=
  { demo_deps 4 with
    new_tx := fun h _ _ rbgmask _ _ max_retx =>
      (h.isNone && decide (max_retx = 4), if h.isNone then some rbgmask else h) }

/-- The example collaborators with a HARQ process that accepts a call only
when the data slot and the feedback slot passed are the same. -/
def demo_deps_sync : sched_deps 4 (Option (BitVec 4)) Nat :=
  { demo_deps 4 with
    new_tx := fun h tti_tx tti_ack rbgmask _ _ _ =>
      (h.isNone && decide (tti_tx = tti_ack), if h.isNone then some rbgmask else h)
    new_retx := fun h tti_tx tti_ack _ =>
      (h.isSome && decide (tti_tx = tti_ack), 20, 100, h) }

/-- The request of `demo_ue` with an uplink HARQ process that is not empty
and stores the mask `0011`. -/
def demo_ue_ul_retx (rnti : Nat) : slot_ue (Option (BitVec 4)) :=
  { demo_ue rnti with h_ul := some (some 3#4) }

end descriptions

end sched_nr_impl

/-! ## RRC: handling of uplink DCCH messages (`srsgnb/src/stack/rrc/rrc_nr.cc`)

The PDU enters the model through the outcome of `ul_dcch_msg.unpack` and the
type of the unpacked message. The user table `users` is a list of pairs of an
rnti and a user context, `users.find(rnti)` being `List.lookup`. A call is
described by the events it produces, in order, and by the way it ends. -/

/-- The type of a `c1` UL-DCCH message: the four types `handle_ul_dcch` has a
case for, and `other` for every other one. -/
inductive ul_dcch_c1_type
  | rrc_setup_complete
  | security_mode_complete
  | rrc_recfg_complete
  | ul_info_transfer
  | other
  deriving DecidableEq, Repr

/-- The outcome of unpacking a PDU as an UL-DCCH message. -/
inductive ul_dcch_unpacked
  /-- the call of `unpack` did not return `SRSASN_SUCCESS` -/
  | unpack_failed
  /-- unpacked, and the type of the message is not `c1` -/
  | not_c1
  /-- unpacked as a `c1` message of that type -/
  | c1 (t : ul_dcch_c1_type)
  deriving DecidableEq, Repr

/-- The cause given to `log_rx_pdu_fail`, named after its text. -/
inductive rx_pdu_fail_cause
  | failed_to_unpack
  | inexistent_rnti
  | unsupported_message_type
  deriving DecidableEq, Repr

/-- The handlers of a user context that the two procedures invoke. -/
inductive ue_handler
  | handle_rrc_setup_request
  | handle_rrc_setup_complete
  | handle_security_mode_complete
  | handle_rrc_reconfiguration_complete
  | handle_ul_information_transfer
  deriving DecidableEq, Repr

/-- A user context `rrc_nr::ue`, known by the rnti it was created for. -/
structure rrc_ue where
  rnti : Nat
  deriving DecidableEq, Repr

/-- What a call does that can be observed, in order. -/
inductive rrc_event
  /-- the report `log_rx_pdu_fail(rnti, lcid, pdu, cause)` -/
  | rx_pdu_fail (rnti lcid : Nat) (cause : rx_pdu_fail_cause)
  /-- the error logged by `handle_rrc_setup_request` for an rnti it does not find -/
  | setup_request_for_inexistent_rnti (rnti : Nat)
  /-- the record `log_rrc_message` of a received message -/
  | rx_message (rnti lcid : Nat) (t : ul_dcch_c1_type)
  /-- a handler invoked on a user context -/
  | handler (u : rrc_ue) (f : ue_handler)
  deriving DecidableEq, Repr

/-- How a call ends. -/
inductive rrc_ending
  /-- the procedure returns -/
  | returned
  /-- the iterator `users.end()` is dereferenced: `*ue_it->second` -/
  | dereferenced_end
  deriving DecidableEq, Repr

/-- A call: its events and its ending. -/
structure rrc_run where
  events : List rrc_event
  ending : rrc_ending
  deriving DecidableEq, Repr

/-- The value of `srb_to_lcid(lte_srb::srb0)`. -/
def srb0_lcid : Nat := 0

/-- The procedure `rrc_nr::handle_ul_dcch` (lines 462-506). -/
def rrc_nr.handle_ul_dcch (users : List (Nat × rrc_ue)) (rnti lcid : Nat)
    (unpacked : ul_dcch_unpacked) : rrc_run :=
  match unpacked with
  | .unpack_failed => ⟨[.rx_pdu_fail rnti lcid .failed_to_unpack], .returned⟩
  | .not_c1 => ⟨[.rx_pdu_fail rnti lcid .failed_to_unpack], .returned⟩
  | .c1 t =>
    let ue_it := users.lookup rnti
    let reported : List rrc_event :=
      if ue_it = none then [.rx_pdu_fail rnti lcid .inexistent_rnti] else []
    match ue_it with
    | none => ⟨reported, .dereferenced_end⟩
    | some u =>
      let logged := reported ++ [.rx_message rnti lcid t]
      match t with
      | .rrc_setup_complete =>
        ⟨logged ++ [.handler u .handle_rrc_setup_complete], .returned⟩
      | .security_mode_complete =>
        ⟨logged ++ [.handler u .handle_security_mode_complete], .returned⟩
      | .rrc_recfg_complete =>
        ⟨logged ++ [.handler u .handle_rrc_reconfiguration_complete], .returned⟩
      | .ul_info_transfer =>
        ⟨logged ++ [.handler u .handle_ul_information_transfer], .returned⟩
      | .other =>
        ⟨logged ++ [.rx_pdu_fail rnti srb0_lcid .unsupported_message_type], .returned⟩

/-- The procedure `rrc_nr::handle_rrc_setup_request` (lines 508-519). -/
def rrc_nr.handle_rrc_setup_request (users : List (Nat × rrc_ue)) (rnti : Nat) : rrc_run :=
  match users.lookup rnti with
  | none => ⟨[.setup_request_for_inexistent_rnti rnti], .returned⟩
  | some u => ⟨[.handler u .handle_rrc_setup_request], .returned⟩

namespace sched_nr_impl

section lemmas

variable {W N : Nat} {H Dci : Type}

theorem slot_set_slot_same [NeZero N] (g : bwp_res_grid W N Dci) (tti : Nat)
    (s : bwp_slot_grid W Dci) : (g.set_slot tti s).slot tti = s := by
  simp [bwp_res_grid.slot, bwp_res_grid.set_slot]

theorem slot_set_slot_of_ne [NeZero N] (g : bwp_res_grid W N Dci) (tti tti2 : Nat)
    (s : bwp_slot_grid W Dci) (h : (slot_index tti2 : Fin N) ≠ slot_index tti) :
    (g.set_slot tti s).slot tti2 = g.slot tti2 := by
  simp [bwp_res_grid.slot, bwp_res_grid.set_slot, Function.update_noteq h]

theorem alloc_dci_dl_some (E : sched_deps W H Dci) (c c1 : coreset_region Dci)
    (l l1 : List (pdcch_dl_t Dci)) (a i : Nat) (ue : slot_ue H)
    (h : c.alloc_dci E l .dl_data a i ue = some (c1, l1)) :
    l1 = l ++ [⟨E.dci_init⟩] ∧ c1 = { c with consumed := c.consumed + E.cce_cost a } ∧
      c.consumed + E.cce_cost a ≤ E.cce_budget c.nof_symbols c.nof_freq_res ∧
      full E.pdcch_cap l = false := by
  unfold coreset_region.alloc_dci at h
  split at h
  · exact absurd h (by simp)
  · rename_i hb
    simp only at h
    split at h
    · exact absurd h (by simp)
    · rename_i hf
      simp only [Option.some.injEq, Prod.mk.injEq] at h
      exact ⟨h.2.symm, h.1.symm, Nat.le_of_not_lt hb, by simpa using hf⟩

theorem alloc_dci_ul_some (E : sched_deps W H Dci) (c c1 : coreset_region Dci)
    (l l1 : List (pdcch_dl_t Dci)) (a i : Nat) (ue : slot_ue H)
    (h : c.alloc_dci E l .ul_data a i ue = some (c1, l1)) :
    l1 = l ∧ c1 = { c with consumed := c.consumed + E.cce_cost a,
                           ul_list := c.ul_list ++ [⟨E.dci_init⟩] } ∧
      c.consumed + E.cce_cost a ≤ E.cce_budget c.nof_symbols c.nof_freq_res ∧
      full E.pdcch_cap c.ul_list = false := by
  unfold coreset_region.alloc_dci at h
  split at h
  · exact absurd h (by simp)
  · rename_i hb
    simp only at h
    split at h
    · exact absurd h (by simp)
    · rename_i hf
      simp only [Option.some.injEq, Prod.mk.injEq] at h
      exact ⟨h.2.symm, h.1.symm, Nat.le_of_not_lt hb, by simpa using hf⟩

end lemmas

section commit

variable {W N : Nat} {H Dci : Type}

theorem set_slot_set_slot [NeZero N] (g : bwp_res_grid W N Dci) (tti : Nat)
    (s s2 : bwp_slot_grid W Dci) : (g.set_slot tti s).set_slot tti s2 = g.set_slot tti s2 := by
  simp [bwp_res_grid.set_slot]

theorem set_slot_cell_cfg [NeZero N] (g : bwp_res_grid W N Dci) (tti : Nat)
    (s : bwp_slot_grid W Dci) :
    (g.set_slot tti s).cell_cfg = g.cell_cfg ∧ (g.set_slot tti s).bwp_id = g.bwp_id := by
  simp [bwp_res_grid.set_slot]

/-- When the four checks pass and the HARQ call is accepted, `alloc_pdsch`
returns success with the committed grid. -/
theorem alloc_pdsch_of_pass [NeZero N] (E : sched_deps W H Dci) (g : bwp_res_grid W N Dci)
    (ue : slot_ue H) (mask : BitVec W) (h : H) (c : coreset_region Dci)
    (cs : List (coreset_region Dci)) (r : coreset_region Dci × List (pdcch_dl_t Dci))
    (hh : ue.h_dl = some h)
    (hfull : full E.pdsch_cap (g.slot ue.pdsch_tti).pdsch_grants = false)
    (hov : overlaps (g.slot ue.pdsch_tti).dl_rbgs mask = false)
    (hcs : (g.slot ue.pdcch_tti).coresets = c :: cs)
    (hdci : c.alloc_dci E (g.slot ue.pdcch_tti).pdcch_dl_list .dl_data 3 0 ue = some r)
    (hret : ((pdsch_harq_call E ue h mask).run E h).1 = true) :
    alloc_pdsch E g ue mask =
      .ok ⟨.success, pdsch_committed E g ue h mask c cs, pdsch_ue_after E ue h mask,
           [pdsch_harq_call E ue h mask]⟩ := by
  obtain ⟨c1, l1⟩ := r
  obtain ⟨hl, hc, -, -⟩ := alloc_dci_dl_some E c c1 _ l1 3 0 ue hdci
  subst hl hc
  unfold alloc_pdsch
  simp only [hh, hfull, hov, hcs, hdci, hret, slot_set_slot_same, set_slot_set_slot,
    List.getLast?_append, List.getLast?_singleton, List.dropLast_concat, set_slot_cell_cfg,
    pdsch_committed, pdsch_ue_after]
  simp

end commit

section commit_ul

variable {W N : Nat} {H Dci : Type}

/-- When the four checks pass, the HARQ call is accepted and the control
slot's `pdcch_ul_list` has a last element, `alloc_pusch` returns success with
the committed grid. -/
theorem alloc_pusch_of_pass [NeZero N] (E : sched_deps W H Dci) (g : bwp_res_grid W N Dci)
    (ue : slot_ue H) (mask : BitVec W) (h : H) (c : coreset_region Dci)
    (cs : List (coreset_region Dci)) (r : coreset_region Dci × List (pdcch_dl_t Dci))
    (pdcch : pdcch_ul_t Dci)
    (hh : ue.h_ul = some h)
    (hfull : full E.pusch_cap (g.slot ue.pusch_tti).pusch_grants = false)
    (hov : overlaps (g.slot ue.pusch_tti).ul_rbgs mask = false)
    (hcs : (g.slot ue.pdcch_tti).coresets = c :: cs)
    (hdci : c.alloc_dci E (g.slot ue.pdcch_tti).pdcch_dl_list .ul_data 3 0 ue = some r)
    (hret : ((pusch_harq_call E ue h mask).run E h).1 = true)
    (hback : (g.slot ue.pdcch_tti).pdcch_ul_list.getLast? = some pdcch) :
    alloc_pusch E g ue mask =
      .ok ⟨.success, pusch_committed E g ue h mask c cs pdcch, pusch_ue_after E ue h mask,
           [pusch_harq_call E ue h mask]⟩ := by
  obtain ⟨c1, l1⟩ := r
  obtain ⟨hl, hc, -, -⟩ := alloc_dci_ul_some E c c1 _ l1 3 0 ue hdci
  subst hl hc
  unfold alloc_pusch
  simp only [hh, hfull, hov, hcs, hdci, hret, hback, slot_set_slot_same, set_slot_set_slot,
    set_slot_cell_cfg, pusch_committed, pusch_ue_after]
  simp

/-- When the four checks pass and the control slot's `pdcch_ul_list` is
empty, `alloc_pusch` does not return: `back()` is taken of an empty vector,
unless the assertion on the HARQ call has already failed. -/
theorem alloc_pusch_of_empty_ul_list [NeZero N] (E : sched_deps W H Dci)
    (g : bwp_res_grid W N Dci) (ue : slot_ue H) (mask : BitVec W) (h : H)
    (c : coreset_region Dci) (cs : List (coreset_region Dci))
    (r : coreset_region Dci × List (pdcch_dl_t Dci))
    (hh : ue.h_ul = some h)
    (hfull : full E.pusch_cap (g.slot ue.pusch_tti).pusch_grants = false)
    (hov : overlaps (g.slot ue.pusch_tti).ul_rbgs mask = false)
    (hcs : (g.slot ue.pdcch_tti).coresets = c :: cs)
    (hdci : c.alloc_dci E (g.slot ue.pdcch_tti).pdcch_dl_list .ul_data 3 0 ue = some r)
    (hback : (g.slot ue.pdcch_tti).pdcch_ul_list = []) :
    alloc_pusch E g ue mask =
      .error (if ((pusch_harq_call E ue h mask).run E h).1 = true then .back_of_empty
              else .harq_assert) := by
  obtain ⟨c1, l1⟩ := r
  unfold alloc_pusch
  simp only [hh, hfull, hov, hcs, hdci, hback, slot_set_slot_same]
  cases hret : ((pusch_harq_call E ue h mask).run E h).1 <;> simp [hback]

/-- A call of `alloc_pdsch` that returns either reports a failure and has
changed nothing, or has passed the four checks and the HARQ handshake and
has committed. -/
theorem alloc_pdsch_inv [NeZero N] (E : sched_deps W H Dci) (g : bwp_res_grid W N Dci)
    (ue : slot_ue H) (mask : BitVec W) (p : alloc_post W N H Dci)
    (hp : alloc_pdsch E g ue mask = .ok p) :
    (p.result ≠ .success ∧ p.bwp_grid = g ∧ p.ue = ue ∧ p.harq_calls = []) ∨
    (∃ h c cs r, ue.h_dl = some h ∧
      full E.pdsch_cap (g.slot ue.pdsch_tti).pdsch_grants = false ∧
      overlaps (g.slot ue.pdsch_tti).dl_rbgs mask = false ∧
      (g.slot ue.pdcch_tti).coresets = c :: cs ∧
      c.alloc_dci E (g.slot ue.pdcch_tti).pdcch_dl_list .dl_data 3 0 ue = some r ∧
      ((pdsch_harq_call E ue h mask).run E h).1 = true ∧
      p = ⟨.success, pdsch_committed E g ue h mask c cs, pdsch_ue_after E ue h mask,
           [pdsch_harq_call E ue h mask]⟩) := by
  cases hh : ue.h_dl with
  | none =>
    left
    simp only [alloc_pdsch, hh, Except.ok.injEq] at hp
    subst hp; simp
  | some h =>
    cases hfull : full E.pdsch_cap (g.slot ue.pdsch_tti).pdsch_grants with
    | true =>
      left
      simp only [alloc_pdsch, hh, hfull, if_true, Except.ok.injEq] at hp
      subst hp; simp
    | false =>
      cases hov : overlaps (g.slot ue.pdsch_tti).dl_rbgs mask with
      | true =>
        left
        simp [alloc_pdsch, hh, hfull, hov] at hp
        subst hp; simp
      | false =>
        cases hcs : (g.slot ue.pdcch_tti).coresets with
        | nil =>
          simp [alloc_pdsch, hh, hfull, hov, hcs] at hp
        | cons c cs =>
          cases hdci : c.alloc_dci E (g.slot ue.pdcch_tti).pdcch_dl_list .dl_data 3 0 ue with
          | none =>
            left
            simp [alloc_pdsch, hh, hfull, hov, hcs, hdci] at hp
            subst hp; simp
          | some r =>
            cases hret : ((pdsch_harq_call E ue h mask).run E h).1 with
            | false =>
              simp [alloc_pdsch, hh, hfull, hov, hcs, hdci, hret] at hp
            | true =>
              right
              rw [alloc_pdsch_of_pass E g ue mask h c cs r hh hfull hov hcs hdci hret] at hp
              exact ⟨h, c, cs, r, rfl, rfl, rfl, rfl, hdci, hret, (Except.ok.inj hp).symm⟩

end commit_ul

section inversion_ul

variable {W N : Nat} {H Dci : Type}

/-- A call of `alloc_pusch` that returns either reports a failure and has
changed nothing, or has passed the four checks and the HARQ handshake, has
found a last element in the control slot's `pdcch_ul_list`, and has
committed. -/
theorem alloc_pusch_inv [NeZero N] (E : sched_deps W H Dci) (g : bwp_res_grid W N Dci)
    (ue : slot_ue H) (mask : BitVec W) (p : alloc_post W N H Dci)
    (hp : alloc_pusch E g ue mask = .ok p) :
    (p.result ≠ .success ∧ p.bwp_grid = g ∧ p.ue = ue ∧ p.harq_calls = []) ∨
    (∃ h c cs r pdcch, ue.h_ul = some h ∧
      full E.pusch_cap (g.slot ue.pusch_tti).pusch_grants = false ∧
      overlaps (g.slot ue.pusch_tti).ul_rbgs mask = false ∧
      (g.slot ue.pdcch_tti).coresets = c :: cs ∧
      c.alloc_dci E (g.slot ue.pdcch_tti).pdcch_dl_list .ul_data 3 0 ue = some r ∧
      ((pusch_harq_call E ue h mask).run E h).1 = true ∧
      (g.slot ue.pdcch_tti).pdcch_ul_list.getLast? = some pdcch ∧
      p = ⟨.success, pusch_committed E g ue h mask c cs pdcch, pusch_ue_after E ue h mask,
           [pusch_harq_call E ue h mask]⟩) := by
  cases hh : ue.h_ul with
  | none =>
    left
    simp only [alloc_pusch, hh, Except.ok.injEq] at hp
    subst hp; simp
  | some h =>
    cases hfull : full E.pusch_cap (g.slot ue.pusch_tti).pusch_grants with
    | true =>
      left
      simp [alloc_pusch, hh, hfull] at hp
      subst hp; simp
    | false =>
      cases hov : overlaps (g.slot ue.pusch_tti).ul_rbgs mask with
      | true =>
        left
        simp [alloc_pusch, hh, hfull, hov] at hp
        subst hp; simp
      | false =>
        cases hcs : (g.slot ue.pdcch_tti).coresets with
        | nil =>
          simp [alloc_pusch, hh, hfull, hov, hcs] at hp
        | cons c cs =>
          cases hdci : c.alloc_dci E (g.slot ue.pdcch_tti).pdcch_dl_list .ul_data 3 0 ue with
          | none =>
            left
            simp [alloc_pusch, hh, hfull, hov, hcs, hdci] at hp
            subst hp; simp
          | some r =>
            cases hback : (g.slot ue.pdcch_tti).pdcch_ul_list.getLast? with
            | none =>
              rw [alloc_pusch_of_empty_ul_list E g ue mask h c cs r hh hfull hov hcs hdci
                (List.getLast?_eq_none_iff.mp hback)] at hp
              exact absurd hp (by simp)
            | some pdcch =>
              cases hret : ((pusch_harq_call E ue h mask).run E h).1 with
              | false =>
                simp [alloc_pusch, hh, hfull, hov, hcs, hdci, hret] at hp
              | true =>
                right
                rw [alloc_pusch_of_pass E g ue mask h c cs r pdcch hh hfull hov hcs hdci hret
                  hback] at hp
                exact ⟨h, c, cs, r, pdcch, rfl, rfl, rfl, rfl, hdci, hret, rfl,
                  (Except.ok.inj hp).symm⟩

end inversion_ul

section ordered_checks

variable {W N : Nat} {H Dci : Type}

/-- C1, amended. The outcome of `alloc_pdsch` and of `alloc_pusch` is decided
by the four checks in order, the first failing one giving the result: an
absent HARQ reference gives `no_rnti_opportunity` whatever the grid holds, a
full grant list gives `no_grant_space` whatever the mask, then an overlap
gives `sch_collision`, then a failed reservation gives `no_cch_space`. When
all four pass, `alloc_pdsch` returns `success` if the HARQ call that follows
is accepted, and `alloc_pusch` returns no result other than `success`. -/
theorem alloc_ordered_checks [NeZero N] (E : sched_deps W H Dci) (g : bwp_res_grid W N Dci)
    (ue : slot_ue H) (mask : BitVec W) :
    (ue.h_dl = none →
      alloc_pdsch E g ue mask = .ok ⟨.no_rnti_opportunity, g, ue, []⟩) ∧
    (ue.h_dl ≠ none → full E.pdsch_cap (g.slot ue.pdsch_tti).pdsch_grants = true →
      alloc_pdsch E g ue mask = .ok ⟨.no_grant_space, g, ue, []⟩) ∧
    (ue.h_dl ≠ none → full E.pdsch_cap (g.slot ue.pdsch_tti).pdsch_grants = false →
      overlaps (g.slot ue.pdsch_tti).dl_rbgs mask = true →
      alloc_pdsch E g ue mask = .ok ⟨.sch_collision, g, ue, []⟩) ∧
    (∀ c cs, ue.h_dl ≠ none → full E.pdsch_cap (g.slot ue.pdsch_tti).pdsch_grants = false →
      overlaps (g.slot ue.pdsch_tti).dl_rbgs mask = false →
      (g.slot ue.pdcch_tti).coresets = c :: cs →
      c.alloc_dci E (g.slot ue.pdcch_tti).pdcch_dl_list .dl_data 3 0 ue = none →
      alloc_pdsch E g ue mask = .ok ⟨.no_cch_space, g, ue, []⟩) ∧
    (∀ h c cs r, ue.h_dl = some h →
      full E.pdsch_cap (g.slot ue.pdsch_tti).pdsch_grants = false →
      overlaps (g.slot ue.pdsch_tti).dl_rbgs mask = false →
      (g.slot ue.pdcch_tti).coresets = c :: cs →
      c.alloc_dci E (g.slot ue.pdcch_tti).pdcch_dl_list .dl_data 3 0 ue = some r →
      ((pdsch_harq_call E ue h mask).run E h).1 = true →
      ∃ p, alloc_pdsch E g ue mask = .ok p ∧ p.result = .success) ∧
    (ue.h_ul = none →
      alloc_pusch E g ue mask = .ok ⟨.no_rnti_opportunity, g, ue, []⟩) ∧
    (ue.h_ul ≠ none → full E.pusch_cap (g.slot ue.pusch_tti).pusch_grants = true →
      alloc_pusch E g ue mask = .ok ⟨.no_grant_space, g, ue, []⟩) ∧
    (ue.h_ul ≠ none → full E.pusch_cap (g.slot ue.pusch_tti).pusch_grants = false →
      overlaps (g.slot ue.pusch_tti).ul_rbgs mask = true →
      alloc_pusch E g ue mask = .ok ⟨.sch_collision, g, ue, []⟩) ∧
    (∀ c cs, ue.h_ul ≠ none → full E.pusch_cap (g.slot ue.pusch_tti).pusch_grants = false →
      overlaps (g.slot ue.pusch_tti).ul_rbgs mask = false →
      (g.slot ue.pdcch_tti).coresets = c :: cs →
      c.alloc_dci E (g.slot ue.pdcch_tti).pdcch_dl_list .ul_data 3 0 ue = none →
      alloc_pusch E g ue mask = .ok ⟨.no_cch_space, g, ue, []⟩) ∧
    (∀ c cs r p, ue.h_ul ≠ none →
      full E.pusch_cap (g.slot ue.pusch_tti).pusch_grants = false →
      overlaps (g.slot ue.pusch_tti).ul_rbgs mask = false →
      (g.slot ue.pdcch_tti).coresets = c :: cs →
      c.alloc_dci E (g.slot ue.pdcch_tti).pdcch_dl_list .ul_data 3 0 ue = some r →
      alloc_pusch E g ue mask = .ok p → p.result = .success) := by
  refine ⟨?_, ?_, ?_, ?_, ?_, ?_, ?_, ?_, ?_, ?_⟩
  · intro hh
    simp [alloc_pdsch, hh]
  · intro hh hfull
    obtain ⟨h, hh⟩ := Option.ne_none_iff_exists'.mp hh
    simp [alloc_pdsch, hh, hfull]
  · intro hh hfull hov
    obtain ⟨h, hh⟩ := Option.ne_none_iff_exists'.mp hh
    simp [alloc_pdsch, hh, hfull, hov]
  · intro c cs hh hfull hov hcs hdci
    obtain ⟨h, hh⟩ := Option.ne_none_iff_exists'.mp hh
    simp [alloc_pdsch, hh, hfull, hov, hcs, hdci]
  · intro h c cs r hh hfull hov hcs hdci hret
    exact ⟨_, alloc_pdsch_of_pass E g ue mask h c cs r hh hfull hov hcs hdci hret, rfl⟩
  · intro hh
    simp [alloc_pusch, hh]
  · intro hh hfull
    obtain ⟨h, hh⟩ := Option.ne_none_iff_exists'.mp hh
    simp [alloc_pusch, hh, hfull]
  · intro hh hfull hov
    obtain ⟨h, hh⟩ := Option.ne_none_iff_exists'.mp hh
    simp [alloc_pusch, hh, hfull, hov]
  · intro c cs hh hfull hov hcs hdci
    obtain ⟨h, hh⟩ := Option.ne_none_iff_exists'.mp hh
    simp [alloc_pusch, hh, hfull, hov, hcs, hdci]
  · intro c cs r p _ hfull hov hcs hdci hp
    rcases alloc_pusch_inv E g ue mask p hp with ⟨-, hg, hu, hc⟩ | ⟨h, c2, cs2, r2, pd, -, -, -, -, -, -, -, hpe⟩
    · exfalso
      cases hh : ue.h_ul with
      | none => simp [alloc_pusch, hh] at hp; subst hp; simp_all
      | some h =>
        simp [alloc_pusch, hh, hfull, hov, hcs, hdci] at hp
        split at hp
        · exact absurd hp (by simp)
        · split at hp
          · exact absurd hp (by simp)
          · simp at hp
            subst hp
            simp_all
    · rw [hpe]

end ordered_checks

section ordered_checks_examples

/-- C1 at a concrete input: on the constructed ring `demo_grid` the four
checks pass and `alloc_pdsch` returns `success`. -/
theorem alloc_ordered_checks_witness :
    ∃ p, alloc_pdsch (demo_deps 4) demo_grid (demo_ue 17) 12#4 = .ok p ∧ p.result = .success :=
  (alloc_ordered_checks (demo_deps 4) demo_grid (demo_ue 17) 12#4).2.2.2.2.1
    none (coreset_region.ctor 0 0 1 16) [] _ rfl rfl rfl rfl rfl rfl

/-- C1 as stated fails. Downlink: the HARQ reference is present, the grant
list is not full, the mask `1100` overlaps nothing and the reservation
succeeds, yet the call does not return `success`: the process refuses the
retransmission and the assertion ends the call. Uplink: on a freshly
constructed ring the four checks pass for a connection with an empty HARQ
process, yet the call does not return `success`: the slot's `pdcch_ul_list`
is empty when its last element is taken. -/
theorem alloc_four_checks_pass_no_success :
    ((demo_ue_retx 17).h_dl ≠ none ∧
      full (demo_deps 4).pdsch_cap (demo_grid.slot (demo_ue_retx 17).pdsch_tti).pdsch_grants
        = false ∧
      overlaps (demo_grid.slot (demo_ue_retx 17).pdsch_tti).dl_rbgs 12#4 = false ∧
      (∃ c cs r, (demo_grid.slot (demo_ue_retx 17).pdcch_tti).coresets = c :: cs ∧
        c.alloc_dci (demo_deps 4) (demo_grid.slot (demo_ue_retx 17).pdcch_tti).pdcch_dl_list
          .dl_data 3 0 (demo_ue_retx 17) = some r) ∧
      alloc_pdsch (demo_deps 4) demo_grid (demo_ue_retx 17) 12#4 = .error .harq_assert) ∧
    ((demo_ue 17).h_ul ≠ none ∧
      full (demo_deps 4).pusch_cap (demo_grid.slot (demo_ue 17).pusch_tti).pusch_grants
        = false ∧
      overlaps (demo_grid.slot (demo_ue 17).pusch_tti).ul_rbgs 12#4 = false ∧
      (∃ c cs r, (demo_grid.slot (demo_ue 17).pdcch_tti).coresets = c :: cs ∧
        c.alloc_dci (demo_deps 4) (demo_grid.slot (demo_ue 17).pdcch_tti).pdcch_dl_list
          .ul_data 3 0 (demo_ue 17) = some r) ∧
      alloc_pusch (demo_deps 4) demo_grid (demo_ue 17) 12#4 = .error .back_of_empty) :=
  ⟨⟨by decide, rfl, rfl, ⟨coreset_region.ctor 0 0 1 16, [], _, rfl, rfl⟩, rfl⟩,
   ⟨by decide, rfl, rfl, ⟨coreset_region.ctor 0 0 1 16, [], _, rfl, rfl⟩, rfl⟩⟩

end ordered_checks_examples

section failure_frame

variable {W N : Nat} {H Dci : Type}

/-- C2. Whenever `alloc_pdsch` or `alloc_pusch` returns a result other than
`success`, the grid it leaves is the grid it was given, in every field of
every slot (occupancy bitmaps, grant lists, control-assignment lists and the
regions with their consumed budget), the request and the HARQ processes it
points to are as they were, and no HARQ call has been made. -/
theorem alloc_failure_leaves_state [NeZero N] (E : sched_deps W H Dci)
    (g : bwp_res_grid W N Dci) (ue : slot_ue H) (mask : BitVec W)
    (p : alloc_post W N H Dci) (hres : p.result ≠ .success)
    (hp : alloc_pdsch E g ue mask = .ok p ∨ alloc_pusch E g ue mask = .ok p) :
    p.bwp_grid = g ∧ p.ue = ue ∧ p.harq_calls = [] := by
  rcases hp with hp | hp
  · rcases alloc_pdsch_inv E g ue mask p hp with ⟨-, h⟩ | ⟨_, _, _, _, _, _, _, _, _, _, hpe⟩
    · exact h
    · exact absurd (by rw [hpe]) hres
  · rcases alloc_pusch_inv E g ue mask p hp with
      ⟨-, h⟩ | ⟨_, _, _, _, _, _, _, _, _, _, _, _, hpe⟩
    · exact h
    · exact absurd (by rw [hpe]) hres

/-- C2 at a concrete input: a request for the mask `0100` on a slot whose
downlink occupancy is `1100` collides, and the region of that slot has
consumed nothing more. -/
theorem alloc_failure_leaves_state_witness :
    alloc_pdsch (demo_deps 4) demo_grid_busy (demo_ue 18) 4#4 =
        .ok ⟨.sch_collision, demo_grid_busy, demo_ue 18, []⟩ ∧
      (demo_grid_busy.slot 0).coresets.map (fun c => c.consumed) = [8] ∧
      ((⟨.sch_collision, demo_grid_busy, demo_ue 18, []⟩ :
          alloc_post 4 10 (Option (BitVec 4)) Nat).bwp_grid = demo_grid_busy ∧
        (demo_ue 18) = demo_ue 18 ∧ ([] : List (harq_call 4)) = []) :=
  ⟨rfl, rfl,
   alloc_failure_leaves_state (demo_deps 4) demo_grid_busy (demo_ue 18) 4#4
     ⟨.sch_collision, demo_grid_busy, demo_ue 18, []⟩ (by decide) (Or.inl rfl)⟩

end failure_frame

section committed_slots

variable {W N : Nat} {H Dci : Type}

theorem slot_set_slot [NeZero N] (g : bwp_res_grid W N Dci) (t0 t : Nat)
    (s : bwp_slot_grid W Dci) :
    (g.set_slot t0 s).slot t = if (slot_index t : Fin N) = slot_index t0 then s else g.slot t := by
  by_cases h : (slot_index t : Fin N) = slot_index t0
  · simp [bwp_res_grid.slot, bwp_res_grid.set_slot, h]
  · simp [bwp_res_grid.slot, bwp_res_grid.set_slot, h, Function.update_noteq h]

theorem slot_congr [NeZero N] (g : bwp_res_grid W N Dci) (t0 t : Nat)
    (h : (slot_index t : Fin N) = slot_index t0) : g.slot t = g.slot t0 := by
  simp [bwp_res_grid.slot, h]

/-- The downlink side of the slots of a committed downlink allocation. -/
theorem pdsch_committed_dl [NeZero N] (E : sched_deps W H Dci) (g : bwp_res_grid W N Dci)
    (ue : slot_ue H) (h : H) (mask : BitVec W) (c : coreset_region Dci)
    (cs : List (coreset_region Dci)) (t : Nat) :
    ((pdsch_committed E g ue h mask c cs).slot t).dl_rbgs =
        (if (slot_index t : Fin N) = slot_index ue.pdsch_tti then (g.slot t).dl_rbgs ||| mask
         else (g.slot t).dl_rbgs) ∧
      ((pdsch_committed E g ue h mask c cs).slot t).pdsch_grants =
        (if (slot_index t : Fin N) = slot_index ue.pdsch_tti then
           (g.slot t).pdsch_grants ++
             [{ rnti := ue.rnti
                prb_idx := E.bitmap_to_prb_array mask (E.nof_prbs g.cell_cfg g.bwp_id) }]
         else (g.slot t).pdsch_grants) := by
  simp only [pdsch_committed, bwp_res_grid.slot, bwp_res_grid.set_slot]
  generalize (slot_index t : Fin N) = i
  generalize (slot_index ue.pdsch_tti : Fin N) = a
  generalize (slot_index ue.pdcch_tti : Fin N) = b
  by_cases h1 : i = a <;> by_cases h2 : a = b <;> by_cases h3 : i = b <;>
    simp_all [Function.update]

/-- The control side of the slots of a committed downlink allocation. -/
theorem pdsch_committed_cch [NeZero N] (E : sched_deps W H Dci) (g : bwp_res_grid W N Dci)
    (ue : slot_ue H) (h : H) (mask : BitVec W) (c : coreset_region Dci)
    (cs : List (coreset_region Dci)) (t : Nat) :
    ((pdsch_committed E g ue h mask c cs).slot t).pdcch_dl_list =
        (if (slot_index t : Fin N) = slot_index ue.pdcch_tti then
           (g.slot t).pdcch_dl_list ++
             [⟨E.fill_dci_ue_cfg (pdsch_ue_after E ue h mask) E.dci_init⟩]
         else (g.slot t).pdcch_dl_list) ∧
      ((pdsch_committed E g ue h mask c cs).slot t).coresets =
        (if (slot_index t : Fin N) = slot_index ue.pdcch_tti then
           { c with consumed := c.consumed + E.cce_cost 3 } :: cs
         else (g.slot t).coresets) := by
  simp only [pdsch_committed, bwp_res_grid.slot, bwp_res_grid.set_slot]
  generalize (slot_index t : Fin N) = i
  generalize (slot_index ue.pdsch_tti : Fin N) = a
  generalize (slot_index ue.pdcch_tti : Fin N) = b
  by_cases h1 : i = a <;> by_cases h2 : a = b <;> by_cases h3 : i = b <;>
    simp_all [Function.update]

/-- The uplink side and the feedback grants of every slot are as they were
after a committed downlink allocation. -/
theorem pdsch_committed_ul [NeZero N] (E : sched_deps W H Dci) (g : bwp_res_grid W N Dci)
    (ue : slot_ue H) (h : H) (mask : BitVec W) (c : coreset_region Dci)
    (cs : List (coreset_region Dci)) (t : Nat) :
    ((pdsch_committed E g ue h mask c cs).slot t).ul_rbgs = (g.slot t).ul_rbgs ∧
      ((pdsch_committed E g ue h mask c cs).slot t).pusch_grants = (g.slot t).pusch_grants ∧
      ((pdsch_committed E g ue h mask c cs).slot t).pdcch_ul_list = (g.slot t).pdcch_ul_list ∧
      ((pdsch_committed E g ue h mask c cs).slot t).pucch_grants = (g.slot t).pucch_grants := by
  simp only [pdsch_committed, bwp_res_grid.slot, bwp_res_grid.set_slot]
  generalize (slot_index t : Fin N) = i
  generalize (slot_index ue.pdsch_tti : Fin N) = a
  generalize (slot_index ue.pdcch_tti : Fin N) = b
  by_cases h1 : i = a <;> by_cases h2 : a = b <;> by_cases h3 : i = b <;>
    simp_all [Function.update]

end committed_slots

section committed_slots_ul

variable {W N : Nat} {H Dci : Type}

/-- The uplink side of the slots of a committed uplink allocation. -/
theorem pusch_committed_ul [NeZero N] (E : sched_deps W H Dci) (g : bwp_res_grid W N Dci)
    (ue : slot_ue H) (h : H) (mask : BitVec W) (c : coreset_region Dci)
    (cs : List (coreset_region Dci)) (pdcch : pdcch_ul_t Dci) (t : Nat) :
    ((pusch_committed E g ue h mask c cs pdcch).slot t).ul_rbgs =
        (if (slot_index t : Fin N) = slot_index ue.pusch_tti then (g.slot t).ul_rbgs ||| mask
         else (g.slot t).ul_rbgs) ∧
      ((pusch_committed E g ue h mask c cs pdcch).slot t).pusch_grants =
        (if (slot_index t : Fin N) = slot_index ue.pusch_tti then
           (g.slot t).pusch_grants ++ [{ rnti := ue.rnti, bitmap := mask }]
         else (g.slot t).pusch_grants) := by
  simp only [pusch_committed, bwp_res_grid.slot, bwp_res_grid.set_slot]
  generalize (slot_index t : Fin N) = i
  generalize (slot_index ue.pusch_tti : Fin N) = a
  generalize (slot_index ue.pdcch_tti : Fin N) = b
  by_cases h1 : i = a <;> by_cases h2 : a = b <;> by_cases h3 : i = b <;>
    simp_all [Function.update]

/-- The control side of the slots of a committed uplink allocation. -/
theorem pusch_committed_cch [NeZero N] (E : sched_deps W H Dci) (g : bwp_res_grid W N Dci)
    (ue : slot_ue H) (h : H) (mask : BitVec W) (c : coreset_region Dci)
    (cs : List (coreset_region Dci)) (pdcch : pdcch_ul_t Dci) (t : Nat) :
    ((pusch_committed E g ue h mask c cs pdcch).slot t).pdcch_ul_list =
        (if (slot_index t : Fin N) = slot_index ue.pdcch_tti then
           (g.slot t).pdcch_ul_list.dropLast ++
             [⟨E.fill_dci_ue_cfg (pusch_ue_after E ue h mask) pdcch.dci⟩]
         else (g.slot t).pdcch_ul_list) ∧
      ((pusch_committed E g ue h mask c cs pdcch).slot t).coresets =
        (if (slot_index t : Fin N) = slot_index ue.pdcch_tti then
           { c with consumed := c.consumed + E.cce_cost 3
                    ul_list := c.ul_list ++ [⟨E.dci_init⟩] } :: cs
         else (g.slot t).coresets) := by
  simp only [pusch_committed, bwp_res_grid.slot, bwp_res_grid.set_slot]
  generalize (slot_index t : Fin N) = i
  generalize (slot_index ue.pusch_tti : Fin N) = a
  generalize (slot_index ue.pdcch_tti : Fin N) = b
  by_cases h1 : i = a <;> by_cases h2 : a = b <;> by_cases h3 : i = b <;>
    simp_all [Function.update]

/-- The downlink side and the feedback grants of every slot are as they were
after a committed uplink allocation. -/
theorem pusch_committed_dl [NeZero N] (E : sched_deps W H Dci) (g : bwp_res_grid W N Dci)
    (ue : slot_ue H) (h : H) (mask : BitVec W) (c : coreset_region Dci)
    (cs : List (coreset_region Dci)) (pdcch : pdcch_ul_t Dci) (t : Nat) :
    ((pusch_committed E g ue h mask c cs pdcch).slot t).dl_rbgs = (g.slot t).dl_rbgs ∧
      ((pusch_committed E g ue h mask c cs pdcch).slot t).pdsch_grants =
        (g.slot t).pdsch_grants ∧
      ((pusch_committed E g ue h mask c cs pdcch).slot t).pdcch_dl_list =
        (g.slot t).pdcch_dl_list ∧
      ((pusch_committed E g ue h mask c cs pdcch).slot t).pucch_grants =
        (g.slot t).pucch_grants := by
  simp only [pusch_committed, bwp_res_grid.slot, bwp_res_grid.set_slot]
  generalize (slot_index t : Fin N) = i
  generalize (slot_index ue.pusch_tti : Fin N) = a
  generalize (slot_index ue.pdcch_tti : Fin N) = b
  by_cases h1 : i = a <;> by_cases h2 : a = b <;> by_cases h3 : i = b <;>
    simp_all [Function.update]

end committed_slots_ul

section downlink_commit

variable {W N : Nat} {H Dci : Type}

/-- C5. Whenever `alloc_pdsch` returns `success`: the downlink grant list of
the slot at `ue.pdsch_tti` is the earlier list with one entry appended, which
carries the connection's rnti and the PRB layout derived from the proposed
mask; the downlink occupancy of that slot is the old occupancy or-ed with
the mask; and the downlink control-assignment list of the slot at
`ue.pdcch_tti` is the earlier list with one entry appended, the one filled
for this connection. -/
theorem alloc_pdsch_success_commit [NeZero N] (E : sched_deps W H Dci)
    (g : bwp_res_grid W N Dci) (ue : slot_ue H) (mask : BitVec W)
    (p : alloc_post W N H Dci) (hp : alloc_pdsch E g ue mask = .ok p)
    (hres : p.result = .success) :
    (p.bwp_grid.slot ue.pdsch_tti).pdsch_grants =
        (g.slot ue.pdsch_tti).pdsch_grants ++
          [{ rnti := ue.rnti
             prb_idx := E.bitmap_to_prb_array mask (E.nof_prbs g.cell_cfg g.bwp_id) }] ∧
      (p.bwp_grid.slot ue.pdsch_tti).pdsch_grants.length =
        (g.slot ue.pdsch_tti).pdsch_grants.length + 1 ∧
      (p.bwp_grid.slot ue.pdsch_tti).dl_rbgs = (g.slot ue.pdsch_tti).dl_rbgs ||| mask ∧
      (p.bwp_grid.slot ue.pdcch_tti).pdcch_dl_list =
        (g.slot ue.pdcch_tti).pdcch_dl_list ++ [⟨E.fill_dci_ue_cfg p.ue E.dci_init⟩] ∧
      p.ue.rnti = ue.rnti ∧ p.ue.cfg = ue.cfg := by
  rcases alloc_pdsch_inv E g ue mask p hp with ⟨hne, -⟩ | ⟨h, c, cs, r, -, -, -, -, -, -, hpe⟩
  · exact absurd hres hne
  · subst hpe
    have hdl := pdsch_committed_dl E g ue h mask c cs ue.pdsch_tti
    have hcch := pdsch_committed_cch E g ue h mask c cs ue.pdcch_tti
    simp only [if_true] at hdl hcch
    refine ⟨hdl.2, ?_, hdl.1, hcch.1, rfl, rfl⟩
    rw [hdl.2]
    simp

/-- C5 at a concrete input: on the constructed ring the connection 17 is
given the mask `1100` in slot 0. -/
theorem alloc_pdsch_success_commit_witness :
    alloc_pdsch (demo_deps 4) demo_grid (demo_ue 17) 12#4 =
        .ok ⟨.success, demo_grid_busy, pdsch_ue_after (demo_deps 4) (demo_ue 17) none 12#4,
             [.new_tx 0 4 12#4 20 100 4]⟩ ∧
      (demo_grid_busy.slot 0).pdsch_grants = [⟨17, [false, false, true, true]⟩] ∧
      (demo_grid_busy.slot 0).pdsch_grants.length = 0 + 1 ∧
      (demo_grid_busy.slot 0).dl_rbgs = 12#4 ∧
      (demo_grid_busy.slot 0).pdcch_dl_list = [⟨17⟩] :=
  have hp := alloc_pdsch_of_pass (demo_deps 4) demo_grid (demo_ue 17) 12#4 none
    (coreset_region.ctor 0 0 1 16) [] _ rfl rfl rfl rfl rfl rfl
  have h := alloc_pdsch_success_commit (demo_deps 4) demo_grid (demo_ue 17) 12#4 _ hp rfl
  ⟨hp, h.1, h.2.1, h.2.2.1, h.2.2.2.1⟩

end downlink_commit

section two_masks

variable {W N : Nat} {H Dci : Type}

theorem alloc_dci_dl_of_room (E : sched_deps W H Dci) (c : coreset_region Dci)
    (l : List (pdcch_dl_t Dci)) (a i : Nat) (ue : slot_ue H)
    (hb : c.consumed + E.cce_cost a ≤ E.cce_budget c.nof_symbols c.nof_freq_res)
    (hl : l.length < E.pdcch_cap) :
    c.alloc_dci E l .dl_data a i ue =
      some ({ c with consumed := c.consumed + E.cce_cost a }, l ++ [⟨E.dci_init⟩]) := by
  simp [coreset_region.alloc_dci, Nat.not_lt.mpr hb, full, hl]

theorem alloc_dci_of_no_budget (E : sched_deps W H Dci) (c : coreset_region Dci)
    (l : List (pdcch_dl_t Dci)) (ty : pdcch_grant_type_t) (a i : Nat) (ue : slot_ue H)
    (hb : E.cce_budget c.nof_symbols c.nof_freq_res < c.consumed + E.cce_cost a) :
    c.alloc_dci E l ty a i ue = none := by
  simp [coreset_region.alloc_dci, hb]

theorem overlaps_eq_false_iff (a b : BitVec W) : overlaps a b = false ↔ a &&& b = 0#W := by
  simp [overlaps]

theorem overlaps_eq_true_iff (a b : BitVec W) : overlaps a b = true ↔ a &&& b ≠ 0#W := by
  simp [overlaps]

theorem pdsch_harq_call_run_of_empty (E : sched_deps W H Dci) (ue : slot_ue H) (h : H)
    (mask : BitVec W) (he : E.empty h = true) :
    (pdsch_harq_call E ue h mask).run E h = E.new_tx h ue.pdsch_tti ue.uci_tti mask 20 100 4 := by
  simp [pdsch_harq_call, he, harq_call.run]

theorem alloc_pdsch_of_full [NeZero N] (E : sched_deps W H Dci) (g : bwp_res_grid W N Dci)
    (ue : slot_ue H) (mask : BitVec W) (h : H) (hh : ue.h_dl = some h)
    (hfull : full E.pdsch_cap (g.slot ue.pdsch_tti).pdsch_grants = true) :
    alloc_pdsch E g ue mask = .ok ⟨.no_grant_space, g, ue, []⟩ := by
  simp [alloc_pdsch, hh, hfull]

theorem alloc_pusch_of_full [NeZero N] (E : sched_deps W H Dci) (g : bwp_res_grid W N Dci)
    (ue : slot_ue H) (mask : BitVec W) (h : H) (hh : ue.h_ul = some h)
    (hfull : full E.pusch_cap (g.slot ue.pusch_tti).pusch_grants = true) :
    alloc_pusch E g ue mask = .ok ⟨.no_grant_space, g, ue, []⟩ := by
  simp [alloc_pusch, hh, hfull]

theorem alloc_pdsch_of_overlap [NeZero N] (E : sched_deps W H Dci) (g : bwp_res_grid W N Dci)
    (ue : slot_ue H) (mask : BitVec W) (h : H) (hh : ue.h_dl = some h)
    (hfull : full E.pdsch_cap (g.slot ue.pdsch_tti).pdsch_grants = false)
    (hov : overlaps (g.slot ue.pdsch_tti).dl_rbgs mask = true) :
    alloc_pdsch E g ue mask = .ok ⟨.sch_collision, g, ue, []⟩ := by
  simp [alloc_pdsch, hh, hfull, hov]

theorem alloc_pdsch_of_no_cch [NeZero N] (E : sched_deps W H Dci) (g : bwp_res_grid W N Dci)
    (ue : slot_ue H) (mask : BitVec W) (h : H) (c : coreset_region Dci)
    (cs : List (coreset_region Dci)) (hh : ue.h_dl = some h)
    (hfull : full E.pdsch_cap (g.slot ue.pdsch_tti).pdsch_grants = false)
    (hov : overlaps (g.slot ue.pdsch_tti).dl_rbgs mask = false)
    (hcs : (g.slot ue.pdcch_tti).coresets = c :: cs)
    (hdci : c.alloc_dci E (g.slot ue.pdcch_tti).pdcch_dl_list .dl_data 3 0 ue = none) :
    alloc_pdsch E g ue mask = .ok ⟨.no_cch_space, g, ue, []⟩ := by
  simp [alloc_pdsch, hh, hfull, hov, hcs, hdci]

/-- A downlink request that finds room is granted: the HARQ process is
present, empty and accepts the new transmission, the grant list is not full,
the mask overlaps nothing, and region 0 of the control slot has budget and
list room for one more assignment. -/
theorem alloc_pdsch_of_room [NeZero N] (E : sched_deps W H Dci) (g : bwp_res_grid W N Dci)
    (ue : slot_ue H) (mask : BitVec W) (h : H) (c : coreset_region Dci)
    (cs : List (coreset_region Dci))
    (hh : ue.h_dl = some h) (he : E.empty h = true)
    (htx : (E.new_tx h ue.pdsch_tti ue.uci_tti mask 20 100 4).1 = true)
    (hlen : (g.slot ue.pdsch_tti).pdsch_grants.length < E.pdsch_cap)
    (hov : (g.slot ue.pdsch_tti).dl_rbgs &&& mask = 0#W)
    (hcs : (g.slot ue.pdcch_tti).coresets = c :: cs)
    (hb : c.consumed + E.cce_cost 3 ≤ E.cce_budget c.nof_symbols c.nof_freq_res)
    (hl : (g.slot ue.pdcch_tti).pdcch_dl_list.length < E.pdcch_cap) :
    alloc_pdsch E g ue mask =
      .ok ⟨.success, pdsch_committed E g ue h mask c cs, pdsch_ue_after E ue h mask,
           [pdsch_harq_call E ue h mask]⟩ :=
  alloc_pdsch_of_pass E g ue mask h c cs _ hh (by simp [full, hlen])
    ((overlaps_eq_false_iff _ _).mpr hov) hcs (alloc_dci_dl_of_room E c _ 3 0 ue hb hl)
    (by rw [pdsch_harq_call_run_of_empty E ue h mask he]; exact htx)

theorem reset_fields (s : bwp_slot_grid W Dci) :
    s.reset.dl_rbgs = 0#W ∧ s.reset.ul_rbgs = 0#W ∧ s.reset.pdsch_grants = [] ∧
      s.reset.pusch_grants = [] ∧ s.reset.pdcch_dl_list = [] ∧ s.reset.pucch_grants = [] ∧
      s.reset.pdcch_ul_list = s.pdcch_ul_list ∧
      s.reset.coresets = s.coresets.map coreset_region.reset := by
  simp [bwp_slot_grid.reset]

/-- Two downlink requests, one after the other, for the same data slot, which
is a reset slot, by connections whose HARQ processes are empty and accept a
new transmission, with room for two grants and, in each control slot used,
for two assignments: the first is granted; if the masks share no bit the
second is granted too and the occupancy is `m1 ||| m2`; if they share a bit
the second is a collision and leaves everything as the first left it. -/
theorem alloc_pdsch_two_masks [NeZero N] (E : sched_deps W H Dci) (g : bwp_res_grid W N Dci)
    (ue1 ue2 : slot_ue H) (m1 m2 : BitVec W) (h1 h2 : H) (s0 : bwp_slot_grid W Dci)
    (c1 c2 : coreset_region Dci) (cs1 cs2 : List (coreset_region Dci))
    (hslot : (slot_index ue2.pdsch_tti : Fin N) = slot_index ue1.pdsch_tti)
    (hreset : g.slot ue1.pdsch_tti = s0.reset)
    (hcap : 2 ≤ E.pdsch_cap)
    (hh1 : ue1.h_dl = some h1) (he1 : E.empty h1 = true)
    (htx1 : (E.new_tx h1 ue1.pdsch_tti ue1.uci_tti m1 20 100 4).1 = true)
    (hh2 : ue2.h_dl = some h2) (he2 : E.empty h2 = true)
    (htx2 : (E.new_tx h2 ue2.pdsch_tti ue2.uci_tti m2 20 100 4).1 = true)
    (hcs1 : (g.slot ue1.pdcch_tti).coresets = c1 :: cs1)
    (hb1 : c1.consumed + 2 * E.cce_cost 3 ≤ E.cce_budget c1.nof_symbols c1.nof_freq_res)
    (hl1 : (g.slot ue1.pdcch_tti).pdcch_dl_list.length + 2 ≤ E.pdcch_cap)
    (hcs2 : (g.slot ue2.pdcch_tti).coresets = c2 :: cs2)
    (hb2 : c2.consumed + 2 * E.cce_cost 3 ≤ E.cce_budget c2.nof_symbols c2.nof_freq_res)
    (hl2 : (g.slot ue2.pdcch_tti).pdcch_dl_list.length + 2 ≤ E.pdcch_cap) :
    ∃ p1, alloc_pdsch E g ue1 m1 = .ok p1 ∧ p1.result = .success ∧
      (p1.bwp_grid.slot ue1.pdsch_tti).dl_rbgs = m1 ∧
      (m1 &&& m2 = 0#W → ∃ p2, alloc_pdsch E p1.bwp_grid ue2 m2 = .ok p2 ∧
        p2.result = .success ∧ (p2.bwp_grid.slot ue1.pdsch_tti).dl_rbgs = m1 ||| m2) ∧
      (m1 &&& m2 ≠ 0#W → ∃ p2, alloc_pdsch E p1.bwp_grid ue2 m2 = .ok p2 ∧
        p2.result = .sch_collision ∧ (p2.bwp_grid.slot ue1.pdsch_tti).dl_rbgs = m1) := by
  have hr := reset_fields s0
  have hstep1 := alloc_pdsch_of_room E g ue1 m1 h1 c1 cs1 hh1 he1 htx1
    (by rw [hreset, hr.2.2.1]; simp; omega) (by rw [hreset, hr.1]; simp) hcs1 (by omega)
    (by omega)
  refine ⟨_, hstep1, rfl, ?_, ?_, ?_⟩
  · have := (pdsch_committed_dl E g ue1 h1 m1 c1 cs1 ue1.pdsch_tti).1
    simp only [if_true] at this
    rw [this, hreset, hr.1]; simp
  · intro hdisj
    have hdl := pdsch_committed_dl E g ue1 h1 m1 c1 cs1 ue2.pdsch_tti
    have hcch := pdsch_committed_cch E g ue1 h1 m1 c1 cs1 ue2.pdcch_tti
    simp only [hslot, if_true, slot_congr g _ _ hslot, hreset, hr.1, hr.2.2.1] at hdl
    by_cases hsame : (slot_index ue2.pdcch_tti : Fin N) = slot_index ue1.pdcch_tti
    · simp only [hsame, if_true, slot_congr g _ _ hsame] at hcch
      have hc : c2 = c1 := by
        have := hcs2; rw [slot_congr g _ _ hsame, hcs1] at this
        exact (List.cons.inj this).1.symm
      subst hc
      have hstep2 := alloc_pdsch_of_room E (pdsch_committed E g ue1 h1 m1 c2 cs1) ue2 m2 h2
        { c2 with consumed := c2.consumed + E.cce_cost 3 } cs1 hh2 he2 htx2
        (by rw [hdl.2]; simp; omega) (by rw [hdl.1]; simpa using hdisj) hcch.2
        (by simp only; omega) (by rw [hcch.1]; simp; omega)
      refine ⟨_, hstep2, rfl, ?_⟩
      have := (pdsch_committed_dl E (pdsch_committed E g ue1 h1 m1 c2 cs1) ue2 h2 m2
        { c2 with consumed := c2.consumed + E.cce_cost 3 } cs1 ue1.pdsch_tti).1
      rw [this]
      have hd1 := (pdsch_committed_dl E g ue1 h1 m1 c2 cs1 ue1.pdsch_tti).1
      simp only [if_true] at hd1
      simp [hslot, hd1, hreset, hr.1]
    · simp only [hsame, if_false, hcs2] at hcch
      have hstep2 := alloc_pdsch_of_room E (pdsch_committed E g ue1 h1 m1 c1 cs1) ue2 m2 h2
        c2 cs2 hh2 he2 htx2
        (by rw [hdl.2]; simp; omega) (by rw [hdl.1]; simpa using hdisj) hcch.2
        (by omega) (by rw [hcch.1]; omega)
      refine ⟨_, hstep2, rfl, ?_⟩
      have := (pdsch_committed_dl E (pdsch_committed E g ue1 h1 m1 c1 cs1) ue2 h2 m2
        c2 cs2 ue1.pdsch_tti).1
      rw [this]
      have hd1 := (pdsch_committed_dl E g ue1 h1 m1 c1 cs1 ue1.pdsch_tti).1
      simp only [if_true] at hd1
      simp [hslot, hd1, hreset, hr.1]
  · intro hov
    have hdl := pdsch_committed_dl E g ue1 h1 m1 c1 cs1 ue2.pdsch_tti
    simp only [hslot, if_true, slot_congr g _ _ hslot, hreset, hr.1, hr.2.2.1] at hdl
    have hd1 := (pdsch_committed_dl E g ue1 h1 m1 c1 cs1 ue1.pdsch_tti).1
    simp only [if_true, hreset, hr.1] at hd1
    refine ⟨⟨.sch_collision, pdsch_committed E g ue1 h1 m1 c1 cs1, ue2, []⟩, ?_, rfl, ?_⟩
    · exact alloc_pdsch_of_overlap E (pdsch_committed E g ue1 h1 m1 c1 cs1) ue2 m2 h2 hh2
        (by rw [hdl.2]; simp [full]; omega)
        ((overlaps_eq_true_iff _ _).mpr (by rw [hdl.1]; simpa using hov))
    · simpa using hd1

end two_masks

section occupancy_invariant

variable {W N : Nat} {H Dci : Type}

/-- A slot grid as the constructor builds it is a reset slot grid. -/
theorem ctor_is_reset (cp : sched_cell_params) (bwp_id slot_idx : Nat)
    (s : bwp_slot_grid cp.cell_cfg.nof_rbg Dci)
    (h : bwp_slot_grid.ctor cp bwp_id slot_idx = some s) : s = s.reset := by
  unfold bwp_slot_grid.ctor at h
  split at h
  · exact absurd h (by simp)
  · simp only [Option.some.injEq] at h
    subst h
    simp [bwp_slot_grid.reset, coreset_region.reset, coreset_region.ctor]

theorem pdsch_committed_cfg [NeZero N] (E : sched_deps W H Dci) (g : bwp_res_grid W N Dci)
    (ue : slot_ue H) (h : H) (mask : BitVec W) (c : coreset_region Dci)
    (cs : List (coreset_region Dci)) :
    (pdsch_committed E g ue h mask c cs).cell_cfg = g.cell_cfg ∧
      (pdsch_committed E g ue h mask c cs).bwp_id = g.bwp_id := by
  simp [pdsch_committed, bwp_res_grid.set_slot]

theorem pusch_committed_cfg [NeZero N] (E : sched_deps W H Dci) (g : bwp_res_grid W N Dci)
    (ue : slot_ue H) (h : H) (mask : BitVec W) (c : coreset_region Dci)
    (cs : List (coreset_region Dci)) (pdcch : pdcch_ul_t Dci) :
    (pusch_committed E g ue h mask c cs pdcch).cell_cfg = g.cell_cfg ∧
      (pusch_committed E g ue h mask c cs pdcch).bwp_id = g.bwp_id := by
  simp [pusch_committed, bwp_res_grid.set_slot]

theorem dl_occupancy_matches_of_clear [NeZero N] (E : sched_deps W H Dci)
    (g : bwp_res_grid W N Dci) (s : bwp_slot_grid W Dci) (hm : s.dl_rbgs = 0#W)
    (hg : s.pdsch_grants = []) : dl_occupancy_matches E g s :=
  ⟨[], by simp [hg], by simp [hm]⟩

theorem ul_occupancy_matches_of_clear (s : bwp_slot_grid W Dci) (hm : s.ul_rbgs = 0#W)
    (hg : s.pusch_grants = []) : ul_occupancy_matches s := by
  intro i; simp [hm, hg]

theorem dl_occupancy_matches_append [NeZero N] (E : sched_deps W H Dci)
    (g g2 : bwp_res_grid W N Dci) (s s2 : bwp_slot_grid W Dci) (mask : BitVec W) (rnti : Nat)
    (hcfg : g2.cell_cfg = g.cell_cfg ∧ g2.bwp_id = g.bwp_id)
    (hs : dl_occupancy_matches E g s)
    (hm : s2.dl_rbgs = s.dl_rbgs ||| mask)
    (hgr : s2.pdsch_grants = s.pdsch_grants ++
      [{ rnti := rnti
         prb_idx := E.bitmap_to_prb_array mask (E.nof_prbs g.cell_cfg g.bwp_id) }]) :
    dl_occupancy_matches E g2 s2 := by
  obtain ⟨masks, hl, hb⟩ := hs
  refine ⟨masks ++ [mask], ?_, ?_⟩
  · simp [hgr, hl, hcfg.1, hcfg.2]
  · intro i
    simp only [hm, BitVec.getLsbD_or, Bool.or_eq_true, hb, List.mem_append, List.mem_singleton]
    constructor
    · rintro (⟨m, hmem, hbit⟩ | hbit)
      · exact ⟨m, Or.inl hmem, hbit⟩
      · exact ⟨mask, Or.inr rfl, hbit⟩
    · rintro ⟨m, hmem | rfl, hbit⟩
      · exact Or.inl ⟨m, hmem, hbit⟩
      · exact Or.inr hbit

theorem dl_occupancy_matches_congr [NeZero N] (E : sched_deps W H Dci)
    (g g2 : bwp_res_grid W N Dci) (s s2 : bwp_slot_grid W Dci)
    (hcfg : g2.cell_cfg = g.cell_cfg ∧ g2.bwp_id = g.bwp_id)
    (hs : dl_occupancy_matches E g s)
    (hm : s2.dl_rbgs = s.dl_rbgs) (hgr : s2.pdsch_grants = s.pdsch_grants) :
    dl_occupancy_matches E g2 s2 := by
  obtain ⟨masks, hl, hb⟩ := hs
  exact ⟨masks, by simp [hgr, hl, hcfg.1, hcfg.2], by simpa [hm] using hb⟩

theorem ul_occupancy_matches_append (s s2 : bwp_slot_grid W Dci) (mask : BitVec W) (rnti : Nat)
    (hs : ul_occupancy_matches s)
    (hm : s2.ul_rbgs = s.ul_rbgs ||| mask)
    (hgr : s2.pusch_grants = s.pusch_grants ++ [{ rnti := rnti, bitmap := mask }]) :
    ul_occupancy_matches s2 := by
  intro i
  simp only [hm, hgr, BitVec.getLsbD_or, Bool.or_eq_true, hs i, List.mem_append,
    List.mem_singleton]
  constructor
  · rintro (⟨gr, hmem, hbit⟩ | hbit)
    · exact ⟨gr, Or.inl hmem, hbit⟩
    · exact ⟨_, Or.inr rfl, hbit⟩
  · rintro ⟨gr, hmem | rfl, hbit⟩
    · exact Or.inl ⟨gr, hmem, hbit⟩
    · exact Or.inr hbit

theorem ul_occupancy_matches_congr (s s2 : bwp_slot_grid W Dci)
    (hs : ul_occupancy_matches s)
    (hm : s2.ul_rbgs = s.ul_rbgs) (hgr : s2.pusch_grants = s.pusch_grants) :
    ul_occupancy_matches s2 := by
  intro i; rw [hm, hgr]; exact hs i

/-- C4. In every grid reachable from reset (or freshly constructed) slot
grids by calls of `alloc_pdsch`, `alloc_pusch` and `reset`, in every slot and
for each direction, a bit of the occupancy bitmap is set if and only if the
mask of some grant of that slot's grant list for that direction has it set;
for uplink that mask is the grant's stored `bitmap`, for downlink it is the
mask the grant's PRB layout was derived from. -/
theorem occupancy_matches_grants [NeZero N] (E : sched_deps W H Dci)
    (g : bwp_res_grid W N Dci) (hg : grid_reachable E g) (tti : Nat) :
    dl_occupancy_matches E g (g.slot tti) ∧ ul_occupancy_matches (g.slot tti) := by
  induction hg generalizing tti with
  | init g h =>
    obtain ⟨s0, hs0⟩ := h (slot_index tti)
    have hr := reset_fields s0
    have e : g.slot tti = s0.reset := hs0
    exact ⟨dl_occupancy_matches_of_clear E g _ (by rw [e, hr.1]) (by rw [e, hr.2.2.1]),
      ul_occupancy_matches_of_clear _ (by rw [e, hr.2.1]) (by rw [e, hr.2.2.2.1])⟩
  | pdsch g ue mask p _ hp ih =>
    rcases alloc_pdsch_inv E g ue mask p hp with ⟨-, hpg, -, -⟩ | ⟨h, c, cs, r, -, -, -, -, -, -, hpe⟩
    · rw [hpg]; exact ih tti
    · subst hpe
      have hdl := pdsch_committed_dl E g ue h mask c cs tti
      have hul := pdsch_committed_ul E g ue h mask c cs tti
      have hcfg := pdsch_committed_cfg E g ue h mask c cs
      refine ⟨?_, ul_occupancy_matches_congr _ _ (ih tti).2 hul.1 hul.2.1⟩
      by_cases hi : (slot_index tti : Fin N) = slot_index ue.pdsch_tti
      · simp only [hi, if_true] at hdl
        exact dl_occupancy_matches_append E g _ _ _ mask ue.rnti hcfg (ih tti).1 hdl.1 hdl.2
      · simp only [hi, if_false] at hdl
        exact dl_occupancy_matches_congr E g _ _ _ hcfg (ih tti).1 hdl.1 hdl.2
  | pusch g ue mask p _ hp ih =>
    rcases alloc_pusch_inv E g ue mask p hp with
      ⟨-, hpg, -, -⟩ | ⟨h, c, cs, r, pd, -, -, -, -, -, -, -, hpe⟩
    · rw [hpg]; exact ih tti
    · subst hpe
      have hul := pusch_committed_ul E g ue h mask c cs pd tti
      have hdl := pusch_committed_dl E g ue h mask c cs pd tti
      have hcfg := pusch_committed_cfg E g ue h mask c cs pd
      refine ⟨dl_occupancy_matches_congr E g _ _ _ hcfg (ih tti).1 hdl.1 hdl.2.1, ?_⟩
      by_cases hi : (slot_index tti : Fin N) = slot_index ue.pusch_tti
      · simp only [hi, if_true] at hul
        exact ul_occupancy_matches_append _ _ mask ue.rnti (ih tti).2 hul.1 hul.2
      · simp only [hi, if_false] at hul
        exact ul_occupancy_matches_congr _ _ (ih tti).2 hul.1 hul.2
  | reset g t0 _ ih =>
    have hcfg := set_slot_cell_cfg g t0 (g.slot t0).reset
    rw [slot_set_slot]
    by_cases hi : (slot_index tti : Fin N) = slot_index t0
    · simp only [hi, if_true]
      have hr := reset_fields (g.slot t0)
      exact ⟨dl_occupancy_matches_of_clear E _ _ hr.1 hr.2.2.1,
        ul_occupancy_matches_of_clear _ hr.2.1 hr.2.2.2.1⟩
    · simp only [hi, if_false]
      exact ⟨dl_occupancy_matches_congr E g _ _ _ hcfg (ih tti).1 rfl rfl, (ih tti).2⟩

end occupancy_invariant

section examples_on_the_constructed_ring

/-- The ring `demo_grid` is the one the constructor builds for part 0 of
`demo_cell` with 10 slots. -/
theorem demo_grid_is_constructed :
    (bwp_res_grid.ctor 10 demo_cell 0 : Option (bwp_res_grid 4 10 Nat)) = some demo_grid := rfl

theorem demo_grid_reachable : grid_reachable (demo_deps 4) demo_grid :=
  grid_reachable.init demo_grid (fun i => ⟨demo_slot i.val, rfl⟩)

theorem demo_grid_busy_reachable : grid_reachable (demo_deps 4) demo_grid_busy :=
  grid_reachable.pdsch demo_grid (demo_ue 17) 12#4
    ⟨.success, demo_grid_busy, pdsch_ue_after (demo_deps 4) (demo_ue 17) none 12#4,
     [pdsch_harq_call (demo_deps 4) (demo_ue 17) none 12#4]⟩ demo_grid_reachable
    (alloc_pdsch_of_pass (demo_deps 4) demo_grid (demo_ue 17) 12#4 none
      (coreset_region.ctor 0 0 1 16) [] _ rfl rfl rfl rfl rfl rfl)

/-- C4 at a concrete input: the ring after one downlink allocation of the
mask `1100` in slot 0 is reachable, its occupancy there is `1100`, and the
invariant holds in that slot. -/
theorem occupancy_matches_grants_witness :
    grid_reachable (demo_deps 4) demo_grid_busy ∧
      (demo_grid_busy.slot 0).dl_rbgs = 12#4 ∧
      (dl_occupancy_matches (demo_deps 4) demo_grid_busy (demo_grid_busy.slot 0) ∧
        ul_occupancy_matches (demo_grid_busy.slot 0)) :=
  ⟨demo_grid_busy_reachable, rfl,
   occupancy_matches_grants (demo_deps 4) demo_grid_busy demo_grid_busy_reachable 0⟩

/-- The two-mask property of the downlink at a concrete input: the masks
`1100` and `0011` on the constructed ring. -/
theorem alloc_pdsch_two_masks_witness :
    ∃ p1, alloc_pdsch (demo_deps 4) demo_grid (demo_ue 17) 12#4 = .ok p1 ∧
      p1.result = .success ∧ (p1.bwp_grid.slot 0).dl_rbgs = 12#4 ∧
      (12#4 &&& 3#4 = 0#4 → ∃ p2, alloc_pdsch (demo_deps 4) p1.bwp_grid (demo_ue 18) 3#4 = .ok p2 ∧
        p2.result = .success ∧ (p2.bwp_grid.slot 0).dl_rbgs = 12#4 ||| 3#4) ∧
      (12#4 &&& 3#4 ≠ 0#4 → ∃ p2, alloc_pdsch (demo_deps 4) p1.bwp_grid (demo_ue 18) 3#4 = .ok p2 ∧
        p2.result = .sch_collision ∧ (p2.bwp_grid.slot 0).dl_rbgs = 12#4) :=
  alloc_pdsch_two_masks (demo_deps 4) demo_grid (demo_ue 17) (demo_ue 18) 12#4 3#4 none none
    (demo_slot 0) (coreset_region.ctor 0 0 1 16) (coreset_region.ctor 0 0 1 16) [] []
    rfl rfl (by decide) rfl rfl rfl rfl rfl rfl rfl (by decide) (by decide) rfl (by decide)
    (by decide)

/-- C3 on the uplink, at a concrete input. The data slot 4 of the constructed
ring is a reset slot, the connection's uplink HARQ process is empty and
accepts a new transmission, the grant list has room for two and region 0 of
the control slot has budget and room for two assignments; yet the first of
the two requests, for the mask `1100`, does not return `success`: the call
ends when the last element of the empty `pdcch_ul_list` is taken. -/
theorem alloc_pusch_first_of_two_masks :
    demo_grid.slot 4 = (demo_grid.slot 4).reset ∧
      (demo_ue 17).h_ul = some none ∧ (demo_deps 4).empty none = true ∧
      ((demo_deps 4).new_tx none 4 4 12#4 20 100 4).1 = true ∧
      2 ≤ (demo_deps 4).pusch_cap ∧
      (demo_grid.slot 0).coresets = [coreset_region.ctor 0 0 1 16] ∧
      0 + 2 * (demo_deps 4).cce_cost 3 ≤ (demo_deps 4).cce_budget 1 16 ∧
      0 + 2 ≤ (demo_deps 4).pdcch_cap ∧
      alloc_pusch (demo_deps 4) demo_grid (demo_ue 17) 12#4 = .error .back_of_empty :=
  ⟨rfl, rfl, rfl, rfl, by decide, rfl, by decide, by decide, rfl⟩

/-- C6 at a concrete input. On the ring the constructors build, a connection
with an empty uplink HARQ process asks for the mask `1100`. The four checks
pass: the reservation of type `ul_data` succeeds, advancing the budget of the
region, and leaves the slot's `pdcch_ul_list` empty, the region being bound
to `pdcch_dl_list` only. The call then takes the last element of that empty
list and ends without a result. -/
theorem alloc_pusch_on_constructed_grid :
    (bwp_res_grid.ctor 10 demo_cell 0 : Option (bwp_res_grid 4 10 Nat)) = some demo_grid ∧
      (coreset_region.ctor 0 0 1 16).alloc_dci (demo_deps 4) (demo_grid.slot 0).pdcch_dl_list
          .ul_data 3 0 (demo_ue 17) =
        some (⟨0, 0, 1, 16, 8, [⟨0⟩]⟩, []) ∧
      (demo_grid.slot 0).pdcch_ul_list = [] ∧
      alloc_pusch (demo_deps 4) demo_grid (demo_ue 17) 12#4 = .error .back_of_empty ∧
      ∀ p, alloc_pusch (demo_deps 4) demo_grid (demo_ue 17) 12#4 ≠ .ok p :=
  ⟨rfl, rfl, rfl, rfl, fun p hp => by
    have h : alloc_pusch (demo_deps 4) demo_grid (demo_ue 17) 12#4 = .error .back_of_empty := rfl
    rw [h] at hp
    exact absurd hp (by simp)⟩

end examples_on_the_constructed_ring

section success_step

variable {W N : Nat} {H Dci : Type}

/-- What a successful `alloc_pdsch` does to the downlink side of any slot. -/
theorem alloc_pdsch_success_step [NeZero N] (E : sched_deps W H Dci)
    (g : bwp_res_grid W N Dci) (ue : slot_ue H) (mask : BitVec W)
    (p : alloc_post W N H Dci) (hp : alloc_pdsch E g ue mask = .ok p)
    (hres : p.result = .success) (t : Nat) :
    (p.bwp_grid.slot t).dl_rbgs =
        (if (slot_index t : Fin N) = slot_index ue.pdsch_tti then (g.slot t).dl_rbgs ||| mask
         else (g.slot t).dl_rbgs) ∧
      (p.bwp_grid.slot t).pdsch_grants =
        (if (slot_index t : Fin N) = slot_index ue.pdsch_tti then
           (g.slot t).pdsch_grants ++
             [{ rnti := ue.rnti
                prb_idx := E.bitmap_to_prb_array mask (E.nof_prbs g.cell_cfg g.bwp_id) }]
         else (g.slot t).pdsch_grants) := by
  rcases alloc_pdsch_inv E g ue mask p hp with ⟨hne, -⟩ | ⟨h, c, cs, r, -, -, -, -, -, -, hpe⟩
  · exact absurd hres hne
  · subst hpe
    exact pdsch_committed_dl E g ue h mask c cs t

/-- What a successful `alloc_pusch` does to the uplink side of any slot. -/
theorem alloc_pusch_success_step [NeZero N] (E : sched_deps W H Dci)
    (g : bwp_res_grid W N Dci) (ue : slot_ue H) (mask : BitVec W)
    (p : alloc_post W N H Dci) (hp : alloc_pusch E g ue mask = .ok p)
    (hres : p.result = .success) (t : Nat) :
    (p.bwp_grid.slot t).ul_rbgs =
        (if (slot_index t : Fin N) = slot_index ue.pusch_tti then (g.slot t).ul_rbgs ||| mask
         else (g.slot t).ul_rbgs) ∧
      (p.bwp_grid.slot t).pusch_grants =
        (if (slot_index t : Fin N) = slot_index ue.pusch_tti then
           (g.slot t).pusch_grants ++ [{ rnti := ue.rnti, bitmap := mask }]
         else (g.slot t).pusch_grants) := by
  rcases alloc_pusch_inv E g ue mask p hp with
    ⟨hne, -⟩ | ⟨h, c, cs, r, pd, -, -, -, -, -, -, -, hpe⟩
  · exact absurd hres hne
  · subst hpe
    exact pusch_committed_ul E g ue h mask c cs pd t

end success_step

section grant_capacity

variable {W N : Nat} {H Dci : Type}

theorem all_granted_pdsch_length [NeZero N] (E : sched_deps W H Dci) (t : Nat)
    (reqs : List (slot_ue H × BitVec W)) (g g2 : bwp_res_grid W N Dci)
    (hrun : all_granted_pdsch E g reqs = some g2) :
    (g2.slot t).pdsch_grants.length = (g.slot t).pdsch_grants.length +
      reqs.countP (fun r => decide ((slot_index r.1.pdsch_tti : Fin N) = slot_index t)) := by
  induction reqs generalizing g with
  | nil =>
    simp only [all_granted_pdsch, Option.some.injEq] at hrun
    subst hrun; simp
  | cons req rest ih =>
    unfold all_granted_pdsch at hrun
    cases hp : alloc_pdsch E g req.1 req.2 with
    | error f => rw [hp] at hrun; exact absurd hrun (by simp)
    | ok p =>
      rw [hp] at hrun
      simp only at hrun
      split at hrun
      · rename_i hres
        have hstep := (alloc_pdsch_success_step E g req.1 req.2 p hp hres t).2
        rw [ih p.bwp_grid hrun, hstep, List.countP_cons]
        by_cases hidx : (slot_index t : Fin N) = slot_index req.1.pdsch_tti
        · simp [hidx]; omega
        · have hidx2 : ¬ (slot_index req.1.pdsch_tti : Fin N) = slot_index t :=
            fun e => hidx e.symm
          simp [hidx, hidx2]
      · exact absurd hrun (by simp)

theorem all_granted_pusch_length [NeZero N] (E : sched_deps W H Dci) (t : Nat)
    (reqs : List (slot_ue H × BitVec W)) (g g2 : bwp_res_grid W N Dci)
    (hrun : all_granted_pusch E g reqs = some g2) :
    (g2.slot t).pusch_grants.length = (g.slot t).pusch_grants.length +
      reqs.countP (fun r => decide ((slot_index r.1.pusch_tti : Fin N) = slot_index t)) := by
  induction reqs generalizing g with
  | nil =>
    simp only [all_granted_pusch, Option.some.injEq] at hrun
    subst hrun; simp
  | cons req rest ih =>
    unfold all_granted_pusch at hrun
    cases hp : alloc_pusch E g req.1 req.2 with
    | error f => rw [hp] at hrun; exact absurd hrun (by simp)
    | ok p =>
      rw [hp] at hrun
      simp only at hrun
      split at hrun
      · rename_i hres
        have hstep := (alloc_pusch_success_step E g req.1 req.2 p hp hres t).2
        rw [ih p.bwp_grid hrun, hstep, List.countP_cons]
        by_cases hidx : (slot_index t : Fin N) = slot_index req.1.pusch_tti
        · simp [hidx]; omega
        · have hidx2 : ¬ (slot_index req.1.pusch_tti : Fin N) = slot_index t :=
            fun e => hidx e.symm
          simp [hidx, hidx2]
      · exact absurd hrun (by simp)

/-- C7. For a data slot whose grant list for one direction has capacity K:
once K allocations for that slot and direction have succeeded (in a run of
granted requests of that direction, for this slot or for others), every
further attempt for that slot and direction by a connection whose HARQ
process is present returns `no_grant_space`, whatever the mask, and leaves
the grid, so the occupancy, as it was. -/
theorem alloc_after_capacity_reached [NeZero N] (E : sched_deps W H Dci) (t : Nat)
    (reqs : List (slot_ue H × BitVec W)) (g g2 : bwp_res_grid W N Dci)
    (ue : slot_ue H) (mask : BitVec W) :
    (reqs.countP (fun r => decide ((slot_index r.1.pdsch_tti : Fin N) = slot_index t))
        = E.pdsch_cap →
      all_granted_pdsch E g reqs = some g2 →
      ue.h_dl ≠ none → (slot_index ue.pdsch_tti : Fin N) = slot_index t →
      alloc_pdsch E g2 ue mask = .ok ⟨.no_grant_space, g2, ue, []⟩) ∧
    (reqs.countP (fun r => decide ((slot_index r.1.pusch_tti : Fin N) = slot_index t))
        = E.pusch_cap →
      all_granted_pusch E g reqs = some g2 →
      ue.h_ul ≠ none → (slot_index ue.pusch_tti : Fin N) = slot_index t →
      alloc_pusch E g2 ue mask = .ok ⟨.no_grant_space, g2, ue, []⟩) := by
  constructor
  · intro hK hrun hh hidx
    obtain ⟨h, hh⟩ := Option.ne_none_iff_exists'.mp hh
    have hlen := all_granted_pdsch_length E t reqs g g2 hrun
    exact alloc_pdsch_of_full E g2 ue mask h hh
      (by rw [slot_congr g2 _ _ hidx]; simp [full]; omega)
  · intro hK hrun hh hidx
    obtain ⟨h, hh⟩ := Option.ne_none_iff_exists'.mp hh
    have hlen := all_granted_pusch_length E t reqs g g2 hrun
    exact alloc_pusch_of_full E g2 ue mask h hh
      (by rw [slot_congr g2 _ _ hidx]; simp [full]; omega)

end grant_capacity

section grant_capacity_example

theorem demo_first_grant :
    alloc_pdsch (demo_deps 4) demo_grid (demo_ue 17) 12#4 =
      .ok ⟨.success, demo_grid_busy, pdsch_ue_after (demo_deps 4) (demo_ue 17) none 12#4,
           [pdsch_harq_call (demo_deps 4) (demo_ue 17) none 12#4]⟩ :=
  alloc_pdsch_of_pass (demo_deps 4) demo_grid (demo_ue 17) 12#4 none
    (coreset_region.ctor 0 0 1 16) [] _ rfl rfl rfl rfl rfl rfl

theorem demo_second_grant :
    alloc_pdsch (demo_deps 4) demo_grid_busy (demo_ue 18) 3#4 =
      .ok ⟨.success, demo_grid_full, pdsch_ue_after (demo_deps 4) (demo_ue 18) none 3#4,
           [pdsch_harq_call (demo_deps 4) (demo_ue 18) none 3#4]⟩ :=
  alloc_pdsch_of_pass (demo_deps 4) demo_grid_busy (demo_ue 18) 3#4 none
    ⟨0, 0, 1, 16, 8, []⟩ [] _ rfl rfl rfl rfl rfl rfl

theorem demo_two_granted :
    all_granted_pdsch (demo_deps 4) demo_grid [(demo_ue 17, 12#4), (demo_ue 18, 3#4)] =
      some demo_grid_full := by
  simp [all_granted_pdsch, demo_first_grant, demo_second_grant]

/-- C7 at the concrete input of the claim: 4 groups and a downlink capacity
of 2. The masks `1100` and `0011` are both granted in slot 0 and the downlink
occupancy becomes `1111`; a third request for that slot, with any non-empty
mask, returns `no_grant_space` and leaves the grid as it was. -/
theorem alloc_after_capacity_reached_witness :
    (demo_deps 4).pdsch_cap = 2 ∧
      all_granted_pdsch (demo_deps 4) demo_grid [(demo_ue 17, 12#4), (demo_ue 18, 3#4)] =
        some demo_grid_full ∧
      (demo_grid_full.slot 0).dl_rbgs = 15#4 ∧
      ∀ mask : BitVec 4, mask ≠ 0#4 →
        alloc_pdsch (demo_deps 4) demo_grid_full (demo_ue 19) mask =
          .ok ⟨.no_grant_space, demo_grid_full, demo_ue 19, []⟩ :=
  ⟨rfl, demo_two_granted, rfl, fun mask _ =>
    (alloc_after_capacity_reached (demo_deps 4) 0
      [(demo_ue 17, 12#4), (demo_ue 18, 3#4)] demo_grid demo_grid_full (demo_ue 19) mask).1
      (by decide) demo_two_granted (by decide) rfl⟩

end grant_capacity_example

section control_budget

variable {W N : Nat} {H Dci : Type}

theorem or_and_eq_zero (a b c : BitVec W) (h1 : a &&& c = 0#W) (h2 : b &&& c = 0#W) :
    (a ||| b) &&& c = 0#W := by
  apply BitVec.eq_of_getLsbD_eq
  intro i
  have e1 := congrArg (fun x => x.getLsbD i.val) h1
  have e2 := congrArg (fun x => x.getLsbD i.val) h2
  simp only [BitVec.getLsbD_and, BitVec.getLsbD_zero] at e1 e2
  simp only [BitVec.getLsbD_and, BitVec.getLsbD_or, BitVec.getLsbD_zero]
  cases ha : a.getLsbD i.val <;> cases hb : b.getLsbD i.val <;>
    cases hc : c.getLsbD i.val <;> simp_all

/-- C8. Region 0 of a control slot has budget for exactly two assignments at
aggregation index 3. Three downlink requests with that control slot, for one
data slot with room for three grants, with masks that overlap neither each
other nor the occupancy, by connections with HARQ processes that are present
(the first two empty and accepting a new transmission), return `success`,
`success` and `no_cch_space` in that order; the third leaves the grid, so
the downlink occupancy and grant list, as the second left it, and its mask
does not overlap that occupancy. -/
theorem alloc_pdsch_third_has_no_cch_space [NeZero N] (E : sched_deps W H Dci)
    (g : bwp_res_grid W N Dci) (td tc : Nat) (ue1 ue2 ue3 : slot_ue H) (m1 m2 m3 : BitVec W)
    (h1 h2 h3 : H) (c : coreset_region Dci) (cs : List (coreset_region Dci))
    (hd1 : (slot_index ue1.pdsch_tti : Fin N) = slot_index td)
    (hd2 : (slot_index ue2.pdsch_tti : Fin N) = slot_index td)
    (hd3 : (slot_index ue3.pdsch_tti : Fin N) = slot_index td)
    (hc1 : (slot_index ue1.pdcch_tti : Fin N) = slot_index tc)
    (hc2 : (slot_index ue2.pdcch_tti : Fin N) = slot_index tc)
    (hc3 : (slot_index ue3.pdcch_tti : Fin N) = slot_index tc)
    (hroom : (g.slot td).pdsch_grants.length + 3 ≤ E.pdsch_cap)
    (ho1 : (g.slot td).dl_rbgs &&& m1 = 0#W) (ho2 : (g.slot td).dl_rbgs &&& m2 = 0#W)
    (ho3 : (g.slot td).dl_rbgs &&& m3 = 0#W)
    (h12 : m1 &&& m2 = 0#W) (h13 : m1 &&& m3 = 0#W) (h23 : m2 &&& m3 = 0#W)
    (hcs : (g.slot tc).coresets = c :: cs)
    (hb2 : c.consumed + 2 * E.cce_cost 3 ≤ E.cce_budget c.nof_symbols c.nof_freq_res)
    (hb3 : E.cce_budget c.nof_symbols c.nof_freq_res < c.consumed + 3 * E.cce_cost 3)
    (hl : (g.slot tc).pdcch_dl_list.length + 2 ≤ E.pdcch_cap)
    (hh1 : ue1.h_dl = some h1) (he1 : E.empty h1 = true)
    (htx1 : (E.new_tx h1 ue1.pdsch_tti ue1.uci_tti m1 20 100 4).1 = true)
    (hh2 : ue2.h_dl = some h2) (he2 : E.empty h2 = true)
    (htx2 : (E.new_tx h2 ue2.pdsch_tti ue2.uci_tti m2 20 100 4).1 = true)
    (hh3 : ue3.h_dl = some h3) :
    ∃ p1 p2, alloc_pdsch E g ue1 m1 = .ok p1 ∧ p1.result = .success ∧
      alloc_pdsch E p1.bwp_grid ue2 m2 = .ok p2 ∧ p2.result = .success ∧
      alloc_pdsch E p2.bwp_grid ue3 m3 = .ok ⟨.no_cch_space, p2.bwp_grid, ue3, []⟩ ∧
      (p2.bwp_grid.slot td).dl_rbgs &&& m3 = 0#W := by
  -- first request
  have hstep1 := alloc_pdsch_of_room E g ue1 m1 h1 c cs hh1 he1 htx1
    (by rw [slot_congr g _ _ hd1]; omega) (by rw [slot_congr g _ _ hd1]; exact ho1)
    (by rw [slot_congr g _ _ hc1]; exact hcs) (by omega)
    (by rw [slot_congr g _ _ hc1]; omega)
  have hdl1 := pdsch_committed_dl E g ue1 h1 m1 c cs td
  have hcch1 := pdsch_committed_cch E g ue1 h1 m1 c cs tc
  simp only [hd1, hc1, if_true] at hdl1 hcch1
  -- second request
  have hstep2 := alloc_pdsch_of_room E (pdsch_committed E g ue1 h1 m1 c cs) ue2 m2 h2
    { c with consumed := c.consumed + E.cce_cost 3 } cs hh2 he2 htx2
    (by rw [slot_congr _ _ _ hd2, hdl1.2]; simp; omega)
    (by rw [slot_congr _ _ _ hd2, hdl1.1]; exact or_and_eq_zero _ _ _ ho2 h12)
    (by rw [slot_congr _ _ _ hc2]; exact hcch1.2) (by simp only; omega)
    (by rw [slot_congr _ _ _ hc2, hcch1.1]; simp; omega)
  have hdl2 := pdsch_committed_dl E (pdsch_committed E g ue1 h1 m1 c cs) ue2 h2 m2
    { c with consumed := c.consumed + E.cce_cost 3 } cs td
  have hcch2 := pdsch_committed_cch E (pdsch_committed E g ue1 h1 m1 c cs) ue2 h2 m2
    { c with consumed := c.consumed + E.cce_cost 3 } cs tc
  simp only [hd2, hc2, if_true, hdl1.1, hdl1.2] at hdl2 hcch2
  have hocc : ((pdsch_committed E (pdsch_committed E g ue1 h1 m1 c cs) ue2 h2 m2
      { c with consumed := c.consumed + E.cce_cost 3 } cs).slot td).dl_rbgs &&& m3 = 0#W := by
    rw [hdl2.1]
    exact or_and_eq_zero _ _ _ (or_and_eq_zero _ _ _ ho3 h13) h23
  -- third request
  refine ⟨_, _, hstep1, rfl, hstep2, rfl, ?_, hocc⟩
  refine alloc_pdsch_of_no_cch E _ ue3 m3 h3
    { c with consumed := c.consumed + E.cce_cost 3 + E.cce_cost 3 } cs hh3 ?_ ?_ ?_ ?_
  · rw [slot_congr _ _ _ hd3, hdl2.2]; simp [full]; omega
  · rw [slot_congr _ _ _ hd3]; exact (overlaps_eq_false_iff _ _).mpr hocc
  · rw [slot_congr _ _ _ hc3]; exact hcch2.2
  · exact alloc_dci_of_no_budget E _ _ _ 3 0 ue3 (by simp only; omega)

end control_budget

section control_budget_example

/-- C8 at a concrete input: a region of 16 elements, 8 an assignment at
aggregation index 3; the masks `1000`, `0100` and `0010` for slot 0. -/
theorem alloc_pdsch_third_has_no_cch_space_witness :
    0 + 2 * demo_deps3.cce_cost 3 ≤ demo_deps3.cce_budget 1 16 ∧
      demo_deps3.cce_budget 1 16 < 0 + 3 * demo_deps3.cce_cost 3 ∧
      ∃ p1 p2, alloc_pdsch demo_deps3 demo_grid (demo_ue 17) 8#4 = .ok p1 ∧
        p1.result = .success ∧
        alloc_pdsch demo_deps3 p1.bwp_grid (demo_ue 18) 4#4 = .ok p2 ∧ p2.result = .success ∧
        alloc_pdsch demo_deps3 p2.bwp_grid (demo_ue 19) 2#4 =
          .ok ⟨.no_cch_space, p2.bwp_grid, demo_ue 19, []⟩ ∧
        (p2.bwp_grid.slot 0).dl_rbgs &&& 2#4 = 0#4 :=
  ⟨by decide, by decide,
   alloc_pdsch_third_has_no_cch_space demo_deps3 demo_grid 0 0 (demo_ue 17) (demo_ue 18)
     (demo_ue 19) 8#4 4#4 2#4 none none none (coreset_region.ctor 0 0 1 16) []
     rfl rfl rfl rfl rfl rfl (by decide) rfl rfl rfl rfl rfl rfl rfl (by decide) (by decide)
     (by decide) rfl rfl rfl rfl rfl rfl rfl⟩

end control_budget_example

section slot_reset

variable {W N : Nat} {H Dci : Type}

/-- What `reset()` does, for every slot grid: both occupancy bitmaps are
all-clear, the downlink and uplink data grants, the downlink control
assignments and the feedback grants are empty, every region is reset; the
uplink control assignments `pdcch_ul_list` are left as they were. -/
theorem reset_clears (s : bwp_slot_grid W Dci) :
    s.reset.dl_rbgs = 0#W ∧ s.reset.ul_rbgs = 0#W ∧ s.reset.pdsch_grants = [] ∧
      s.reset.pusch_grants = [] ∧ s.reset.pdcch_dl_list = [] ∧ s.reset.pucch_grants = [] ∧
      s.reset.coresets = s.coresets.map coreset_region.reset ∧
      (∀ c ∈ s.reset.coresets, c.consumed = 0 ∧ c.ul_list = []) ∧
      s.reset.pdcch_ul_list = s.pdcch_ul_list := by
  refine ⟨rfl, rfl, rfl, rfl, rfl, rfl, rfl, ?_, rfl⟩
  intro c hc
  simp only [bwp_slot_grid.reset, List.mem_map] at hc
  obtain ⟨c0, -, rfl⟩ := hc
  exact ⟨rfl, rfl⟩

/-- C9 at a concrete input: a slot grid with one uplink control assignment
recorded. After `reset()` everything else is cleared, and `pdcch_ul_list`
still holds that assignment. -/
theorem reset_leaves_pdcch_ul_list :
    demo_slot_used.pdcch_ul_list = [⟨17⟩] ∧
      demo_slot_used.reset.pdcch_ul_list = [⟨17⟩] ∧
      demo_slot_used.reset.pdcch_ul_list ≠ [] ∧
      demo_slot_used.reset.dl_rbgs = 0#4 ∧ demo_slot_used.reset.ul_rbgs = 0#4 ∧
      demo_slot_used.reset.pdsch_grants = [] ∧ demo_slot_used.reset.pusch_grants = [] ∧
      demo_slot_used.reset.pdcch_dl_list = [] ∧ demo_slot_used.reset.pucch_grants = [] ∧
      demo_slot_used.reset.coresets = [⟨0, 0, 1, 16, 0, []⟩] :=
  ⟨rfl, rfl, by decide, rfl, rfl, rfl, rfl, rfl, rfl, rfl⟩

end slot_reset

section after_reset

variable {W N : Nat} {H Dci : Type}

theorem reset_for_data_slot [NeZero N] (g : bwp_res_grid W N Dci) (td tc : Nat) :
    ((reset_for g td tc).slot td).dl_rbgs = 0#W ∧
      ((reset_for g td tc).slot td).pdsch_grants = [] ∧
      ((reset_for g td tc).slot td).ul_rbgs = 0#W ∧
      ((reset_for g td tc).slot td).pusch_grants = [] := by
  simp only [reset_for, slot_set_slot]
  by_cases h : (slot_index td : Fin N) = slot_index tc
  · simp [h, bwp_slot_grid.reset]
  · simp [h, bwp_slot_grid.reset]

theorem reset_for_control_slot [NeZero N] (g : bwp_res_grid W N Dci) (td tc : Nat)
    (c : coreset_region Dci) (cs : List (coreset_region Dci))
    (hcs : (g.slot tc).coresets = c :: cs) :
    ((reset_for g td tc).slot tc).pdcch_dl_list = [] ∧
      ((reset_for g td tc).slot tc).pdcch_ul_list = (g.slot tc).pdcch_ul_list ∧
      ∃ cs2, ((reset_for g td tc).slot tc).coresets = c.reset :: cs2 := by
  simp only [reset_for, slot_set_slot]
  by_cases h : (slot_index tc : Fin N) = slot_index td
  · have e : g.slot td = g.slot tc := (slot_congr g td tc h).symm
    simp [h, bwp_slot_grid.reset, e, hcs, coreset_region.reset]
  · simp [h, bwp_slot_grid.reset, hcs]

/-- For every grid and every mask, so also one that
`alloc_pdsch` has just rejected with `sch_collision` or `no_grant_space`:
after `reset()` of the data slot and of the control slot, the same request by
a connection whose downlink HARQ process is empty and accepts the new
transmission returns `success`, and the downlink occupancy of the data slot
then equals exactly that mask, provided the grant list and the
control-assignment list have a capacity of at least 1 and region 0 of the
control slot has, once reset, the budget for one assignment at aggregation
index 3. -/
theorem alloc_pdsch_after_reset [NeZero N] (E : sched_deps W H Dci)
    (g : bwp_res_grid W N Dci) (ue : slot_ue H) (mask : BitVec W) (h : H)
    (c : coreset_region Dci) (cs : List (coreset_region Dci))
    (hh : ue.h_dl = some h) (he : E.empty h = true)
    (htx : (E.new_tx h ue.pdsch_tti ue.uci_tti mask 20 100 4).1 = true)
    (hcap : 1 ≤ E.pdsch_cap) (hpc : 1 ≤ E.pdcch_cap)
    (hcs : (g.slot ue.pdcch_tti).coresets = c :: cs)
    (hb : E.cce_cost 3 ≤ E.cce_budget c.nof_symbols c.nof_freq_res) :
    ∃ p, alloc_pdsch E (reset_for g ue.pdsch_tti ue.pdcch_tti) ue mask = .ok p ∧
      p.result = .success ∧ (p.bwp_grid.slot ue.pdsch_tti).dl_rbgs = mask := by
  have hd := reset_for_data_slot g ue.pdsch_tti ue.pdcch_tti
  obtain ⟨hl, -, cs2, hc⟩ := reset_for_control_slot g ue.pdsch_tti ue.pdcch_tti c cs hcs
  have hstep := alloc_pdsch_of_room E (reset_for g ue.pdsch_tti ue.pdcch_tti) ue mask h
    c.reset cs2 hh he htx (by rw [hd.2.1]; simpa using hcap) (by rw [hd.1]; simp) hc
    (by simpa [coreset_region.reset] using hb) (by rw [hl]; simpa using hpc)
  refine ⟨_, hstep, rfl, ?_⟩
  have := (pdsch_committed_dl E (reset_for g ue.pdsch_tti ue.pdcch_tti) ue h mask c.reset cs2
    ue.pdsch_tti).1
  simp only [if_true] at this
  rw [this, hd.1]; simp

/-- At a concrete input: the mask `0100` collides in slot 0 of the ring
after one allocation of `1100`; after the reset of that slot the same request
is granted and the occupancy is `0100`. -/
theorem alloc_pdsch_after_reset_witness :
    alloc_pdsch (demo_deps 4) demo_grid_busy (demo_ue 18) 4#4 =
        .ok ⟨.sch_collision, demo_grid_busy, demo_ue 18, []⟩ ∧
      ∃ p, alloc_pdsch (demo_deps 4) (reset_for demo_grid_busy 0 0) (demo_ue 18) 4#4 = .ok p ∧
        p.result = .success ∧ (p.bwp_grid.slot 0).dl_rbgs = 4#4 :=
  ⟨rfl,
   alloc_pdsch_after_reset (demo_deps 4) demo_grid_busy (demo_ue 18) 4#4 none
     ⟨0, 0, 1, 16, 8, []⟩ [] rfl rfl rfl (by decide) (by decide) rfl (by decide)⟩

end after_reset

section harq_calls

variable {W N : Nat} {H Dci : Type}

/-- The HARQ side of a call of `alloc_pdsch` that returns: no call when the
result is a failure, and on success exactly the call `pdsch_harq_call` on the
process the request points to, whose state becomes the one after that call. -/
theorem alloc_pdsch_harq_trace [NeZero N] (E : sched_deps W H Dci) (g : bwp_res_grid W N Dci)
    (ue : slot_ue H) (mask : BitVec W) (p : alloc_post W N H Dci)
    (hp : alloc_pdsch E g ue mask = .ok p) :
    (p.result ≠ .success → p.harq_calls = [] ∧ p.ue = ue) ∧
    (p.result = .success → ∃ h, ue.h_dl = some h ∧
      ((pdsch_harq_call E ue h mask).run E h).1 = true ∧
      p.harq_calls = [pdsch_harq_call E ue h mask] ∧
      p.ue = pdsch_ue_after E ue h mask) := by
  rcases alloc_pdsch_inv E g ue mask p hp with
    ⟨hne, -, hu, hc⟩ | ⟨h, c, cs, r, hh, -, -, -, -, hret, hpe⟩
  · exact ⟨fun _ => ⟨hc, hu⟩, fun hs => absurd hs hne⟩
  · subst hpe
    exact ⟨fun hne => absurd rfl hne, fun _ => ⟨h, hh, hret, rfl, rfl⟩⟩

/-- The HARQ side of a call of `alloc_pusch` that returns. -/
theorem alloc_pusch_harq_trace [NeZero N] (E : sched_deps W H Dci) (g : bwp_res_grid W N Dci)
    (ue : slot_ue H) (mask : BitVec W) (p : alloc_post W N H Dci)
    (hp : alloc_pusch E g ue mask = .ok p) :
    (p.result ≠ .success → p.harq_calls = [] ∧ p.ue = ue) ∧
    (p.result = .success → ∃ h, ue.h_ul = some h ∧
      ((pusch_harq_call E ue h mask).run E h).1 = true ∧
      p.harq_calls = [pusch_harq_call E ue h mask] ∧
      p.ue = pusch_ue_after E ue h mask) := by
  rcases alloc_pusch_inv E g ue mask p hp with
    ⟨hne, -, hu, hc⟩ | ⟨h, c, cs, r, pd, hh, -, -, -, -, hret, -, hpe⟩
  · exact ⟨fun _ => ⟨hc, hu⟩, fun hs => absurd hs hne⟩
  · subst hpe
    exact ⟨fun hne => absurd rfl hne, fun _ => ⟨h, hh, hret, rfl, rfl⟩⟩

end harq_calls

section retransmission_mask

variable {W N : Nat} {H Dci : Type}

/-- C12, amended. On the retransmission path (the HARQ process is not empty
when the checks pass) a successful allocation uses the mask proposed by the
caller throughout: it is the mask passed in the retransmission call, the
mask merged into the data slot's occupancy, and the mask recorded in the
committed grant (as its PRB layout for downlink, as its `bitmap` for
uplink), for every proposed mask. -/
theorem alloc_retx_uses_proposed_mask [NeZero N] (E : sched_deps W H Dci)
    (g : bwp_res_grid W N Dci) (ue : slot_ue H) (mask : BitVec W)
    (p : alloc_post W N H Dci) (h : H) (he : E.empty h = false)
    (hres : p.result = .success) :
    (alloc_pdsch E g ue mask = .ok p → ue.h_dl = some h →
      p.harq_calls = [.new_retx ue.pdsch_tti ue.uci_tti mask] ∧
      (p.bwp_grid.slot ue.pdsch_tti).dl_rbgs = (g.slot ue.pdsch_tti).dl_rbgs ||| mask ∧
      (p.bwp_grid.slot ue.pdsch_tti).pdsch_grants =
        (g.slot ue.pdsch_tti).pdsch_grants ++
          [{ rnti := ue.rnti
             prb_idx := E.bitmap_to_prb_array mask (E.nof_prbs g.cell_cfg g.bwp_id) }]) ∧
    (alloc_pusch E g ue mask = .ok p → ue.h_ul = some h →
      p.harq_calls = [.new_retx ue.pusch_tti ue.pusch_tti mask] ∧
      (p.bwp_grid.slot ue.pusch_tti).ul_rbgs = (g.slot ue.pusch_tti).ul_rbgs ||| mask ∧
      (p.bwp_grid.slot ue.pusch_tti).pusch_grants =
        (g.slot ue.pusch_tti).pusch_grants ++ [{ rnti := ue.rnti, bitmap := mask }]) := by
  constructor
  · intro hp hh
    obtain ⟨h2, hh2, -, hc, -⟩ := (alloc_pdsch_harq_trace E g ue mask p hp).2 hres
    have e : h2 = h := Option.some.inj (hh2.symm.trans hh)
    subst e
    have hstep := alloc_pdsch_success_step E g ue mask p hp hres ue.pdsch_tti
    simp only [if_true] at hstep
    exact ⟨by rw [hc]; simp [pdsch_harq_call, he], hstep.1, hstep.2⟩
  · intro hp hh
    obtain ⟨h2, hh2, -, hc, -⟩ := (alloc_pusch_harq_trace E g ue mask p hp).2 hres
    have e : h2 = h := Option.some.inj (hh2.symm.trans hh)
    subst e
    have hstep := alloc_pusch_success_step E g ue mask p hp hres ue.pusch_tti
    simp only [if_true] at hstep
    exact ⟨by rw [hc]; simp [pusch_harq_call, he], hstep.1, hstep.2⟩

theorem demo_retx_grant :
    alloc_pdsch demo_deps_any_retx demo_grid (demo_ue_retx 17) 12#4 =
      .ok ⟨.success, demo_grid_retx,
           pdsch_ue_after demo_deps_any_retx (demo_ue_retx 17) (some 3#4) 12#4,
           [pdsch_harq_call demo_deps_any_retx (demo_ue_retx 17) (some 3#4) 12#4]⟩ :=
  alloc_pdsch_of_pass demo_deps_any_retx demo_grid (demo_ue_retx 17) 12#4 (some 3#4)
    (coreset_region.ctor 0 0 1 16) [] _ rfl rfl rfl rfl rfl rfl

/-- C12 at a concrete input: a process that stores `0011` and accepts a
retransmission with the proposed mask `1100`. -/
theorem alloc_retx_uses_proposed_mask_witness :
    alloc_pdsch demo_deps_any_retx demo_grid (demo_ue_retx 17) 12#4 =
        .ok ⟨.success, demo_grid_retx,
             pdsch_ue_after demo_deps_any_retx (demo_ue_retx 17) (some 3#4) 12#4,
             [pdsch_harq_call demo_deps_any_retx (demo_ue_retx 17) (some 3#4) 12#4]⟩ ∧
      [pdsch_harq_call demo_deps_any_retx (demo_ue_retx 17) (some 3#4) 12#4] =
        [.new_retx 0 4 12#4] ∧
      (demo_grid_retx.slot 0).dl_rbgs = 0#4 ||| 12#4 ∧
      (demo_grid_retx.slot 0).pdsch_grants = [] ++ [⟨17, [false, false, true, true]⟩] :=
  ⟨demo_retx_grant,
   (alloc_retx_uses_proposed_mask demo_deps_any_retx demo_grid (demo_ue_retx 17) 12#4 _
     (some 3#4) rfl rfl).1 demo_retx_grant rfl⟩

/-- C12 as stated fails. The downlink HARQ process of connection 17 is not
empty and stores the mask `0011`; the caller proposes `1100`. The allocation
succeeds with a retransmission call, and the mask passed in that call, the
occupancy of the slot and the layout of the committed grant are those of the
proposed mask `1100`, not of the stored mask `0011`, which the process still
stores afterwards. -/
theorem alloc_retx_ignores_stored_mask :
    (demo_ue_retx 17).h_dl = some (some 3#4) ∧
      demo_deps_any_retx.empty (some 3#4) = false ∧
      (∃ p, alloc_pdsch demo_deps_any_retx demo_grid (demo_ue_retx 17) 12#4 = .ok p ∧
        p.result = .success ∧ p.harq_calls = [.new_retx 0 4 12#4] ∧
        p.ue.h_dl = some (some 3#4) ∧
        (p.bwp_grid.slot 0).dl_rbgs = 12#4 ∧ (p.bwp_grid.slot 0).dl_rbgs ≠ 3#4 ∧
        (p.bwp_grid.slot 0).pdsch_grants = [⟨17, [false, false, true, true]⟩] ∧
        demo_deps_any_retx.bitmap_to_prb_array 3#4 4 = [true, true, false, false]) :=
  ⟨rfl, rfl, _, demo_retx_grant, rfl, rfl, rfl, rfl, by decide, rfl, rfl⟩

end retransmission_mask

section harq_handshake

variable {W N : Nat} {H Dci : Type}

theorem alloc_pdsch_of_refused [NeZero N] (E : sched_deps W H Dci) (g : bwp_res_grid W N Dci)
    (ue : slot_ue H) (mask : BitVec W) (h : H) (c : coreset_region Dci)
    (cs : List (coreset_region Dci)) (r : coreset_region Dci × List (pdcch_dl_t Dci))
    (hh : ue.h_dl = some h)
    (hfull : full E.pdsch_cap (g.slot ue.pdsch_tti).pdsch_grants = false)
    (hov : overlaps (g.slot ue.pdsch_tti).dl_rbgs mask = false)
    (hcs : (g.slot ue.pdcch_tti).coresets = c :: cs)
    (hdci : c.alloc_dci E (g.slot ue.pdcch_tti).pdcch_dl_list .dl_data 3 0 ue = some r)
    (hret : ((pdsch_harq_call E ue h mask).run E h).1 = false) :
    alloc_pdsch E g ue mask = .error .harq_assert := by
  simp [alloc_pdsch, hh, hfull, hov, hcs, hdci, hret]

theorem alloc_pusch_of_refused [NeZero N] (E : sched_deps W H Dci) (g : bwp_res_grid W N Dci)
    (ue : slot_ue H) (mask : BitVec W) (h : H) (c : coreset_region Dci)
    (cs : List (coreset_region Dci)) (r : coreset_region Dci × List (pdcch_dl_t Dci))
    (hh : ue.h_ul = some h)
    (hfull : full E.pusch_cap (g.slot ue.pusch_tti).pusch_grants = false)
    (hov : overlaps (g.slot ue.pusch_tti).ul_rbgs mask = false)
    (hcs : (g.slot ue.pdcch_tti).coresets = c :: cs)
    (hdci : c.alloc_dci E (g.slot ue.pdcch_tti).pdcch_dl_list .ul_data 3 0 ue = some r)
    (hret : ((pusch_harq_call E ue h mask).run E h).1 = false) :
    alloc_pusch E g ue mask = .error .harq_assert := by
  simp [alloc_pusch, hh, hfull, hov, hcs, hdci, hret]

/-- C13, amended. Given that the four checks have passed, the HARQ call that
follows may be refused, and it is then the fatal assertion that ends the
call, without a result, in `alloc_pdsch` as in `alloc_pusch`; when the call
is accepted `alloc_pdsch` returns `success` with the reservation, the grant
and the occupancy update committed together. So no call returns with
control-channel space reserved and no matching data grant and occupancy
update: a call that returns has either left the grid as it was or appended
the grant and merged the mask. -/
theorem harq_handshake_decides [NeZero N] (E : sched_deps W H Dci)
    (g : bwp_res_grid W N Dci) (ue : slot_ue H) (mask : BitVec W) :
    (∀ h c cs r, ue.h_dl = some h →
      full E.pdsch_cap (g.slot ue.pdsch_tti).pdsch_grants = false →
      overlaps (g.slot ue.pdsch_tti).dl_rbgs mask = false →
      (g.slot ue.pdcch_tti).coresets = c :: cs →
      c.alloc_dci E (g.slot ue.pdcch_tti).pdcch_dl_list .dl_data 3 0 ue = some r →
      (((pdsch_harq_call E ue h mask).run E h).1 = false →
        alloc_pdsch E g ue mask = .error .harq_assert) ∧
      (((pdsch_harq_call E ue h mask).run E h).1 = true →
        alloc_pdsch E g ue mask =
          .ok ⟨.success, pdsch_committed E g ue h mask c cs, pdsch_ue_after E ue h mask,
               [pdsch_harq_call E ue h mask]⟩)) ∧
    (∀ h c cs r, ue.h_ul = some h →
      full E.pusch_cap (g.slot ue.pusch_tti).pusch_grants = false →
      overlaps (g.slot ue.pusch_tti).ul_rbgs mask = false →
      (g.slot ue.pdcch_tti).coresets = c :: cs →
      c.alloc_dci E (g.slot ue.pdcch_tti).pdcch_dl_list .ul_data 3 0 ue = some r →
      ((pusch_harq_call E ue h mask).run E h).1 = false →
      alloc_pusch E g ue mask = .error .harq_assert) ∧
    (∀ p, alloc_pdsch E g ue mask = .ok p →
      p.bwp_grid = g ∨
      (p.result = .success ∧
        (p.bwp_grid.slot ue.pdsch_tti).dl_rbgs = (g.slot ue.pdsch_tti).dl_rbgs ||| mask ∧
        (p.bwp_grid.slot ue.pdsch_tti).pdsch_grants =
          (g.slot ue.pdsch_tti).pdsch_grants ++
            [{ rnti := ue.rnti
               prb_idx := E.bitmap_to_prb_array mask (E.nof_prbs g.cell_cfg g.bwp_id) }])) ∧
    (∀ p, alloc_pusch E g ue mask = .ok p →
      p.bwp_grid = g ∨
      (p.result = .success ∧
        (p.bwp_grid.slot ue.pusch_tti).ul_rbgs = (g.slot ue.pusch_tti).ul_rbgs ||| mask ∧
        (p.bwp_grid.slot ue.pusch_tti).pusch_grants =
          (g.slot ue.pusch_tti).pusch_grants ++ [{ rnti := ue.rnti, bitmap := mask }])) := by
  refine ⟨?_, ?_, ?_, ?_⟩
  · intro h c cs r hh hfull hov hcs hdci
    exact ⟨alloc_pdsch_of_refused E g ue mask h c cs r hh hfull hov hcs hdci,
      alloc_pdsch_of_pass E g ue mask h c cs r hh hfull hov hcs hdci⟩
  · intro h c cs r hh hfull hov hcs hdci hret
    exact alloc_pusch_of_refused E g ue mask h c cs r hh hfull hov hcs hdci hret
  · intro p hp
    by_cases hres : p.result = .success
    · have hstep := alloc_pdsch_success_step E g ue mask p hp hres ue.pdsch_tti
      simp only [if_true] at hstep
      exact Or.inr ⟨hres, hstep.1, hstep.2⟩
    · rcases alloc_pdsch_inv E g ue mask p hp with ⟨-, hg, -, -⟩ | ⟨_, _, _, _, _, _, _, _, _, _, e⟩
      · exact Or.inl hg
      · exact absurd (by rw [e]) hres
  · intro p hp
    by_cases hres : p.result = .success
    · have hstep := alloc_pusch_success_step E g ue mask p hp hres ue.pusch_tti
      simp only [if_true] at hstep
      exact Or.inr ⟨hres, hstep.1, hstep.2⟩
    · rcases alloc_pusch_inv E g ue mask p hp with
        ⟨-, hg, -, -⟩ | ⟨_, _, _, _, _, _, _, _, _, _, _, _, e⟩
      · exact Or.inl hg
      · exact absurd (by rw [e]) hres

/-- C13 at a concrete input: on the constructed ring the four checks pass for
the mask `1000`; the process of `demo_ue`, empty, accepts the new
transmission and the call returns `success`. -/
theorem harq_handshake_decides_witness :
    ((demo_deps 4).new_tx none 0 4 8#4 20 100 4).1 = true ∧
      alloc_pdsch (demo_deps 4) demo_grid (demo_ue 17) 8#4 =
        .ok ⟨.success,
             pdsch_committed (demo_deps 4) demo_grid (demo_ue 17) none 8#4
               (coreset_region.ctor 0 0 1 16) [],
             pdsch_ue_after (demo_deps 4) (demo_ue 17) none 8#4,
             [pdsch_harq_call (demo_deps 4) (demo_ue 17) none 8#4]⟩ :=
  ⟨rfl,
   ((harq_handshake_decides (demo_deps 4) demo_grid (demo_ue 17) 8#4).1 none
     (coreset_region.ctor 0 0 1 16) [] _ rfl rfl rfl rfl rfl).2 rfl⟩

/-- C13 as stated fails. The example process obeys the interface: it answers
the empty query and returns success or failure to a new transmission and to
a retransmission. On the constructed ring the four checks pass for the
connection 17, whose process stores the mask `0011`, and the proposed mask
`1000`; the retransmission call that follows returns failure, and the call
of `alloc_pdsch` ends on the assertion. -/
theorem harq_call_refused_after_checks :
    (demo_ue_retx 17).h_dl = some (some 3#4) ∧
      full (demo_deps 4).pdsch_cap (demo_grid.slot 0).pdsch_grants = false ∧
      overlaps (demo_grid.slot 0).dl_rbgs 8#4 = false ∧
      (coreset_region.ctor 0 0 1 16).alloc_dci (demo_deps 4) (demo_grid.slot 0).pdcch_dl_list
          .dl_data 3 0 (demo_ue_retx 17) = some (⟨0, 0, 1, 16, 8, []⟩, [⟨0⟩]) ∧
      (demo_deps 4).empty (some 3#4) = false ∧
      ((demo_deps 4).new_retx (some 3#4) 0 4 8#4).1 = false ∧
      alloc_pdsch (demo_deps 4) demo_grid (demo_ue_retx 17) 8#4 = .error .harq_assert :=
  ⟨rfl, rfl, rfl, rfl, rfl, rfl, rfl⟩

end harq_handshake

section construction

variable {Dci : Type}

theorem bwp_slot_grid_ctor_eq (cp : sched_cell_params) (i k : Nat) (bwp : bwp_cfg_t)
    (hb : cp.cell_cfg.bwps.get? i = some bwp) :
    (bwp_slot_grid.ctor cp i k : Option (bwp_slot_grid cp.cell_cfg.nof_rbg Dci)) =
      some { dl_rbgs := BitVec.ofNat cp.cell_cfg.nof_rbg 0
             ul_rbgs := BitVec.ofNat cp.cell_cfg.nof_rbg 0
             coresets := [⟨i, k, 1, bwp.rb_width / 6, 0, []⟩]
             pdsch_grants := [], pdcch_dl_list := [], pdcch_ul_list := []
             pusch_grants := [], pucch_grants := [] } := by
  unfold bwp_slot_grid.ctor
  rw [hb]
  rfl

/-- C16. Constructing a cell grid from a cell configuration with n bandwidth
parts yields exactly n bandwidth-part grids, the i-th with id i. Each holds
one slot grid per ring position `k` below `N` (the number
`SCHED_NR_NOF_SUBFRAMES`), the one the slot constructor builds for slot index
`k`. Each slot grid starts with a downlink and an uplink occupancy bitmap of
width `nof_rbg`, both all-clear, with empty grant and assignment lists, and
with exactly one control-channel region, built for that part and slot index
with 1 symbol and `rb_width / 6` frequency resources of its bandwidth part. -/
theorem cell_res_grid_ctor_spec (N : Nat) (cp : sched_cell_params) :
    (cell_res_grid.ctor N cp :
        List (Option (bwp_res_grid cp.cell_cfg.nof_rbg N Dci))).length =
      cp.cell_cfg.bwps.length ∧
    ∀ (i : Nat) (bwp : bwp_cfg_t), cp.cell_cfg.bwps.get? i = some bwp →
      ∃ g : bwp_res_grid cp.cell_cfg.nof_rbg N Dci,
        (cell_res_grid.ctor N cp).get? i = some (some g) ∧ g.bwp_id = i ∧ g.cell_cfg = cp ∧
        ∀ k : Fin N,
          bwp_slot_grid.ctor cp i k.val = some (g.slots k) ∧
          (g.slots k).dl_rbgs = BitVec.ofNat cp.cell_cfg.nof_rbg 0 ∧
          (g.slots k).ul_rbgs = BitVec.ofNat cp.cell_cfg.nof_rbg 0 ∧
          (g.slots k).pdsch_grants = [] ∧ (g.slots k).pusch_grants = [] ∧
          (g.slots k).pdcch_dl_list = [] ∧ (g.slots k).pdcch_ul_list = [] ∧
          (g.slots k).pucch_grants = [] ∧
          (g.slots k).coresets = [⟨i, k.val, 1, bwp.rb_width / 6, 0, []⟩] := by
  constructor
  · simp [cell_res_grid.ctor]
  · intro i bwp hb
    have hi : i < cp.cell_cfg.bwps.length := by
      rcases Nat.lt_or_ge i cp.cell_cfg.bwps.length with h | h
      · exact h
      · rw [List.get?_eq_none.mpr h] at hb
        exact absurd hb (by simp)
    have h0 := @bwp_slot_grid_ctor_eq Dci cp i 0 bwp hb
    refine ⟨{ bwp_id := i, cell_cfg := cp,
              slots := fun sl =>
                { dl_rbgs := BitVec.ofNat cp.cell_cfg.nof_rbg 0
                  ul_rbgs := BitVec.ofNat cp.cell_cfg.nof_rbg 0
                  coresets := [⟨i, sl.val, 1, bwp.rb_width / 6, 0, []⟩]
                  pdsch_grants := [], pdcch_dl_list := [], pdcch_ul_list := []
                  pusch_grants := [], pucch_grants := [] } }, ?_, rfl, rfl, ?_⟩
    · simp only [cell_res_grid.ctor, List.get?_eq_getElem?, List.getElem?_map,
        List.getElem?_range hi, Option.map_some', bwp_res_grid.ctor, h0]
      simp only [Option.some.injEq, bwp_res_grid.mk.injEq, true_and]
      funext sl
      rw [bwp_slot_grid_ctor_eq cp i sl.val bwp hb]
      rfl
    · intro k
      exact ⟨bwp_slot_grid_ctor_eq cp i k.val bwp hb, rfl, rfl, rfl, rfl, rfl, rfl, rfl, rfl⟩

/-- C16 at a concrete input: the cell `demo_cell`, with one bandwidth part 96
blocks wide and 4 groups, and a ring of 10 slots. -/
theorem cell_res_grid_ctor_spec_witness :
    (cell_res_grid.ctor 10 demo_cell : List (Option (bwp_res_grid 4 10 Nat))).length = 1 ∧
      (cell_res_grid.ctor 10 demo_cell : List (Option (bwp_res_grid 4 10 Nat))).get? 0 =
        some (some demo_grid) ∧
      demo_grid.bwp_id = 0 ∧
      (demo_grid.slots 3).coresets = [⟨0, 3, 1, 16, 0, []⟩] ∧
      (demo_grid.slots 3).dl_rbgs = 0#4 ∧ (demo_grid.slots 3).ul_rbgs = 0#4 :=
  ⟨(cell_res_grid_ctor_spec 10 demo_cell).1, rfl, rfl, rfl, rfl, rfl⟩

end construction

section collision_free

variable {W N : Nat} {H Dci : Type}

theorem slot_index_val [NeZero N] (i : Fin N) : (slot_index i.val : Fin N) = i := by
  apply Fin.ext
  simp [slot_index, Nat.mod_eq_of_lt i.isLt]

theorem slots_eq_slot [NeZero N] (g : bwp_res_grid W N Dci) (i : Fin N) :
    g.slots i = g.slot i.val := by
  simp [bwp_res_grid.slot, slot_index_val]

theorem and_eq_zero_of_covered (occ a m : BitVec W)
    (hcov : ∀ k, a.getLsbD k = true → occ.getLsbD k = true) (hfree : occ &&& m = 0#W) :
    a &&& m = 0#W := by
  apply BitVec.eq_of_getLsbD_eq
  intro k
  have e := congrArg (fun x => x.getLsbD k.val) hfree
  simp only [BitVec.getLsbD_and, BitVec.getLsbD_zero] at e
  simp only [BitVec.getLsbD_and, BitVec.getLsbD_zero]
  cases ha : a.getLsbD k.val
  · simp
  · have := hcov k.val ha
    simp_all

theorem no_collision_append (log : List (Fin N × BitVec W)) (occ : Fin N → BitVec W)
    (i : Fin N) (m : BitVec W)
    (hpw : log.Pairwise no_collision)
    (hcov : ∀ a ∈ log, ∀ k, a.2.getLsbD k = true → (occ a.1).getLsbD k = true)
    (hfree : occ i &&& m = 0#W) :
    (log ++ [(i, m)]).Pairwise no_collision := by
  rw [List.pairwise_append]
  refine ⟨hpw, List.pairwise_singleton _ _, ?_⟩
  intro a ha b hb
  rw [List.mem_singleton] at hb
  subst hb
  intro hidx
  simp only at hidx
  exact and_eq_zero_of_covered (occ i) a.2 m (by rw [← hidx]; exact hcov a ha) hfree

/-- Every recorded mask is covered by the occupancy of its slot, and the
recorded allocations are pairwise free of collision. -/
theorem alloc_history_covered [NeZero N] (E : sched_deps W H Dci) (g : bwp_res_grid W N Dci)
    (dl ul : List (Fin N × BitVec W)) (hh : alloc_history E g dl ul) :
    (dl.Pairwise no_collision ∧
      ∀ a ∈ dl, ∀ k, a.2.getLsbD k = true → (g.slots a.1).dl_rbgs.getLsbD k = true) ∧
    (ul.Pairwise no_collision ∧
      ∀ a ∈ ul, ∀ k, a.2.getLsbD k = true → (g.slots a.1).ul_rbgs.getLsbD k = true) := by
  induction hh with
  | init g h => simp
  | pdsch g dl ul ue mask p _ hp ih =>
    rcases alloc_pdsch_inv E g ue mask p hp with
      ⟨hne, hpg, -, -⟩ | ⟨h, c, cs, r, -, -, hov, -, -, -, hpe⟩
    · simp only [hne, if_false, hpg]; exact ih
    · subst hpe
      simp only [if_true]
      have hdl := fun i : Fin N => (pdsch_committed_dl E g ue h mask c cs i.val).1
      have hul := fun i : Fin N => (pdsch_committed_ul E g ue h mask c cs i.val).1
      simp only [← slots_eq_slot, slot_index_val] at hdl hul
      have hfree : (g.slots (slot_index ue.pdsch_tti)).dl_rbgs &&& mask = 0#W :=
        (overlaps_eq_false_iff _ _).mp hov
      refine ⟨⟨no_collision_append dl (fun i => (g.slots i).dl_rbgs) _ mask ih.1.1 ih.1.2 hfree,
        ?_⟩, ih.2.1, ?_⟩
      · intro a ha k hk
        rw [hdl a.1]
        rw [List.mem_append, List.mem_singleton] at ha
        rcases ha with ha | rfl
        · have := ih.1.2 a ha k hk
          split <;> simp [this]
        · simp [hk]
      · intro a ha k hk
        rw [hul a.1]
        exact ih.2.2 a ha k hk
  | pusch g dl ul ue mask p _ hp ih =>
    rcases alloc_pusch_inv E g ue mask p hp with
      ⟨hne, hpg, -, -⟩ | ⟨h, c, cs, r, pd, -, -, hov, -, -, -, -, hpe⟩
    · simp only [hne, if_false, hpg]; exact ih
    · subst hpe
      simp only [if_true]
      have hul := fun i : Fin N => (pusch_committed_ul E g ue h mask c cs pd i.val).1
      have hdl := fun i : Fin N => (pusch_committed_dl E g ue h mask c cs pd i.val).1
      simp only [← slots_eq_slot, slot_index_val] at hdl hul
      have hfree : (g.slots (slot_index ue.pusch_tti)).ul_rbgs &&& mask = 0#W :=
        (overlaps_eq_false_iff _ _).mp hov
      refine ⟨⟨ih.1.1, ?_⟩,
        no_collision_append ul (fun i => (g.slots i).ul_rbgs) _ mask ih.2.1 ih.2.2 hfree, ?_⟩
      · intro a ha k hk
        rw [hdl a.1]
        exact ih.1.2 a ha k hk
      · intro a ha k hk
        rw [hul a.1]
        rw [List.mem_append, List.mem_singleton] at ha
        rcases ha with ha | rfl
        · have := ih.2.2 a ha k hk
          split <;> simp [this]
        · simp [hk]

/-- C17. Allocation is collision-free: in every grid reachable from reset
slot grids by calls of `alloc_pdsch` and `alloc_pusch`, in any order, by any
connections and on either HARQ path, the masks of any two distinct
successful allocations made on the way for the same data slot and direction
share no set bit; and every committed mask is contained in the occupancy of
its slot, where every later call sees it. -/
theorem alloc_collision_free [NeZero N] (E : sched_deps W H Dci) (g : bwp_res_grid W N Dci)
    (dl ul : List (Fin N × BitVec W)) (hh : alloc_history E g dl ul) :
    dl.Pairwise no_collision ∧ ul.Pairwise no_collision ∧
      (∀ a ∈ dl, ∀ k, a.2.getLsbD k = true → (g.slots a.1).dl_rbgs.getLsbD k = true) ∧
      (∀ a ∈ ul, ∀ k, a.2.getLsbD k = true → (g.slots a.1).ul_rbgs.getLsbD k = true) :=
  have h := alloc_history_covered E g dl ul hh
  ⟨h.1.1, h.2.1, h.1.2, h.2.2⟩

theorem demo_history :
    alloc_history (demo_deps 4) demo_grid_full [(0, 12#4), (0, 3#4)] [] :=
  alloc_history.pdsch demo_grid_busy [(0, 12#4)] [] (demo_ue 18) 3#4 _
    (alloc_history.pdsch demo_grid [] [] (demo_ue 17) 12#4 _
      (alloc_history.init demo_grid (fun i => ⟨demo_slot i.val, rfl⟩)) demo_first_grant)
    demo_second_grant

/-- C17 at a concrete input: the masks `1100` and `0011`, granted one after
the other in slot 0 of the constructed ring. -/
theorem alloc_collision_free_witness :
    alloc_history (demo_deps 4) demo_grid_full [(0, 12#4), (0, 3#4)] [] ∧
      [((0 : Fin 10), 12#4), (0, 3#4)].Pairwise no_collision ∧
      (12#4 : BitVec 4) &&& 3#4 = 0#4 :=
  ⟨demo_history, (alloc_collision_free (demo_deps 4) demo_grid_full _ _ demo_history).1,
   by decide⟩

end collision_free

section direction_frame

variable {W N : Nat} {H Dci : Type}

/-- C18. The two directions and the slots are independent. A call of
`alloc_pdsch` that returns leaves the uplink occupancy and the uplink grant
list of every slot as they were, and the downlink occupancy and downlink
grant list of every slot other than the one at `ue.pdsch_tti`; a call of
`alloc_pusch` that returns leaves the downlink occupancy and the downlink
grant list of every slot as they were, and the uplink occupancy and uplink
grant list of every slot other than the one at `ue.pusch_tti`. -/
theorem alloc_direction_frame [NeZero N] (E : sched_deps W H Dci) (g : bwp_res_grid W N Dci)
    (ue : slot_ue H) (mask : BitVec W) (p : alloc_post W N H Dci) :
    (alloc_pdsch E g ue mask = .ok p → ∀ i : Fin N,
      (p.bwp_grid.slots i).ul_rbgs = (g.slots i).ul_rbgs ∧
      (p.bwp_grid.slots i).pusch_grants = (g.slots i).pusch_grants ∧
      (i ≠ slot_index ue.pdsch_tti →
        (p.bwp_grid.slots i).dl_rbgs = (g.slots i).dl_rbgs ∧
        (p.bwp_grid.slots i).pdsch_grants = (g.slots i).pdsch_grants)) ∧
    (alloc_pusch E g ue mask = .ok p → ∀ i : Fin N,
      (p.bwp_grid.slots i).dl_rbgs = (g.slots i).dl_rbgs ∧
      (p.bwp_grid.slots i).pdsch_grants = (g.slots i).pdsch_grants ∧
      (i ≠ slot_index ue.pusch_tti →
        (p.bwp_grid.slots i).ul_rbgs = (g.slots i).ul_rbgs ∧
        (p.bwp_grid.slots i).pusch_grants = (g.slots i).pusch_grants)) := by
  constructor
  · intro hp i
    rcases alloc_pdsch_inv E g ue mask p hp with
      ⟨-, hpg, -, -⟩ | ⟨h, c, cs, r, -, -, -, -, -, -, hpe⟩
    · rw [hpg]; exact ⟨rfl, rfl, fun _ => ⟨rfl, rfl⟩⟩
    · subst hpe
      have hdl := pdsch_committed_dl E g ue h mask c cs i.val
      have hul := pdsch_committed_ul E g ue h mask c cs i.val
      simp only [← slots_eq_slot, slot_index_val] at hdl hul
      refine ⟨hul.1, hul.2.1, fun hne => ?_⟩
      simp only [hne, if_false] at hdl
      exact hdl
  · intro hp i
    rcases alloc_pusch_inv E g ue mask p hp with
      ⟨-, hpg, -, -⟩ | ⟨h, c, cs, r, pd, -, -, -, -, -, -, -, hpe⟩
    · rw [hpg]; exact ⟨rfl, rfl, fun _ => ⟨rfl, rfl⟩⟩
    · subst hpe
      have hul := pusch_committed_ul E g ue h mask c cs pd i.val
      have hdl := pusch_committed_dl E g ue h mask c cs pd i.val
      simp only [← slots_eq_slot, slot_index_val] at hdl hul
      refine ⟨hdl.1, hdl.2.1, fun hne => ?_⟩
      simp only [hne, if_false] at hul
      exact hul

/-- C18 at a concrete input: the downlink allocation of the mask `1100` in
slot 0 of the constructed ring leaves the uplink side of slot 0 and the
downlink side of slot 1 as they were. -/
theorem alloc_direction_frame_witness :
    (demo_grid_busy.slots 0).ul_rbgs = (demo_grid.slots 0).ul_rbgs ∧
      (demo_grid_busy.slots 0).pusch_grants = (demo_grid.slots 0).pusch_grants ∧
      ((1 : Fin 10) ≠ slot_index (demo_ue 17).pdsch_tti →
        (demo_grid_busy.slots 1).dl_rbgs = (demo_grid.slots 1).dl_rbgs ∧
        (demo_grid_busy.slots 1).pdsch_grants = (demo_grid.slots 1).pdsch_grants) ∧
      (1 : Fin 10) ≠ slot_index (demo_ue 17).pdsch_tti ∧
      (demo_grid_busy.slots 0).dl_rbgs = 12#4 :=
  have h := (alloc_direction_frame (demo_deps 4) demo_grid (demo_ue 17) 12#4 _).1
    demo_first_grant
  ⟨(h 0).1, (h 0).2.1, (h 1).2.2, by decide, rfl⟩

end direction_frame

section after_the_checks

variable {W N : Nat} {H Dci : Type}

theorem pdsch_harq_call_run_of_not_empty (E : sched_deps W H Dci) (ue : slot_ue H) (h : H)
    (mask : BitVec W) (he : E.empty h = false) :
    (pdsch_harq_call E ue h mask).run E h =
      ((E.new_retx h ue.pdsch_tti ue.uci_tti mask).1,
       (E.new_retx h ue.pdsch_tti ue.uci_tti mask).2.2.2) := by
  simp [pdsch_harq_call, he, harq_call.run]

theorem pusch_harq_call_run_of_empty (E : sched_deps W H Dci) (ue : slot_ue H) (h : H)
    (mask : BitVec W) (he : E.empty h = true) :
    (pusch_harq_call E ue h mask).run E h =
      E.new_tx h ue.pusch_tti ue.pusch_tti mask 20 100 ue.cfg.maxharq_tx := by
  simp [pusch_harq_call, he, harq_call.run]

theorem pusch_harq_call_run_of_not_empty (E : sched_deps W H Dci) (ue : slot_ue H) (h : H)
    (mask : BitVec W) (he : E.empty h = false) :
    (pusch_harq_call E ue h mask).run E h =
      ((E.new_retx h ue.pusch_tti ue.pusch_tti mask).1,
       (E.new_retx h ue.pusch_tti ue.pusch_tti mask).2.2.2) := by
  simp [pusch_harq_call, he, harq_call.run]

/-- Once the four checks of `alloc_pdsch` have passed, its outcome is decided
by the HARQ call alone. -/
theorem alloc_pdsch_after_checks [NeZero N] (E : sched_deps W H Dci)
    (g : bwp_res_grid W N Dci) (ue : slot_ue H) (mask : BitVec W) (h : H)
    (c : coreset_region Dci) (cs : List (coreset_region Dci))
    (r : coreset_region Dci × List (pdcch_dl_t Dci))
    (hh : ue.h_dl = some h)
    (hfull : full E.pdsch_cap (g.slot ue.pdsch_tti).pdsch_grants = false)
    (hov : overlaps (g.slot ue.pdsch_tti).dl_rbgs mask = false)
    (hcs : (g.slot ue.pdcch_tti).coresets = c :: cs)
    (hdci : c.alloc_dci E (g.slot ue.pdcch_tti).pdcch_dl_list .dl_data 3 0 ue = some r) :
    alloc_pdsch E g ue mask =
      if ((pdsch_harq_call E ue h mask).run E h).1 = true then
        .ok ⟨.success, pdsch_committed E g ue h mask c cs,
             { ue with h_dl := some ((pdsch_harq_call E ue h mask).run E h).2 },
             [pdsch_harq_call E ue h mask]⟩
      else .error .harq_assert := by
  cases hret : ((pdsch_harq_call E ue h mask).run E h).1
  · simp only [Bool.false_eq_true, if_false]
    exact alloc_pdsch_of_refused E g ue mask h c cs r hh hfull hov hcs hdci hret
  · simp only [if_true]
    exact alloc_pdsch_of_pass E g ue mask h c cs r hh hfull hov hcs hdci hret

/-- Once the four checks of `alloc_pusch` have passed, its outcome is decided
by the HARQ call and, when that is accepted, by the control slot's
`pdcch_ul_list`. -/
theorem alloc_pusch_after_checks [NeZero N] (E : sched_deps W H Dci)
    (g : bwp_res_grid W N Dci) (ue : slot_ue H) (mask : BitVec W) (h : H)
    (c : coreset_region Dci) (cs : List (coreset_region Dci))
    (r : coreset_region Dci × List (pdcch_dl_t Dci))
    (hh : ue.h_ul = some h)
    (hfull : full E.pusch_cap (g.slot ue.pusch_tti).pusch_grants = false)
    (hov : overlaps (g.slot ue.pusch_tti).ul_rbgs mask = false)
    (hcs : (g.slot ue.pdcch_tti).coresets = c :: cs)
    (hdci : c.alloc_dci E (g.slot ue.pdcch_tti).pdcch_dl_list .ul_data 3 0 ue = some r) :
    alloc_pusch E g ue mask =
      if ((pusch_harq_call E ue h mask).run E h).1 = true then
        pusch_finish E g ue h mask c cs ((pusch_harq_call E ue h mask).run E h).2
          [pusch_harq_call E ue h mask]
      else .error .harq_assert := by
  cases hret : ((pusch_harq_call E ue h mask).run E h).1
  · simp only [Bool.false_eq_true, if_false]
    exact alloc_pusch_of_refused E g ue mask h c cs r hh hfull hov hcs hdci hret
  · simp only [if_true, pusch_finish]
    cases hback : (g.slot ue.pdcch_tti).pdcch_ul_list.getLast? with
    | none =>
      have := alloc_pusch_of_empty_ul_list E g ue mask h c cs r hh hfull hov hcs hdci
        (List.getLast?_eq_none_iff.mp hback)
      simpa [hret] using this
    | some pd =>
      exact alloc_pusch_of_pass E g ue mask h c cs r pd hh hfull hov hcs hdci hret hback

end after_the_checks

section harq_call_made

variable {W N : Nat} {H Dci : Type}

theorem alloc_pdsch_after_checks_empty [NeZero N] (E : sched_deps W H Dci)
    (g : bwp_res_grid W N Dci) (ue : slot_ue H) (mask : BitVec W) (h : H)
    (c : coreset_region Dci) (cs : List (coreset_region Dci))
    (r : coreset_region Dci × List (pdcch_dl_t Dci))
    (hh : ue.h_dl = some h)
    (hfull : full E.pdsch_cap (g.slot ue.pdsch_tti).pdsch_grants = false)
    (hov : overlaps (g.slot ue.pdsch_tti).dl_rbgs mask = false)
    (hcs : (g.slot ue.pdcch_tti).coresets = c :: cs)
    (hdci : c.alloc_dci E (g.slot ue.pdcch_tti).pdcch_dl_list .dl_data 3 0 ue = some r)
    (he : E.empty h = true) :
    alloc_pdsch E g ue mask =
      if (E.new_tx h ue.pdsch_tti ue.uci_tti mask 20 100 4).1 = true then
        .ok ⟨.success, pdsch_committed E g ue h mask c cs,
             { ue with h_dl := some (E.new_tx h ue.pdsch_tti ue.uci_tti mask 20 100 4).2 },
             [.new_tx ue.pdsch_tti ue.uci_tti mask 20 100 4]⟩
      else .error .harq_assert := by
  rw [alloc_pdsch_after_checks E g ue mask h c cs r hh hfull hov hcs hdci,
    pdsch_harq_call_run_of_empty E ue h mask he]
  simp [pdsch_harq_call, he]

theorem alloc_pdsch_after_checks_not_empty [NeZero N] (E : sched_deps W H Dci)
    (g : bwp_res_grid W N Dci) (ue : slot_ue H) (mask : BitVec W) (h : H)
    (c : coreset_region Dci) (cs : List (coreset_region Dci))
    (r : coreset_region Dci × List (pdcch_dl_t Dci))
    (hh : ue.h_dl = some h)
    (hfull : full E.pdsch_cap (g.slot ue.pdsch_tti).pdsch_grants = false)
    (hov : overlaps (g.slot ue.pdsch_tti).dl_rbgs mask = false)
    (hcs : (g.slot ue.pdcch_tti).coresets = c :: cs)
    (hdci : c.alloc_dci E (g.slot ue.pdcch_tti).pdcch_dl_list .dl_data 3 0 ue = some r)
    (he : E.empty h = false) :
    alloc_pdsch E g ue mask =
      if (E.new_retx h ue.pdsch_tti ue.uci_tti mask).1 = true then
        .ok ⟨.success, pdsch_committed E g ue h mask c cs,
             { ue with h_dl := some (E.new_retx h ue.pdsch_tti ue.uci_tti mask).2.2.2 },
             [.new_retx ue.pdsch_tti ue.uci_tti mask]⟩
      else .error .harq_assert := by
  rw [alloc_pdsch_after_checks E g ue mask h c cs r hh hfull hov hcs hdci,
    pdsch_harq_call_run_of_not_empty E ue h mask he]
  simp [pdsch_harq_call, he]

theorem alloc_pusch_after_checks_empty [NeZero N] (E : sched_deps W H Dci)
    (g : bwp_res_grid W N Dci) (ue : slot_ue H) (mask : BitVec W) (h : H)
    (c : coreset_region Dci) (cs : List (coreset_region Dci))
    (r : coreset_region Dci × List (pdcch_dl_t Dci))
    (hh : ue.h_ul = some h)
    (hfull : full E.pusch_cap (g.slot ue.pusch_tti).pusch_grants = false)
    (hov : overlaps (g.slot ue.pusch_tti).ul_rbgs mask = false)
    (hcs : (g.slot ue.pdcch_tti).coresets = c :: cs)
    (hdci : c.alloc_dci E (g.slot ue.pdcch_tti).pdcch_dl_list .ul_data 3 0 ue = some r)
    (he : E.empty h = true) :
    alloc_pusch E g ue mask =
      if (E.new_tx h ue.pusch_tti ue.pusch_tti mask 20 100 ue.cfg.maxharq_tx).1 = true then
        pusch_finish E g ue h mask c cs
          (E.new_tx h ue.pusch_tti ue.pusch_tti mask 20 100 ue.cfg.maxharq_tx).2
          [.new_tx ue.pusch_tti ue.pusch_tti mask 20 100 ue.cfg.maxharq_tx]
      else .error .harq_assert := by
  rw [alloc_pusch_after_checks E g ue mask h c cs r hh hfull hov hcs hdci,
    pusch_harq_call_run_of_empty E ue h mask he]
  simp [pusch_harq_call, he]

theorem alloc_pusch_after_checks_not_empty [NeZero N] (E : sched_deps W H Dci)
    (g : bwp_res_grid W N Dci) (ue : slot_ue H) (mask : BitVec W) (h : H)
    (c : coreset_region Dci) (cs : List (coreset_region Dci))
    (r : coreset_region Dci × List (pdcch_dl_t Dci))
    (hh : ue.h_ul = some h)
    (hfull : full E.pusch_cap (g.slot ue.pusch_tti).pusch_grants = false)
    (hov : overlaps (g.slot ue.pusch_tti).ul_rbgs mask = false)
    (hcs : (g.slot ue.pdcch_tti).coresets = c :: cs)
    (hdci : c.alloc_dci E (g.slot ue.pdcch_tti).pdcch_dl_list .ul_data 3 0 ue = some r)
    (he : E.empty h = false) :
    alloc_pusch E g ue mask =
      if (E.new_retx h ue.pusch_tti ue.pusch_tti mask).1 = true then
        pusch_finish E g ue h mask c cs
          (E.new_retx h ue.pusch_tti ue.pusch_tti mask).2.2.2
          [.new_retx ue.pusch_tti ue.pusch_tti mask]
      else .error .harq_assert := by
  rw [alloc_pusch_after_checks E g ue mask h c cs r hh hfull hov hcs hdci,
    pusch_harq_call_run_of_not_empty E ue h mask he]
  simp [pusch_harq_call, he]

end harq_call_made

section harq_call_outcome

variable {W N : Nat} {H Dci : Type}

/-- C11. Once the four checks have passed, `alloc_pdsch` and `alloc_pusch`
make exactly one call on the connection's HARQ process, and what they do next
is decided by its result: a new transmission with the proposed mask, mcs 20
and transport-block size 100 when the process reports empty, a
retransmission otherwise. A refused call ends the allocation on the
assertion. After an accepted one the process is in the state that one call
left it in, and `alloc_pdsch` returns `success` while `alloc_pusch` goes on
to the control slot's `pdcch_ul_list`. A call that returns a failure has made
no HARQ call. Consequently, when the process is not empty after its new
transmission, the next allocation for it issues a retransmission. -/
theorem harq_call_once_checks_pass [NeZero N] (E : sched_deps W H Dci)
    (g : bwp_res_grid W N Dci) (ue : slot_ue H) (mask : BitVec W) (h : H)
    (c : coreset_region Dci) (cs : List (coreset_region Dci)) :
    (pdsch_checks_pass E g ue mask h c cs →
      (E.empty h = true → alloc_pdsch E g ue mask =
        if (E.new_tx h ue.pdsch_tti ue.uci_tti mask 20 100 4).1 = true then
          .ok ⟨.success, pdsch_committed E g ue h mask c cs,
               { ue with h_dl := some (E.new_tx h ue.pdsch_tti ue.uci_tti mask 20 100 4).2 },
               [.new_tx ue.pdsch_tti ue.uci_tti mask 20 100 4]⟩
        else .error .harq_assert) ∧
      (E.empty h = false → alloc_pdsch E g ue mask =
        if (E.new_retx h ue.pdsch_tti ue.uci_tti mask).1 = true then
          .ok ⟨.success, pdsch_committed E g ue h mask c cs,
               { ue with h_dl := some (E.new_retx h ue.pdsch_tti ue.uci_tti mask).2.2.2 },
               [.new_retx ue.pdsch_tti ue.uci_tti mask]⟩
        else .error .harq_assert)) ∧
    (pusch_checks_pass E g ue mask h c cs →
      (E.empty h = true → alloc_pusch E g ue mask =
        if (E.new_tx h ue.pusch_tti ue.pusch_tti mask 20 100 ue.cfg.maxharq_tx).1 = true then
          pusch_finish E g ue h mask c cs
            (E.new_tx h ue.pusch_tti ue.pusch_tti mask 20 100 ue.cfg.maxharq_tx).2
            [.new_tx ue.pusch_tti ue.pusch_tti mask 20 100 ue.cfg.maxharq_tx]
        else .error .harq_assert) ∧
      (E.empty h = false → alloc_pusch E g ue mask =
        if (E.new_retx h ue.pusch_tti ue.pusch_tti mask).1 = true then
          pusch_finish E g ue h mask c cs
            (E.new_retx h ue.pusch_tti ue.pusch_tti mask).2.2.2
            [.new_retx ue.pusch_tti ue.pusch_tti mask]
        else .error .harq_assert)) ∧
    (∀ p, alloc_pdsch E g ue mask = .ok p ∨ alloc_pusch E g ue mask = .ok p →
      p.result ≠ .success → p.harq_calls = [] ∧ p.ue = ue) ∧
    (E.empty h = true →
      E.empty (E.new_tx h ue.pdsch_tti ue.uci_tti mask 20 100 4).2 = false →
      ∀ (g2 : bwp_res_grid W N Dci) (ue2 : slot_ue H) (mask2 : BitVec W)
        (c2 : coreset_region Dci) (cs2 : List (coreset_region Dci)),
        pdsch_checks_pass E g2 ue2 mask2
          (E.new_tx h ue.pdsch_tti ue.uci_tti mask 20 100 4).2 c2 cs2 →
        alloc_pdsch E g2 ue2 mask2 =
          if (E.new_retx (E.new_tx h ue.pdsch_tti ue.uci_tti mask 20 100 4).2
                ue2.pdsch_tti ue2.uci_tti mask2).1 = true then
            .ok ⟨.success,
                 pdsch_committed E g2 ue2 (E.new_tx h ue.pdsch_tti ue.uci_tti mask 20 100 4).2
                   mask2 c2 cs2,
                 { ue2 with
                   h_dl := some (E.new_retx (E.new_tx h ue.pdsch_tti ue.uci_tti mask 20 100 4).2
                     ue2.pdsch_tti ue2.uci_tti mask2).2.2.2 },
                 [.new_retx ue2.pdsch_tti ue2.uci_tti mask2]⟩
          else .error .harq_assert) := by
  refine ⟨?_, ?_, ?_, ?_⟩
  · rintro ⟨hh, hfull, hov, hcs, hdci⟩
    obtain ⟨r, hr⟩ := Option.isSome_iff_exists.mp hdci
    exact ⟨alloc_pdsch_after_checks_empty E g ue mask h c cs r hh hfull hov hcs hr,
      alloc_pdsch_after_checks_not_empty E g ue mask h c cs r hh hfull hov hcs hr⟩
  · rintro ⟨hh, hfull, hov, hcs, hdci⟩
    obtain ⟨r, hr⟩ := Option.isSome_iff_exists.mp hdci
    exact ⟨alloc_pusch_after_checks_empty E g ue mask h c cs r hh hfull hov hcs hr,
      alloc_pusch_after_checks_not_empty E g ue mask h c cs r hh hfull hov hcs hr⟩
  · rintro p (hp | hp) hne
    · exact (alloc_pdsch_harq_trace E g ue mask p hp).1 hne
    · exact (alloc_pusch_harq_trace E g ue mask p hp).1 hne
  · rintro - hne g2 ue2 mask2 c2 cs2 ⟨hh, hfull, hov, hcs, hdci⟩
    obtain ⟨r, hr⟩ := Option.isSome_iff_exists.mp hdci
    exact alloc_pdsch_after_checks_not_empty E g2 ue2 mask2 _ c2 cs2 r hh hfull hov hcs hr hne

end harq_call_outcome

section harq_call_outcome_examples

/-- Runs at concrete inputs, on the ring the constructors build. Downlink: the
four checks pass, the empty process accepts the new transmission and the
allocation is granted with that one call. Uplink: the four checks pass and
the one call is made before the allocation ends: an accepting process lets
it reach the empty `pdcch_ul_list`, a refusing one ends it on the assertion;
a process that stores `0011` is asked for a retransmission, which it accepts
with the mask `0011` and refuses with `1100`. -/
theorem harq_call_once_checks_pass_witness :
    pdsch_checks_pass (demo_deps 4) demo_grid (demo_ue 17) 12#4 none
        (coreset_region.ctor 0 0 1 16) [] ∧
      alloc_pdsch (demo_deps 4) demo_grid (demo_ue 17) 12#4 =
        .ok ⟨.success, demo_grid_busy, { demo_ue 17 with h_dl := some (some 12#4) },
             [.new_tx 0 4 12#4 20 100 4]⟩ ∧
      alloc_pusch (demo_deps 4) demo_grid (demo_ue 17) 12#4 = .error .back_of_empty ∧
      alloc_pusch demo_deps_refusing demo_grid (demo_ue 17) 12#4 = .error .harq_assert ∧
      alloc_pusch (demo_deps 4) demo_grid (demo_ue_ul_retx 17) 3#4 = .error .back_of_empty ∧
      alloc_pusch (demo_deps 4) demo_grid (demo_ue_ul_retx 17) 12#4 = .error .harq_assert :=
  ⟨⟨rfl, rfl, rfl, rfl, rfl⟩,
   (((harq_call_once_checks_pass (demo_deps 4) demo_grid (demo_ue 17) 12#4 none
      (coreset_region.ctor 0 0 1 16) []).1 ⟨rfl, rfl, rfl, rfl, rfl⟩).1 rfl).trans rfl,
   (((harq_call_once_checks_pass (demo_deps 4) demo_grid (demo_ue 17) 12#4 none
      (coreset_region.ctor 0 0 1 16) []).2.1 ⟨rfl, rfl, rfl, rfl, rfl⟩).1 rfl).trans rfl,
   (((harq_call_once_checks_pass demo_deps_refusing demo_grid (demo_ue 17) 12#4 none
      (coreset_region.ctor 0 0 1 16) []).2.1 ⟨rfl, rfl, rfl, rfl, rfl⟩).1 rfl).trans rfl,
   (((harq_call_once_checks_pass (demo_deps 4) demo_grid (demo_ue_ul_retx 17) 3#4 (some 3#4)
      (coreset_region.ctor 0 0 1 16) []).2.1 ⟨rfl, rfl, rfl, rfl, rfl⟩).2 rfl).trans rfl,
   (((harq_call_once_checks_pass (demo_deps 4) demo_grid (demo_ue_ul_retx 17) 12#4 (some 3#4)
      (coreset_region.ctor 0 0 1 16) []).2.1 ⟨rfl, rfl, rfl, rfl, rfl⟩).2 rfl).trans rfl⟩

end harq_call_outcome_examples

section harq_call_arguments_after_checks

variable {W N : Nat} {H Dci : Type}

/-- C14. On the new-transmission path (the four checks have passed and the
process reports empty) the retry ceiling `alloc_pusch` hands to the uplink
HARQ process is the connection's configured `maxharq_tx`, whatever the
configuration, and the one `alloc_pdsch` hands to the downlink process is
the constant 4, whatever the configuration: the outcome of each allocation
and the state the process is left in are those of the new transmission with
that ceiling. -/
theorem harq_ceiling_after_checks [NeZero N] (E : sched_deps W H Dci)
    (g : bwp_res_grid W N Dci) (ue : slot_ue H) (mask : BitVec W) (h : H)
    (c : coreset_region Dci) (cs : List (coreset_region Dci)) (he : E.empty h = true) :
    (pusch_checks_pass E g ue mask h c cs → alloc_pusch E g ue mask =
      if (E.new_tx h ue.pusch_tti ue.pusch_tti mask 20 100 ue.cfg.maxharq_tx).1 = true then
        pusch_finish E g ue h mask c cs
          (E.new_tx h ue.pusch_tti ue.pusch_tti mask 20 100 ue.cfg.maxharq_tx).2
          [.new_tx ue.pusch_tti ue.pusch_tti mask 20 100 ue.cfg.maxharq_tx]
      else .error .harq_assert) ∧
    (pdsch_checks_pass E g ue mask h c cs → alloc_pdsch E g ue mask =
      if (E.new_tx h ue.pdsch_tti ue.uci_tti mask 20 100 4).1 = true then
        .ok ⟨.success, pdsch_committed E g ue h mask c cs,
             { ue with h_dl := some (E.new_tx h ue.pdsch_tti ue.uci_tti mask 20 100 4).2 },
             [.new_tx ue.pdsch_tti ue.uci_tti mask 20 100 4]⟩
      else .error .harq_assert) := by
  constructor
  · rintro ⟨hh, hfull, hov, hcs, hdci⟩
    obtain ⟨r, hr⟩ := Option.isSome_iff_exists.mp hdci
    exact alloc_pusch_after_checks_empty E g ue mask h c cs r hh hfull hov hcs hr he
  · rintro ⟨hh, hfull, hov, hcs, hdci⟩
    obtain ⟨r, hr⟩ := Option.isSome_iff_exists.mp hdci
    exact alloc_pdsch_after_checks_empty E g ue mask h c cs r hh hfull hov hcs hr he

/-- Runs at concrete inputs, on the ring the constructors build, with a
process that accepts a new transmission only when the ceiling passed is 4.
For a connection configured with `maxharq_tx` 7, `alloc_pdsch` is granted
(the ceiling passed is 4) and `alloc_pusch` ends on the assertion (the
ceiling passed is 7); for a connection configured with 4, `alloc_pusch`
gets past the HARQ call and ends at the empty `pdcch_ul_list`. -/
theorem harq_ceiling_after_checks_witness :
    (demo_ue_cfg7 17).cfg.maxharq_tx = 7 ∧
      alloc_pdsch demo_deps_ceiling4 demo_grid (demo_ue_cfg7 17) 12#4 =
        .ok ⟨.success,
             pdsch_committed demo_deps_ceiling4 demo_grid (demo_ue_cfg7 17) none 12#4
               (coreset_region.ctor 0 0 1 16) [],
             { demo_ue_cfg7 17 with h_dl := some (some 12#4) },
             [.new_tx 0 4 12#4 20 100 4]⟩ ∧
      alloc_pusch demo_deps_ceiling4 demo_grid (demo_ue_cfg7 17) 12#4 = .error .harq_assert ∧
      (demo_ue 17).cfg.maxharq_tx = 4 ∧
      alloc_pusch demo_deps_ceiling4 demo_grid (demo_ue 17) 12#4 = .error .back_of_empty :=
  ⟨rfl,
   ((harq_ceiling_after_checks demo_deps_ceiling4 demo_grid (demo_ue_cfg7 17) 12#4 none
      (coreset_region.ctor 0 0 1 16) [] rfl).2 ⟨rfl, rfl, rfl, rfl, rfl⟩).trans rfl,
   ((harq_ceiling_after_checks demo_deps_ceiling4 demo_grid (demo_ue_cfg7 17) 12#4 none
      (coreset_region.ctor 0 0 1 16) [] rfl).1 ⟨rfl, rfl, rfl, rfl, rfl⟩).trans rfl,
   rfl,
   ((harq_ceiling_after_checks demo_deps_ceiling4 demo_grid (demo_ue 17) 12#4 none
      (coreset_region.ctor 0 0 1 16) [] rfl).1 ⟨rfl, rfl, rfl, rfl, rfl⟩).trans rfl⟩

/-- C15. Once the four checks have passed, the HARQ call of `alloc_pusch`,
new transmission or retransmission, is made with `ue.pusch_tti` both as data
slot and as feedback slot, and the HARQ call of `alloc_pdsch` with
`ue.pdsch_tti` as data slot and `ue.uci_tti` as feedback slot: the outcome of
each allocation and the state the process is left in are those of the call
with these slots. -/
theorem harq_slots_after_checks [NeZero N] (E : sched_deps W H Dci)
    (g : bwp_res_grid W N Dci) (ue : slot_ue H) (mask : BitVec W) (h : H)
    (c : coreset_region Dci) (cs : List (coreset_region Dci)) :
    (pusch_checks_pass E g ue mask h c cs →
      (E.empty h = true → alloc_pusch E g ue mask =
        if (E.new_tx h ue.pusch_tti ue.pusch_tti mask 20 100 ue.cfg.maxharq_tx).1 = true then
          pusch_finish E g ue h mask c cs
            (E.new_tx h ue.pusch_tti ue.pusch_tti mask 20 100 ue.cfg.maxharq_tx).2
            [.new_tx ue.pusch_tti ue.pusch_tti mask 20 100 ue.cfg.maxharq_tx]
        else .error .harq_assert) ∧
      (E.empty h = false → alloc_pusch E g ue mask =
        if (E.new_retx h ue.pusch_tti ue.pusch_tti mask).1 = true then
          pusch_finish E g ue h mask c cs
            (E.new_retx h ue.pusch_tti ue.pusch_tti mask).2.2.2
            [.new_retx ue.pusch_tti ue.pusch_tti mask]
        else .error .harq_assert)) ∧
    (pdsch_checks_pass E g ue mask h c cs →
      (E.empty h = true → alloc_pdsch E g ue mask =
        if (E.new_tx h ue.pdsch_tti ue.uci_tti mask 20 100 4).1 = true then
          .ok ⟨.success, pdsch_committed E g ue h mask c cs,
               { ue with h_dl := some (E.new_tx h ue.pdsch_tti ue.uci_tti mask 20 100 4).2 },
               [.new_tx ue.pdsch_tti ue.uci_tti mask 20 100 4]⟩
        else .error .harq_assert) ∧
      (E.empty h = false → alloc_pdsch E g ue mask =
        if (E.new_retx h ue.pdsch_tti ue.uci_tti mask).1 = true then
          .ok ⟨.success, pdsch_committed E g ue h mask c cs,
               { ue with h_dl := some (E.new_retx h ue.pdsch_tti ue.uci_tti mask).2.2.2 },
               [.new_retx ue.pdsch_tti ue.uci_tti mask]⟩
        else .error .harq_assert)) := by
  constructor
  · rintro ⟨hh, hfull, hov, hcs, hdci⟩
    obtain ⟨r, hr⟩ := Option.isSome_iff_exists.mp hdci
    exact ⟨alloc_pusch_after_checks_empty E g ue mask h c cs r hh hfull hov hcs hr,
      alloc_pusch_after_checks_not_empty E g ue mask h c cs r hh hfull hov hcs hr⟩
  · rintro ⟨hh, hfull, hov, hcs, hdci⟩
    obtain ⟨r, hr⟩ := Option.isSome_iff_exists.mp hdci
    exact ⟨alloc_pdsch_after_checks_empty E g ue mask h c cs r hh hfull hov hcs hr,
      alloc_pdsch_after_checks_not_empty E g ue mask h c cs r hh hfull hov hcs hr⟩

/-- Runs at concrete inputs, on the ring the constructors build, with a
process that accepts a call only when the data slot and the feedback slot
passed are the same. The request has downlink data in slot 0, feedback in
slot 4 and uplink data in slot 4. `alloc_pusch` gets past the HARQ call, on
the new-transmission and on the retransmission path, and ends at the empty
`pdcch_ul_list`; `alloc_pdsch` is refused on both paths. -/
theorem harq_slots_after_checks_witness :
    ((demo_ue 17).pusch_tti = 4 ∧ (demo_ue 17).pdsch_tti = 0 ∧ (demo_ue 17).uci_tti = 4) ∧
      alloc_pusch demo_deps_sync demo_grid (demo_ue 17) 12#4 = .error .back_of_empty ∧
      alloc_pusch demo_deps_sync demo_grid (demo_ue_ul_retx 17) 12#4 = .error .back_of_empty ∧
      alloc_pdsch demo_deps_sync demo_grid (demo_ue 17) 12#4 = .error .harq_assert ∧
      alloc_pdsch demo_deps_sync demo_grid (demo_ue_retx 17) 12#4 = .error .harq_assert :=
  ⟨⟨rfl, rfl, rfl⟩,
   (((harq_slots_after_checks demo_deps_sync demo_grid (demo_ue 17) 12#4 none
      (coreset_region.ctor 0 0 1 16) []).1 ⟨rfl, rfl, rfl, rfl, rfl⟩).1 rfl).trans rfl,
   (((harq_slots_after_checks demo_deps_sync demo_grid (demo_ue_ul_retx 17) 12#4 (some 3#4)
      (coreset_region.ctor 0 0 1 16) []).1 ⟨rfl, rfl, rfl, rfl, rfl⟩).2 rfl).trans rfl,
   (((harq_slots_after_checks demo_deps_sync demo_grid (demo_ue 17) 12#4 none
      (coreset_region.ctor 0 0 1 16) []).2 ⟨rfl, rfl, rfl, rfl, rfl⟩).1 rfl).trans rfl,
   (((harq_slots_after_checks demo_deps_sync demo_grid (demo_ue_retx 17) 12#4 (some 3#4)
      (coreset_region.ctor 0 0 1 16) []).2 ⟨rfl, rfl, rfl, rfl, rfl⟩).2 rfl).trans rfl⟩

end harq_call_arguments_after_checks

section produced_grids

variable {W N : Nat} {H Dci : Type}

end produced_grids

section rejected_then_reset

variable {W N : Nat} {H Dci : Type}

end rejected_then_reset

section rejected_then_granted

variable {W N : Nat} {H Dci : Type}

end rejected_then_granted

section rejected_then_granted_example

end rejected_then_granted_example

end sched_nr_impl

section ul_dcch

/-- For an rnti that is not in the user table and a PDU that unpacks as a
`c1` message, `handle_ul_dcch` reports the failure and then, not having
returned, dereferences the iterator the lookup gave: no handler is invoked,
and the call does not end by returning. -/
theorem rrc_nr.handle_ul_dcch_of_unknown_rnti (users : List (Nat × rrc_ue)) (rnti lcid : Nat)
    (t : ul_dcch_c1_type) (h : users.lookup rnti = none) :
    rrc_nr.handle_ul_dcch users rnti lcid (.c1 t) =
      ⟨[.rx_pdu_fail rnti lcid .inexistent_rnti], .dereferenced_end⟩ := by
  simp [rrc_nr.handle_ul_dcch, h]

/-- For an rnti that is not in the user table `handle_rrc_setup_request`
logs the error and returns without touching a user context. -/
theorem rrc_nr.handle_rrc_setup_request_of_unknown_rnti (users : List (Nat × rrc_ue))
    (rnti : Nat) (h : users.lookup rnti = none) :
    rrc_nr.handle_rrc_setup_request users rnti =
      ⟨[.setup_request_for_inexistent_rnti rnti], .returned⟩ := by
  simp [rrc_nr.handle_rrc_setup_request, h]

/-- For an rnti that is in the user table `handle_ul_dcch` returns, and the
only user context it invokes a handler of is the one the lookup found. -/
theorem rrc_nr.handle_ul_dcch_of_known_rnti (users : List (Nat × rrc_ue)) (rnti lcid : Nat)
    (t : ul_dcch_c1_type) (u : rrc_ue) (h : users.lookup rnti = some u) :
    (rrc_nr.handle_ul_dcch users rnti lcid (.c1 t)).ending = .returned ∧
      ∀ v f, rrc_event.handler v f ∈ (rrc_nr.handle_ul_dcch users rnti lcid (.c1 t)).events →
        v = u := by
  cases t <;> simp [rrc_nr.handle_ul_dcch, h]

/-- C19 at a concrete input: the user table holds the rnti `0x4601` only, and
a PDU that unpacks as a `c1` message of type `rrcSetupComplete` arrives for
the rnti `0x4602` on the bearer 1. The failure is reported, and the call then
ends by dereferencing `users.end()`, where the claim has it return; the
sibling `handle_rrc_setup_request` does return for that rnti. -/
theorem rrc_nr.handle_ul_dcch_inexistent_rnti :
    List.lookup 17922 [(17921, (⟨17921⟩ : rrc_ue))] = none ∧
      rrc_nr.handle_ul_dcch [(17921, ⟨17921⟩)] 17922 1 (.c1 .rrc_setup_complete) =
        ⟨[.rx_pdu_fail 17922 1 .inexistent_rnti], .dereferenced_end⟩ ∧
      (rrc_nr.handle_ul_dcch [(17921, ⟨17921⟩)] 17922 1 (.c1 .rrc_setup_complete)).ending ≠
        .returned ∧
      rrc_nr.handle_rrc_setup_request [(17921, ⟨17921⟩)] 17922 =
        ⟨[.setup_request_for_inexistent_rnti 17922], .returned⟩ :=
  ⟨by decide, by decide, by decide, by decide⟩

end ul_dcch

end srsenb
